import Mathlib

/-! # svZeroDSolver: activation functions, vessel and chamber blocks

A shallow embedding of `src/model/ActivationFunction.{h,cpp}` and of the
blocks that use it, together with proofs of properties of the embedded code.

Number model.

A C++ `double` is embedded as `Dbl K`: either an exact element of an ordered
field `K` (the idealisation of a finite double: no rounding, no overflow), or
one of the IEEE special values `+inf`, `-inf`, `NaN`.  The special values are
produced exactly where IEEE arithmetic on exact operands produces them
(division by zero, `fmod` by zero, `inf - inf`, ...), and comparisons with
`NaN` are false.  Zero is unsigned (it behaves as `+0`).

The functions of the C++ standard library that have no closed form over an
ordered field (`std::cos`, `std::pow`, `std::to_string`, the constant `M_PI`)
are parameters of the definitions that call them.
-/

set_option linter.unusedSectionVars false
set_option linter.unusedVariables false

namespace SvZeroD

/-- An idealised `double`: an exact finite value or an IEEE special value. -/
inductive Dbl (K : Type) where
  | fin (x : K)
  | pinf
  | ninf
  | nan
  deriving DecidableEq, Repr

namespace Dbl

variable {K : Type} [LinearOrderedField K] [FloorRing K]

/-- The infinity carrying the sign of `a`; `NaN` when `a` is zero
(`0 * inf`, `0 / 0`). -/
def signedInf (a : K) : Dbl K :=
  if a = 0 then nan else if 0 < a then pinf else ninf

/-- Unary minus. -/
def neg : Dbl K → Dbl K
  | fin x => fin (-x)
  | pinf => ninf
  | ninf => pinf
  | nan => nan

/-- IEEE addition on exact operands. -/
def add : Dbl K → Dbl K → Dbl K
  | fin a, fin b => fin (a + b)
  | fin _, pinf => pinf
  | fin _, ninf => ninf
  | pinf, fin _ => pinf
  | pinf, pinf => pinf
  | ninf, fin _ => ninf
  | ninf, ninf => ninf
  | _, _ => nan

/-- IEEE subtraction. -/
def sub (a b : Dbl K) : Dbl K := add a (neg b)

/-- IEEE multiplication on exact operands. -/
def mul : Dbl K → Dbl K → Dbl K
  | fin a, fin b => fin (a * b)
  | fin a, pinf => signedInf a
  | fin a, ninf => signedInf (-a)
  | pinf, fin b => signedInf b
  | ninf, fin b => signedInf (-b)
  | pinf, pinf => pinf
  | ninf, ninf => pinf
  | pinf, ninf => ninf
  | ninf, pinf => ninf
  | _, _ => nan

/-- IEEE division on exact operands (a zero divisor is `+0`). -/
def div : Dbl K → Dbl K → Dbl K
  | fin a, fin b => if b = 0 then signedInf a else fin (a / b)
  | fin _, pinf => fin 0
  | fin _, ninf => fin 0
  | pinf, fin b => if 0 ≤ b then pinf else ninf
  | ninf, fin b => if 0 ≤ b then ninf else pinf
  | _, _ => nan

instance : Neg (Dbl K) := ⟨neg⟩
instance : Add (Dbl K) := ⟨add⟩
instance : Sub (Dbl K) := ⟨sub⟩
instance : Mul (Dbl K) := ⟨mul⟩
instance : Div (Dbl K) := ⟨div⟩

/-- The comparison `a < b` of two doubles (false when either is `NaN`). -/
def lt : Dbl K → Dbl K → Bool
  | fin a, fin b => decide (a < b)
  | fin _, pinf => true
  | ninf, fin _ => true
  | ninf, pinf => true
  | _, _ => false

/-- The comparison `a <= b` of two doubles (false when either is `NaN`). -/
def le : Dbl K → Dbl K → Bool
  | fin a, fin b => decide (a ≤ b)
  | fin _, pinf => true
  | ninf, fin _ => true
  | ninf, pinf => true
  | pinf, pinf => true
  | ninf, ninf => true
  | _, _ => false

/-- The comparison `a > b`. -/
def gt (a b : Dbl K) : Bool := lt b a

/-- The comparison `a >= b`. -/
def ge (a b : Dbl K) : Bool := le b a

/-- Rounding toward zero, the quotient that `fmod` uses. -/
def trunc (q : K) : ℤ := if 0 ≤ q then ⌊q⌋ else ⌈q⌉

/-- The function `std::fmod(x, y)`: `x - n * y` with `n` the quotient `x / y`
rounded toward zero; `NaN` when `y` is zero or `x` is infinite, and `x` itself
when `y` is infinite. -/
def fmod : Dbl K → Dbl K → Dbl K
  | fin x, fin y => if y = 0 then nan else fin (x - (trunc (x / y) : K) * y)
  | fin x, pinf => fin x
  | fin x, ninf => fin x
  | _, _ => nan

/-- The function `std::max(a, b)`, which is `(a < b) ? b : a`. -/
def max (a b : Dbl K) : Dbl K := if lt a b then b else a

/-- The function `std::isfinite`. -/
def isfinite : Dbl K → Bool
  | fin _ => true
  | _ => false

/-- A real function of one real argument applied to a double: `NaN` outside
the finite values (as `std::cos` is at an infinity or a `NaN`). -/
def map (f : K → K) : Dbl K → Dbl K
  | fin x => fin (f x)
  | _ => nan

/-- The function `fabs`. -/
def fabs : Dbl K → Dbl K
  | fin x => fin |x|
  | pinf => pinf
  | ninf => pinf
  | nan => nan

end Dbl

open Dbl

/-! ## The activation-function classes (`ActivationFunction.h`, `.cpp`) -/

/-- The exceptions the code throws: `std::runtime_error` with its message, and
the `std::out_of_range` of `std::map::at` on an absent key. -/
inductive Error where
  | runtime_error (what : String)
  | out_of_range
  deriving DecidableEq, Repr

/-- Modelled from the spec: the parameter descriptor `InputParameter` of
`Parameter.h`, which is not among the sources: a numeric flag, an optional
flag, an array flag and a default value.  A default-constructed descriptor is a
required (non-optional) scalar number with default value 0.0. -/
structure InputParameter (K : Type) where
  is_optional : Bool := false
  is_array : Bool := false
  is_number : Bool := true
  default_val : Dbl K

/-- The state of the base class `ActivationFunction`: the declared parameter
descriptors, the cardiac period and the map from parameter names to values. -/
structure ActivationFunction (K : Type) where
  input_param_properties : List (String × InputParameter K)
  cardiac_period_ : Dbl K
  params_ : String → Option (Dbl K)

/-- The class `HalfCosineActivation`: no state beyond the base class. -/
structure HalfCosineActivation (K : Type) extends ActivationFunction K

/-- The class `PiecewiseCosineActivation`: no state beyond the base class. -/
structure PiecewiseCosineActivation (K : Type) extends ActivationFunction K

/-- The class `TwoHillActivation`: the base class, the normalization factor and
the flag that records that it has been computed. -/
structure TwoHillActivation (K : Type) extends ActivationFunction K where
  normalization_factor_ : Dbl K
  normalization_initialized_ : Bool

/-- The dynamic type and state behind a `std::unique_ptr<ActivationFunction>`. -/
inductive ActivationFunctionPtr (K : Type) where
  | half_cosine (a : HalfCosineActivation K)
  | piecewise_cosine (a : PiecewiseCosineActivation K)
  | two_hill (a : TwoHillActivation K)

section Code

variable {K : Type} [LinearOrderedField K] [FloorRing K]

/-- The assignment `params[name] = value` on a `std::map`. -/
def map_assign (params : String → Option (Dbl K)) (name : String) (value : Dbl K) :
    String → Option (Dbl K) :=
  fun n => if n = name then some value else params n

/-- The call `params.at(name)` on a `std::map`: throws when the key is absent. -/
def map_at (params : String → Option (Dbl K)) (name : String) : Except Error (Dbl K) :=
  match params name with
  | some v => .ok v
  | none => .error Error.out_of_range

/-- The default-constructed `InputParameter()`. -/
def InputParameter.default : InputParameter K :=
  { default_val := fin 0 }

/-- The loop of the base-class constructor: every numeric descriptor seeds the
map with its default when it is optional and with 0.0 otherwise. -/
def ActivationFunction.init_params :
    List (String × InputParameter K) → (String → Option (Dbl K)) → (String → Option (Dbl K))
  | [], params => params
  | p :: rest, params =>
    if p.2.is_number then
      let default_val := if p.2.is_optional then p.2.default_val else fin 0
      ActivationFunction.init_params rest (map_assign params p.1 default_val)
    else
      ActivationFunction.init_params rest params

/-- The constructor `ActivationFunction::ActivationFunction`. -/
def ActivationFunction.new (cardiac_period : Dbl K)
    (input_param_properties : List (String × InputParameter K)) : ActivationFunction K :=
  { input_param_properties := input_param_properties
    cardiac_period_ := cardiac_period
    params_ := ActivationFunction.init_params input_param_properties (fun _ => none) }

/-- The method `ActivationFunction::set_param`. -/
def ActivationFunction.set_param (self : ActivationFunction K) (name : String) (value : Dbl K) :
    ActivationFunction K :=
  { self with params_ := map_assign self.params_ name value }

/-- The constructor `HalfCosineActivation(cardiac_period)`. -/
def HalfCosineActivation.new (cardiac_period : Dbl K) : HalfCosineActivation K :=
  { toActivationFunction := ActivationFunction.new cardiac_period
      [("t_active", InputParameter.default), ("t_twitch", InputParameter.default)] }

/-- The constructor `PiecewiseCosineActivation(cardiac_period)`. -/
def PiecewiseCosineActivation.new (cardiac_period : Dbl K) : PiecewiseCosineActivation K :=
  { toActivationFunction := ActivationFunction.new cardiac_period
      [("contract_start", InputParameter.default), ("relax_start", InputParameter.default),
       ("contract_duration", InputParameter.default),
       ("relax_duration", InputParameter.default)] }

/-- The constructor `TwoHillActivation(cardiac_period)`. -/
def TwoHillActivation.new (cardiac_period : Dbl K) : TwoHillActivation K :=
  { toActivationFunction := ActivationFunction.new cardiac_period
      [("t_shift", InputParameter.default), ("tau_1", InputParameter.default),
       ("tau_2", InputParameter.default), ("m1", InputParameter.default),
       ("m2", InputParameter.default)]
    normalization_factor_ := fin 1.0
    normalization_initialized_ := false }

/-- The factory `ActivationFunction::create_default`. -/
def ActivationFunction.create_default (type_str : String) (cardiac_period : Dbl K) :
    Except Error (ActivationFunctionPtr K) :=
  if type_str = "half_cosine" then
    .ok (.half_cosine (HalfCosineActivation.new cardiac_period))
  else if type_str = "piecewise_cosine" then
    .ok (.piecewise_cosine (PiecewiseCosineActivation.new cardiac_period))
  else if type_str = "two_hill" then
    .ok (.two_hill (TwoHillActivation.new cardiac_period))
  else
    .error (Error.runtime_error
      ("Unknown activation_function type '" ++ type_str ++
       "'. Must be one of: half_cosine, piecewise_cosine, two_hill"))

/-- The method `HalfCosineActivation::compute`; `cos` is `std::cos` and `M_PI`
the constant of that name. -/
def HalfCosineActivation.compute (cos : K → K) (M_PI : K) (self : HalfCosineActivation K)
    (time : Dbl K) : Except Error (Dbl K) := do
  let t_in_cycle := fmod time self.cardiac_period_
  let t_active ← map_at self.params_ "t_active"
  let t_twitch ← map_at self.params_ "t_twitch"
  let t_contract := if ge t_in_cycle t_active then t_in_cycle - t_active else fin 0.0
  let act :=
    if le t_contract t_twitch then
      fin (-0.5) * Dbl.map cos (fin 2.0 * fin M_PI * t_contract / t_twitch) + fin 0.5
    else fin 0.0
  return act

/-- The method `PiecewiseCosineActivation::compute`. -/
def PiecewiseCosineActivation.compute (cos : K → K) (M_PI : K)
    (self : PiecewiseCosineActivation K) (time : Dbl K) : Except Error (Dbl K) := do
  let contract_start ← map_at self.params_ "contract_start"
  let relax_start ← map_at self.params_ "relax_start"
  let contract_duration ← map_at self.params_ "contract_duration"
  let relax_duration ← map_at self.params_ "relax_duration"
  let piecewise_condition := fmod (time - contract_start) self.cardiac_period_
  if le (fin 0.0) piecewise_condition && lt piecewise_condition contract_duration then
    return fin 0.5 *
      (fin 1.0 - Dbl.map cos ((fin M_PI * piecewise_condition) / contract_duration))
  else
    let piecewise_condition := fmod (time - relax_start) self.cardiac_period_
    if le (fin 0.0) piecewise_condition && lt piecewise_condition relax_duration then
      return fin 0.5 *
        (fin 1.0 + Dbl.map cos ((fin M_PI * piecewise_condition) / relax_duration))
    else
      return fin 0.0

/-- The raw (unnormalized) two-hill value `(g1 / (1 + g1)) * (1 / (1 + g2))` at
the phase `t`, as both `calculate_normalization_factor` and `compute` form it;
`pow` is `std::pow`. -/
def TwoHillActivation.two_hill_val (pow : Dbl K → Dbl K → Dbl K)
    (tau_1 tau_2 m1 m2 t : Dbl K) : Dbl K :=
  let g1 := pow (t / tau_1) m1
  let g2 := pow (t / tau_2) m2
  (g1 / (fin 1.0 + g1)) * (fin 1.0 / (fin 1.0 + g2))

/-- The `for` loop of `calculate_normalization_factor`, from the loop variable
`t_temp` and the running `max_value`.  Each iteration uses one unit of fuel;
`none` means the fuel ran out before the loop condition became false. -/
def TwoHillActivation.scan_loop (pow : Dbl K → Dbl K → Dbl K)
    (cardiac_period tau_1 tau_2 m1 m2 : Dbl K) : Nat → Dbl K → Dbl K → Option (Dbl K)
  | 0, t_temp, max_value =>
    if lt t_temp cardiac_period then none else some max_value
  | fuel + 1, t_temp, max_value =>
    if lt t_temp cardiac_period then
      let two_hill_val := TwoHillActivation.two_hill_val pow tau_1 tau_2 m1 m2 t_temp
      TwoHillActivation.scan_loop pow cardiac_period tau_1 tau_2 m1 m2 fuel
        (t_temp + fin 1e-5) (Dbl.max max_value two_hill_val)
    else some max_value

/-- The method `TwoHillActivation::calculate_normalization_factor`.  The result
is `none` when the scan loop does not end within `fuel` iterations, the
exception when the call throws (the object is then unchanged), and the updated
object otherwise.  `to_string` is `std::to_string`. -/
def TwoHillActivation.calculate_normalization_factor (pow : Dbl K → Dbl K → Dbl K)
    (to_string : Dbl K → String) (fuel : Nat) (self : TwoHillActivation K) :
    Option (Except Error (TwoHillActivation K)) :=
  if le self.cardiac_period_ (fin 0.0) then
    some (.error (Error.runtime_error
      ("TwoHillActivation::calculate_normalization_factor: cardiac_period " ++
       "must be positive (got " ++ to_string self.cardiac_period_ ++ ")")))
  else
    match map_at self.params_ "tau_1" with
    | .error e => some (.error e)
    | .ok tau_1 =>
    match map_at self.params_ "tau_2" with
    | .error e => some (.error e)
    | .ok tau_2 =>
    match map_at self.params_ "m1" with
    | .error e => some (.error e)
    | .ok m1 =>
    match map_at self.params_ "m2" with
    | .error e => some (.error e)
    | .ok m2 =>
    match TwoHillActivation.scan_loop pow self.cardiac_period_ tau_1 tau_2 m1 m2 fuel
        (fin 0.0) (fin 0.0) with
    | none => none
    | some max_value =>
      if !(gt max_value (fin 0.0)) || !(isfinite max_value) then
        some (.error (Error.runtime_error
          ("TwoHillActivation::calculate_normalization_factor: max activation " ++
           "value must be positive and finite (got " ++ to_string max_value ++
           "). Check tau_1, tau_2, m1, m2 are valid (e.g., tau_1 > 0, tau_2 > " ++
           "0).")))
      else
        some (.ok { self with
          normalization_factor_ := fin 1.0 / max_value
          normalization_initialized_ := true })

/-- The method `TwoHillActivation::finalize`. -/
def TwoHillActivation.finalize (pow : Dbl K → Dbl K → Dbl K) (to_string : Dbl K → String)
    (fuel : Nat) (self : TwoHillActivation K) : Option (Except Error (TwoHillActivation K)) :=
  TwoHillActivation.calculate_normalization_factor pow to_string fuel self

/-- The shifted phase `t_shifted` that `TwoHillActivation::compute` forms from
the time, the shift and the cardiac period. -/
def TwoHillActivation.t_shifted (cardiac_period t_shift time : Dbl K) : Dbl K :=
  let t_in_cycle := fmod time cardiac_period
  let t_shifted := fmod (t_in_cycle - t_shift) cardiac_period
  if ge t_shifted (fin 0.0) then t_shifted else t_shifted + cardiac_period

/-- The method `TwoHillActivation::compute`. -/
def TwoHillActivation.compute (pow : Dbl K → Dbl K → Dbl K) (self : TwoHillActivation K)
    (time : Dbl K) : Except Error (Dbl K) :=
  if !self.normalization_initialized_ then
    .error (Error.runtime_error "TwoHillActivation: call finalize() after setting parameters")
  else do
    let t_shift ← map_at self.params_ "t_shift"
    let tau_1 ← map_at self.params_ "tau_1"
    let tau_2 ← map_at self.params_ "tau_2"
    let m1 ← map_at self.params_ "m1"
    let m2 ← map_at self.params_ "m2"
    let t_shifted := TwoHillActivation.t_shifted self.cardiac_period_ t_shift time
    let g1 := pow (t_shifted / tau_1) m1
    let g2 := pow (t_shifted / tau_2) m2
    return self.normalization_factor_ * (g1 / (fin 1.0 + g1)) * (fin 1.0 / (fin 1.0 + g2))

/-- The method `set_param` on a `TwoHillActivation` (inherited from the base). -/
def TwoHillActivation.set_param (self : TwoHillActivation K) (name : String) (value : Dbl K) :
    TwoHillActivation K :=
  { self with toActivationFunction := self.toActivationFunction.set_param name value }

/-- The method `set_param` on a `HalfCosineActivation` (inherited from the base). -/
def HalfCosineActivation.set_param (self : HalfCosineActivation K) (name : String)
    (value : Dbl K) : HalfCosineActivation K :=
  { self with toActivationFunction := self.toActivationFunction.set_param name value }

/-- The method `set_param` on a `PiecewiseCosineActivation` (inherited from the base). -/
def PiecewiseCosineActivation.set_param (self : PiecewiseCosineActivation K) (name : String)
    (value : Dbl K) : PiecewiseCosineActivation K :=
  { self with toActivationFunction := self.toActivationFunction.set_param name value }

/-- A call made on a `TwoHillActivation` object by its user. -/
inductive TwoHillCall (K : Type) where
  | set_param (name : String) (value : Dbl K)
  | finalize

/-- A sequence of calls made on a `TwoHillActivation` object, in order.  The
state pairs the object with a flag that records whether some `finalize` call
has succeeded so far.  A `finalize` call that throws leaves the object as it
was; the result is `none` when a `finalize` call does not return within the
fuel. -/
def TwoHillActivation.run_calls (pow : Dbl K → Dbl K → Dbl K) (to_string : Dbl K → String)
    (fuel : Nat) : List (TwoHillCall K) → TwoHillActivation K × Bool →
    Option (TwoHillActivation K × Bool)
  | [], s => some s
  | TwoHillCall.set_param name value :: rest, (a, finalized) =>
    TwoHillActivation.run_calls pow to_string fuel rest (a.set_param name value, finalized)
  | TwoHillCall.finalize :: rest, (a, finalized) =>
    match a.finalize pow to_string fuel with
    | none => none
    | some (.error _) => TwoHillActivation.run_calls pow to_string fuel rest (a, finalized)
    | some (.ok a') => TwoHillActivation.run_calls pow to_string fuel rest (a', true)

end Code

/-! ## The sparse system and the blocks (`BloodVessel.cpp`, `LinearElastanceChamber.cpp`) -/

section Blocks

variable {K : Type} [LinearOrderedField K] [FloorRing K]

/-- Modelled from the spec: the sparse matrix type of `SparseSystem.h`, which is
not among the sources.  Entries are keyed by (equation index, variable or
parameter index); `val` gives the coefficient at a key and `stored` the set of
keys that hold a stored entry (the triplets). -/
structure SparseMatrix (K : Type) where
  val : ℕ → ℕ → Dbl K
  stored : Finset (ℕ × ℕ)

/-- Modelled from the spec: the assignment `m.coeffRef(i, j) = v`, which
overwrites the entry at the key and stores the key if it was not stored. -/
def SparseMatrix.coeffRef_assign (m : SparseMatrix K) (i j : ℕ) (v : Dbl K) : SparseMatrix K :=
  { val := fun a b => if a = i ∧ b = j then v else m.val a b
    stored := insert (i, j) m.stored }

/-- Modelled from the spec: a matrix with no stored entry, all coefficients 0. -/
def SparseMatrix.zero : SparseMatrix K :=
  { val := fun _ _ => fin 0
    stored := ∅ }

/-- The assignment `v(i) = x` (or `v.coeffRef(i) = x`) on a dense vector. -/
def vec_assign (v : ℕ → Dbl K) (i : ℕ) (x : Dbl K) : ℕ → Dbl K :=
  fun a => if a = i then x else v a

/-- Modelled from the spec: the class `SparseSystem` of `SparseSystem.h`, which
is not among the sources: the matrices `F`, `E`, `D` and the vector `C` of
`E * dy + F * y + D + C = 0`. -/
structure SparseSystem (K : Type) where
  F : SparseMatrix K
  E : SparseMatrix K
  D : SparseMatrix K
  C : ℕ → Dbl K

/-- Modelled from the spec: the all-zero system. -/
def SparseSystem.zero : SparseSystem K :=
  { F := SparseMatrix.zero
    E := SparseMatrix.zero
    D := SparseMatrix.zero
    C := fun _ => fin 0 }

/-- Modelled from the spec: the declared triplet budget `TripletsContributions`
of `Block.h`, which is not among the sources: the numbers of entries a block
contributes to `F`, `E` and `D`, in that order. -/
structure TripletsContributions where
  F : ℕ
  E : ℕ
  D : ℕ
  deriving DecidableEq, Repr

/-- Modelled from the spec: the index lists of the base class `Block` of
`Block.h`, which is not among the sources: the global variable indices, the
global equation indices and the global parameter indices of the block. -/
structure Block where
  global_var_ids : List ℕ
  global_eqn_ids : List ℕ
  global_param_ids : List ℕ

/-- The indexing `ids[k]` of an index vector (unchecked in the source; an index
past the end reads 0 here). -/
def Block.at (ids : List ℕ) (k : ℕ) : ℕ := ids.getD k 0

/-- The enumerator `BloodVessel::ParamId::RESISTANCE`. -/
def BloodVessel.RESISTANCE : ℕ := 0

/-- The enumerator `BloodVessel::ParamId::CAPACITANCE`. -/
def BloodVessel.CAPACITANCE : ℕ := 1

/-- The enumerator `BloodVessel::ParamId::INDUCTANCE`. -/
def BloodVessel.INDUCTANCE : ℕ := 2

/-- The enumerator `BloodVessel::ParamId::STENOSIS_COEFFICIENT`. -/
def BloodVessel.STENOSIS_COEFFICIENT : ℕ := 3

/-- The member `num_triplets{5, 3, 2}` of the vessel. -/
def BloodVessel.num_triplets : TripletsContributions := ⟨5, 3, 2⟩

/-- The method `BloodVessel::update_constant`. -/
def BloodVessel.update_constant (self : Block) (system : SparseSystem K)
    (parameters : ℕ → Dbl K) : SparseSystem K :=
  let capacitance := parameters (Block.at self.global_param_ids BloodVessel.CAPACITANCE)
  let inductance := parameters (Block.at self.global_param_ids BloodVessel.INDUCTANCE)
  let system := { system with E := (system.E.coeffRef_assign
    (Block.at self.global_eqn_ids 0) (Block.at self.global_var_ids 3) (-inductance)) }
  let system := { system with E := (system.E.coeffRef_assign
    (Block.at self.global_eqn_ids 1) (Block.at self.global_var_ids 0) (-capacitance)) }
  let system := { system with F := (system.F.coeffRef_assign
    (Block.at self.global_eqn_ids 0) (Block.at self.global_var_ids 0) (fin 1.0)) }
  let system := { system with F := (system.F.coeffRef_assign
    (Block.at self.global_eqn_ids 0) (Block.at self.global_var_ids 2) (fin (-1.0))) }
  let system := { system with F := (system.F.coeffRef_assign
    (Block.at self.global_eqn_ids 1) (Block.at self.global_var_ids 1) (fin 1.0)) }
  let system := { system with F := (system.F.coeffRef_assign
    (Block.at self.global_eqn_ids 1) (Block.at self.global_var_ids 3) (fin (-1.0))) }
  system

/-- The value `(0.0 < q) - (q < 0.0)` of the source: the two comparisons as the
integers 0 or 1, their difference converted to a double. -/
def BloodVessel.sgn (q : Dbl K) : Dbl K :=
  fin ((((if lt (fin 0.0) q then 1 else 0) - (if lt q (fin 0.0) then 1 else 0) : ℤ)) : K)

/-- The method `BloodVessel::update_solution`. -/
def BloodVessel.update_solution (self : Block) (system : SparseSystem K)
    (parameters : ℕ → Dbl K) (y dy : ℕ → Dbl K) : SparseSystem K :=
  let resistance := parameters (Block.at self.global_param_ids BloodVessel.RESISTANCE)
  let capacitance := parameters (Block.at self.global_param_ids BloodVessel.CAPACITANCE)
  let stenosis_coeff :=
    parameters (Block.at self.global_param_ids BloodVessel.STENOSIS_COEFFICIENT)
  let q_in := y (Block.at self.global_var_ids 1)
  let dq_in := dy (Block.at self.global_var_ids 1)
  let stenosis_resistance := stenosis_coeff * fabs q_in
  let system := { system with E := (system.E.coeffRef_assign
    (Block.at self.global_eqn_ids 1) (Block.at self.global_var_ids 1)
    (capacitance * (resistance + fin 2.0 * stenosis_resistance))) }
  let system := { system with F := (system.F.coeffRef_assign
    (Block.at self.global_eqn_ids 0) (Block.at self.global_var_ids 1)
    (-resistance - stenosis_resistance)) }
  let system := { system with D := (system.D.coeffRef_assign
    (Block.at self.global_eqn_ids 0) (Block.at self.global_var_ids 1)
    (-stenosis_resistance)) }
  let sgn_q_in := BloodVessel.sgn q_in
  let system := { system with D := (system.D.coeffRef_assign
    (Block.at self.global_eqn_ids 1) (Block.at self.global_var_ids 1)
    (fin 2.0 * capacitance * stenosis_coeff * sgn_q_in * dq_in)) }
  system

/-- The method `BloodVessel::update_gradient`; the result is the jacobian and
the residual after the call. -/
def BloodVessel.update_gradient (self : Block) (jacobian : SparseMatrix K)
    (residual : ℕ → Dbl K) (alpha y dy : ℕ → Dbl K) : SparseMatrix K × (ℕ → Dbl K) :=
  let y0 := y (Block.at self.global_var_ids 0)
  let y1 := y (Block.at self.global_var_ids 1)
  let y2 := y (Block.at self.global_var_ids 2)
  let y3 := y (Block.at self.global_var_ids 3)
  let dy0 := dy (Block.at self.global_var_ids 0)
  let dy1 := dy (Block.at self.global_var_ids 1)
  let dy3 := dy (Block.at self.global_var_ids 3)
  let resistance := alpha (Block.at self.global_param_ids BloodVessel.RESISTANCE)
  let capacitance := alpha (Block.at self.global_param_ids BloodVessel.CAPACITANCE)
  let inductance := alpha (Block.at self.global_param_ids BloodVessel.INDUCTANCE)
  let stenosis_coeff :=
    if self.global_param_ids.length > 3 then
      alpha (Block.at self.global_param_ids BloodVessel.STENOSIS_COEFFICIENT)
    else fin 0.0
  let stenosis_resistance := stenosis_coeff * fabs y1
  let jacobian := jacobian.coeffRef_assign
    (Block.at self.global_eqn_ids 0) (Block.at self.global_param_ids 0) (-y1)
  let jacobian := jacobian.coeffRef_assign
    (Block.at self.global_eqn_ids 0) (Block.at self.global_param_ids 2) (-dy3)
  let jacobian :=
    if self.global_param_ids.length > 3 then
      jacobian.coeffRef_assign
        (Block.at self.global_eqn_ids 0) (Block.at self.global_param_ids 3) (-fabs y1 * y1)
    else jacobian
  let jacobian := jacobian.coeffRef_assign
    (Block.at self.global_eqn_ids 1) (Block.at self.global_param_ids 0) (capacitance * dy1)
  let jacobian := jacobian.coeffRef_assign
    (Block.at self.global_eqn_ids 1) (Block.at self.global_param_ids 1)
    (-dy0 + (resistance + fin 2 * stenosis_resistance) * dy1)
  let jacobian :=
    if self.global_param_ids.length > 3 then
      jacobian.coeffRef_assign
        (Block.at self.global_eqn_ids 1) (Block.at self.global_param_ids 3)
        (fin 2.0 * capacitance * fabs y1 * dy1)
    else jacobian
  let residual := vec_assign residual (Block.at self.global_eqn_ids 0)
    (y0 - (resistance + stenosis_resistance) * y1 - y2 - inductance * dy3)
  let residual := vec_assign residual (Block.at self.global_eqn_ids 1)
    (y1 - y3 - capacitance * dy0 +
      capacitance * (resistance + fin 2.0 * stenosis_resistance) * dy1)
  (jacobian, residual)

/-- The class `LinearElastanceChamber`: the index lists of the block, the
member `Elas`, and the state of the activation function the chamber owns (the
pointer `activation_func_` is taken to be set: the source dereferences it
unchecked). -/
structure LinearElastanceChamber (K : Type) (A : Type) extends Block where
  Elas : Dbl K
  activation_func_ : A

/-- The enumerator `LinearElastanceChamber::ParamId::EMAX`. -/
def LinearElastanceChamber.EMAX : ℕ := 0

/-- The enumerator `LinearElastanceChamber::ParamId::EPASS`. -/
def LinearElastanceChamber.EPASS : ℕ := 1

/-- The enumerator `LinearElastanceChamber::ParamId::VREST`. -/
def LinearElastanceChamber.VREST : ℕ := 2

/-- The member `num_triplets{6, 2, 0}` of the chamber. -/
def LinearElastanceChamber.num_triplets : TripletsContributions := ⟨6, 2, 0⟩

/-- The method `LinearElastanceChamber::set_activation_function`. -/
def LinearElastanceChamber.set_activation_function {A : Type}
    (self : LinearElastanceChamber K A) (af : A) : LinearElastanceChamber K A :=
  { self with activation_func_ := af }

/-- The method `LinearElastanceChamber::update_constant`. -/
def LinearElastanceChamber.update_constant {A : Type} (self : LinearElastanceChamber K A)
    (system : SparseSystem K) (parameters : ℕ → Dbl K) : SparseSystem K :=
  let system := { system with F := (system.F.coeffRef_assign
    (Block.at self.global_eqn_ids 0) (Block.at self.global_var_ids 0) (fin 1.0)) }
  let system := { system with F := (system.F.coeffRef_assign
    (Block.at self.global_eqn_ids 1) (Block.at self.global_var_ids 0) (fin 1.0)) }
  let system := { system with F := (system.F.coeffRef_assign
    (Block.at self.global_eqn_ids 1) (Block.at self.global_var_ids 2) (fin (-1.0))) }
  let system := { system with F := (system.F.coeffRef_assign
    (Block.at self.global_eqn_ids 2) (Block.at self.global_var_ids 1) (fin 1.0)) }
  let system := { system with F := (system.F.coeffRef_assign
    (Block.at self.global_eqn_ids 2) (Block.at self.global_var_ids 3) (fin (-1.0))) }
  let system := { system with E := (system.E.coeffRef_assign
    (Block.at self.global_eqn_ids 2) (Block.at self.global_var_ids 4) (fin (-1.0))) }
  system

/-- The method `LinearElastanceChamber::get_elastance_values`.  The virtual
call `activation_func_->compute(model->time)` is the parameter `compute`, which
returns the value or the exception together with the state of the activation
function after the call; `time` is `model->time`. -/
def LinearElastanceChamber.get_elastance_values {A : Type}
    (compute : A → Dbl K → Except Error (Dbl K) × A) (time : Dbl K)
    (self : LinearElastanceChamber K A) (parameters : ℕ → Dbl K) :
    Except Error (LinearElastanceChamber K A) :=
  let Emax := parameters (Block.at self.global_param_ids LinearElastanceChamber.EMAX)
  let Epass := parameters (Block.at self.global_param_ids LinearElastanceChamber.EPASS)
  match compute self.activation_func_ time with
  | (.error e, _) => .error e
  | (.ok phi, af) => .ok { self with activation_func_ := af, Elas := Epass + Emax * phi }

/-- The method `LinearElastanceChamber::update_time`; the result is the chamber
and the system after the call, or the exception of `compute` (thrown before
anything is written). -/
def LinearElastanceChamber.update_time {A : Type}
    (compute : A → Dbl K → Except Error (Dbl K) × A) (time : Dbl K)
    (self : LinearElastanceChamber K A) (system : SparseSystem K) (parameters : ℕ → Dbl K) :
    Except Error (LinearElastanceChamber K A × SparseSystem K) :=
  match LinearElastanceChamber.get_elastance_values compute time self parameters with
  | .error e => .error e
  | .ok self =>
    let system := { system with F := (system.F.coeffRef_assign
      (Block.at self.global_eqn_ids 0) (Block.at self.global_var_ids 4) (-self.Elas)) }
    let system := { system with C := (vec_assign system.C (Block.at self.global_eqn_ids 0)
      (self.Elas * parameters (Block.at self.global_param_ids LinearElastanceChamber.VREST))) }
    .ok (self, system)

end Blocks

/-! ## Quantities named by the specification -/

section SpecSide

variable {K : Type} [LinearOrderedField K] [FloorRing K]

/-- Specification side: `t_contract = max(0, t_in_cycle - t_active)` with
`t_in_cycle = time mod cardiac_period`, the remainder being that of `fmod`. -/
def HalfCosineActivation.spec_t_contract (cardiac_period t_active time : Dbl K) : Dbl K :=
  Dbl.max (fin 0) (fmod time cardiac_period - t_active)

/-- Specification side: `x` wrapped modulo `T` into `[0, T)`, that is
`x - T * floor (x / T)`. -/
def wrap (x T : K) : K := x - T * (⌊x / T⌋ : K)

/-- Specification side: `M` is the maximum of the raw two-hill value over the
scan points `0, 1e-5, 2e-5, ...` below `T`: it is the raw value at one of the
scan points, and the raw value at no scan point is greater. -/
def TwoHillActivation.spec_scan_max (pow : Dbl K → Dbl K → Dbl K) (T : K)
    (tau_1 tau_2 m1 m2 : Dbl K) (M : Dbl K) : Prop :=
  (∃ k : ℕ, (k : K) * 1e-5 < T ∧
    TwoHillActivation.two_hill_val pow tau_1 tau_2 m1 m2 (fin ((k : K) * 1e-5)) = M) ∧
  (∀ k : ℕ, (k : K) * 1e-5 < T →
    lt M (TwoHillActivation.two_hill_val pow tau_1 tau_2 m1 m2 (fin ((k : K) * 1e-5))) = false)

/-- The invariant of a `TwoHillActivation` built by its constructor with the
finite period `T`: the period is `T`, the flag `normalization_initialized_`
agrees with the record of successful `finalize` calls, and the five declared
parameters are in the map. -/
def TwoHillInv (T : K) (a : TwoHillActivation K) (finalized : Bool) : Prop :=
  a.cardiac_period_ = fin T ∧ a.normalization_initialized_ = finalized ∧
  (∃ v, a.params_ "t_shift" = some v) ∧ (∃ v, a.params_ "tau_1" = some v) ∧
  (∃ v, a.params_ "tau_2" = some v) ∧ (∃ v, a.params_ "m1" = some v) ∧
  (∃ v, a.params_ "m2" = some v)

/-- Specification side: the sign of a flow, `+1`, `-1`, or `0` at exactly zero. -/
def sgn_spec (q : K) : K := if 0 < q then 1 else if q < 0 then -1 else 0

/-- Specification side: the sum of a list of doubles. -/
def Dbl.sum : List (Dbl K) → Dbl K
  | [] => fin 0
  | x :: xs => x + Dbl.sum xs

/-- Specification side: row `i` of the assembled residual `E * dy + F * y + C`
of a system with `n` variables. -/
def SparseSystem.residual_row (system : SparseSystem K) (n : ℕ) (y dy : ℕ → Dbl K) (i : ℕ) :
    Dbl K :=
  Dbl.sum ((List.range n).map fun j => system.E.val i j * dy j) +
    Dbl.sum ((List.range n).map fun j => system.F.val i j * y j) + system.C i

/-- Specification side: the finite value of a double (0 for a special value). -/
def Dbl.value : Dbl K → K
  | fin x => x
  | _ => 0

/-- Specification side: an activation function instrumented with a counter of
the calls made to its `compute`. -/
def counting {A : Type} (compute : A → Dbl K → Except Error (Dbl K) × A) :
    A × ℕ → Dbl K → Except Error (Dbl K) × (A × ℕ) :=
  fun s time => ((compute s.1 time).1, ((compute s.1 time).2, s.2 + 1))

/-- Specification side: the residual of equation `i` that the vessel's
`update_gradient` writes when the global parameter `p` is given the value `x`
and everything else (the other parameters, `y`, `dy`) is kept fixed. -/
def BloodVessel.residual_at (self : Block) (jacobian : SparseMatrix K) (residual : ℕ → Dbl K)
    (alpha y dy : ℕ → K) (p : ℕ) (x : K) (i : ℕ) : K :=
  Dbl.value ((BloodVessel.update_gradient self jacobian residual
    (fun k => fin (Function.update alpha p x k)) (fun k => fin (y k)) (fun k => fin (dy k))).2 i)

/-- Specification side: the jacobian entry at (equation `i`, parameter `p`)
after the vessel's `update_gradient`. -/
def BloodVessel.jacobian_at (self : Block) (jacobian : SparseMatrix K) (residual : ℕ → Dbl K)
    (alpha y dy : ℕ → K) (i p : ℕ) : K :=
  Dbl.value ((BloodVessel.update_gradient self jacobian residual
    (fun k => fin (alpha k)) (fun k => fin (y k)) (fun k => fin (dy k))).1.val i p)

/-- Specification side: a call that takes the matrix `m1` to `m1'` and the
matrix `m2` to `m2'` overwrites: every key is either left untouched in both, or
holds the same value after both calls, whatever it held before. -/
def SparseMatrix.overwritten (m1 m1' m2 m2' : SparseMatrix K) : Prop :=
  ∀ i j, m1'.val i j = m2'.val i j ∨ (m1'.val i j = m1.val i j ∧ m2'.val i j = m2.val i j)

/-- Specification side: the same for a dense vector. -/
def vec_overwritten (c1 c1' c2 c2' : ℕ → Dbl K) : Prop :=
  ∀ i, c1' i = c2' i ∨ (c1' i = c1 i ∧ c2' i = c2 i)

/-- Specification side: the same for the four parts of a system. -/
def SparseSystem.overwritten (s1 s1' s2 s2' : SparseSystem K) : Prop :=
  SparseMatrix.overwritten s1.F s1'.F s2.F s2'.F ∧
  SparseMatrix.overwritten s1.E s1'.E s2.E s2'.E ∧
  SparseMatrix.overwritten s1.D s1'.D s2.D s2'.D ∧
  vec_overwritten s1.C s1'.C s2.C s2'.C

/-- Specification side: the names declared in the descriptor list of an
activation function. -/
def ActivationFunction.declared (self : ActivationFunction K) : List String :=
  self.input_param_properties.map Prod.fst

/-- Specification side: a sequence of `set_param(name, value)` calls on a
`HalfCosineActivation`, in order. -/
def HalfCosineActivation.set_params (self : HalfCosineActivation K)
    (calls : List (String × Dbl K)) : HalfCosineActivation K :=
  calls.foldl (fun a c => a.set_param c.1 c.2) self

/-- Specification side: a sequence of `set_param(name, value)` calls on a
`PiecewiseCosineActivation`, in order. -/
def PiecewiseCosineActivation.set_params (self : PiecewiseCosineActivation K)
    (calls : List (String × Dbl K)) : PiecewiseCosineActivation K :=
  calls.foldl (fun a c => a.set_param c.1 c.2) self

/-- Specification side: a sequence of `set_param(name, value)` calls on a
`TwoHillActivation`, in order. -/
def TwoHillActivation.set_params (self : TwoHillActivation K)
    (calls : List (String × Dbl K)) : TwoHillActivation K :=
  calls.foldl (fun a c => a.set_param c.1 c.2) self

/-- The names `HalfCosineActivation::compute` looks up with `params_.at`. -/
def HalfCosineActivation.lookup_names : List String := ["t_active", "t_twitch"]

/-- The names `PiecewiseCosineActivation::compute` looks up with `params_.at`. -/
def PiecewiseCosineActivation.lookup_names : List String :=
  ["contract_start", "relax_start", "contract_duration", "relax_duration"]

/-- The names `TwoHillActivation::compute` looks up with `params_.at`. -/
def TwoHillActivation.compute_lookup_names : List String :=
  ["t_shift", "tau_1", "tau_2", "m1", "m2"]

/-- The names `TwoHillActivation::calculate_normalization_factor` looks up with
`params_.at`. -/
def TwoHillActivation.finalize_lookup_names : List String := ["tau_1", "tau_2", "m1", "m2"]

/-- Specification side: the entry at the key `(i, j)` of one of the matrices of
the system (`sel` picks `F`, `E` or `D`) after the vessel's `update_solution`
when the inlet flow `Q_in` is given the value `q` and everything else (the
parameters, the rest of `y`, `dy`) is kept fixed. -/
def BloodVessel.entry_at (sel : SparseSystem K → SparseMatrix K) (self : Block)
    (system : SparseSystem K) (parameters y dy : ℕ → K) (q : K) (i j : ℕ) : K :=
  Dbl.value ((sel (BloodVessel.update_solution self system (fun k => fin (parameters k))
    (fun k => fin (Function.update y (Block.at self.global_var_ids 1) q k))
    (fun k => fin (dy k)))).val i j)

end SpecSide

/-! # Properties of the embedded code -/

/-! ## Arithmetic of the number model -/

namespace Dbl

variable {K : Type} [LinearOrderedField K] [FloorRing K]

@[simp] theorem fin_add_fin (a b : K) : (fin a + fin b : Dbl K) = fin (a + b) := rfl

@[simp] theorem fin_sub_fin (a b : K) : (fin a - fin b : Dbl K) = fin (a - b) := by
  show fin (a + -b) = fin (a - b)
  rw [sub_eq_add_neg]

@[simp] theorem fin_mul_fin (a b : K) : (fin a * fin b : Dbl K) = fin (a * b) := rfl

theorem fin_div_fin (a b : K) :
    (fin a / fin b : Dbl K) = if b = 0 then signedInf a else fin (a / b) := rfl

@[simp] theorem fin_div_fin_of_ne (a : K) {b : K} (hb : b ≠ 0) :
    (fin a / fin b : Dbl K) = fin (a / b) := by
  rw [fin_div_fin, if_neg hb]

@[simp] theorem zero_div_zero : (fin 0 / fin 0 : Dbl K) = nan := by
  simp [fin_div_fin, signedInf]

@[simp] theorem nan_add (x : Dbl K) : (nan + x : Dbl K) = nan := by cases x <;> rfl
@[simp] theorem add_nan (x : Dbl K) : (x + nan : Dbl K) = nan := by cases x <;> rfl
@[simp] theorem nan_sub (x : Dbl K) : (nan - x : Dbl K) = nan := by cases x <;> rfl
@[simp] theorem sub_nan (x : Dbl K) : (x - nan : Dbl K) = nan := by cases x <;> rfl
@[simp] theorem nan_mul (x : Dbl K) : (nan * x : Dbl K) = nan := by cases x <;> rfl
@[simp] theorem mul_nan (x : Dbl K) : (x * nan : Dbl K) = nan := by cases x <;> rfl
@[simp] theorem nan_div (x : Dbl K) : (nan / x : Dbl K) = nan := by cases x <;> rfl
@[simp] theorem div_nan (x : Dbl K) : (x / nan : Dbl K) = nan := by cases x <;> rfl

@[simp] theorem lt_fin_fin (a b : K) : lt (fin a) (fin b) = decide (a < b) := rfl
@[simp] theorem le_fin_fin (a b : K) : le (fin a) (fin b) = decide (a ≤ b) := rfl
@[simp] theorem ge_fin_fin (a b : K) : ge (fin a) (fin b) = decide (b ≤ a) := rfl
@[simp] theorem gt_fin_fin (a b : K) : gt (fin a) (fin b) = decide (b < a) := rfl
@[simp] theorem lt_nan (x : Dbl K) : lt x nan = false := by cases x <;> rfl
@[simp] theorem nan_lt (x : Dbl K) : lt nan x = false := by cases x <;> rfl
@[simp] theorem le_nan (x : Dbl K) : le x nan = false := by cases x <;> rfl
@[simp] theorem nan_le (x : Dbl K) : le nan x = false := by cases x <;> rfl
@[simp] theorem ge_nan (x : Dbl K) : ge x nan = false := by cases x <;> rfl
@[simp] theorem nan_ge (x : Dbl K) : ge nan x = false := by cases x <;> rfl
@[simp] theorem gt_nan (x : Dbl K) : gt x nan = false := by cases x <;> rfl
@[simp] theorem nan_gt (x : Dbl K) : gt nan x = false := by cases x <;> rfl

@[simp] theorem map_fin (f : K → K) (x : K) : Dbl.map f (fin x) = fin (f x) := rfl
@[simp] theorem map_nan (f : K → K) : Dbl.map f (nan : Dbl K) = nan := rfl

theorem fmod_fin_fin (x y : K) :
    fmod (fin x) (fin y) = if y = 0 then nan else fin (x - (trunc (x / y) : K) * y) := rfl

@[simp] theorem fmod_zero (x : Dbl K) : fmod x (fin 0) = nan := by
  cases x <;> simp [fmod]

@[simp] theorem fmod_fin_of_ne (x : K) {y : K} (hy : y ≠ 0) :
    fmod (fin x) (fin y) = fin (x - (trunc (x / y) : K) * y) := by
  rw [fmod_fin_fin, if_neg hy]

end Dbl


/-! ## The factory -/

section Factory

variable {K : Type} [LinearOrderedField K] [FloorRing K]

/-- Claim C1: `create_default` builds the half-cosine, piecewise-cosine and
two-hill variant for the names "half_cosine", "piecewise_cosine" and "two_hill",
each carrying the given cardiac period; it fails exactly when the name is none
of the three, and then with a `runtime_error` whose message contains the
offending name and each of the three valid names. -/
theorem create_default_spec (type_str : String) (cardiac_period : Dbl K) :
    (ActivationFunction.create_default "half_cosine" cardiac_period
        = .ok (.half_cosine (HalfCosineActivation.new cardiac_period)) ∧
      (HalfCosineActivation.new cardiac_period).cardiac_period_ = cardiac_period) ∧
    (ActivationFunction.create_default "piecewise_cosine" cardiac_period
        = .ok (.piecewise_cosine (PiecewiseCosineActivation.new cardiac_period)) ∧
      (PiecewiseCosineActivation.new cardiac_period).cardiac_period_ = cardiac_period) ∧
    (ActivationFunction.create_default "two_hill" cardiac_period
        = .ok (.two_hill (TwoHillActivation.new cardiac_period)) ∧
      (TwoHillActivation.new cardiac_period).cardiac_period_ = cardiac_period) ∧
    ((∃ e, ActivationFunction.create_default type_str cardiac_period = .error e) ↔
      (type_str ≠ "half_cosine" ∧ type_str ≠ "piecewise_cosine" ∧ type_str ≠ "two_hill")) ∧
    (∀ e, ActivationFunction.create_default type_str cardiac_period = .error e →
      ∃ msg, e = Error.runtime_error msg ∧
        type_str.toList <:+: msg.toList ∧
        "half_cosine".toList <:+: msg.toList ∧
        "piecewise_cosine".toList <:+: msg.toList ∧
        "two_hill".toList <:+: msg.toList) := by
  refine ⟨⟨by simp [ActivationFunction.create_default], rfl⟩,
    ⟨by simp [ActivationFunction.create_default], rfl⟩,
    ⟨by simp [ActivationFunction.create_default], rfl⟩, ?_, ?_⟩
  · unfold ActivationFunction.create_default
    by_cases h1 : type_str = "half_cosine"
    · simp [h1]
    by_cases h2 : type_str = "piecewise_cosine"
    · simp [h2]
    by_cases h3 : type_str = "two_hill"
    · simp [h3]
    simp [h1, h2, h3]
  · intro e he
    unfold ActivationFunction.create_default at he
    by_cases h1 : type_str = "half_cosine"
    · simp [h1] at he
    by_cases h2 : type_str = "piecewise_cosine"
    · simp [h2] at he
    by_cases h3 : type_str = "two_hill"
    · simp [h3] at he
    simp only [h1, h2, h3, if_false] at he
    injection he with he
    refine ⟨_, he.symm, ?_, ?_, ?_, ?_⟩
    · exact ⟨"Unknown activation_function type '".toList,
        "'. Must be one of: half_cosine, piecewise_cosine, two_hill".toList, by simp⟩
    · exact ⟨("Unknown activation_function type '" ++ type_str ++ "'. Must be one of: ").toList,
        ", piecewise_cosine, two_hill".toList, by simp⟩
    · exact ⟨("Unknown activation_function type '" ++ type_str ++
          "'. Must be one of: half_cosine, ").toList,
        ", two_hill".toList, by simp⟩
    · exact ⟨("Unknown activation_function type '" ++ type_str ++
          "'. Must be one of: half_cosine, piecewise_cosine, ").toList,
        [], by simp⟩

end Factory

/-! ## Half-cosine activation -/

section HalfCosine

variable {K : Type} [LinearOrderedField K] [FloorRing K]

@[simp] theorem lit_zero : (0.0 : K) = 0 := by norm_num
@[simp] theorem lit_one : (1.0 : K) = 1 := by norm_num
@[simp] theorem lit_two : (2.0 : K) = 2 := by norm_num

/-- The value of `HalfCosineActivation::compute` once both parameters are found
in the map. -/
theorem half_cosine_compute_eq (cos : K → K) (M_PI : K) (a : HalfCosineActivation K)
    (time ta tw : Dbl K) (ha : a.params_ "t_active" = some ta)
    (hw : a.params_ "t_twitch" = some tw) :
    HalfCosineActivation.compute cos M_PI a time =
      .ok (if le (if ge (fmod time a.cardiac_period_) ta
                  then fmod time a.cardiac_period_ - ta else fin 0) tw
           then fin (-0.5) * Dbl.map cos (fin 2 * fin M_PI *
              (if ge (fmod time a.cardiac_period_) ta
                  then fmod time a.cardiac_period_ - ta else fin 0) / tw) + fin 0.5
           else fin 0) := by
  simp only [HalfCosineActivation.compute, map_at, ha, hw, lit_zero, lit_two]
  rfl

/-- The contraction time the code forms is the `max(0, t_in_cycle - t_active)`
of the specification, and it is a finite nonnegative number. -/
theorem half_cosine_t_contract_fin (t T ta : K) :
    ∃ c : K, 0 ≤ c ∧
      (if ge (fmod (fin t) (fin T)) (fin ta) then fmod (fin t) (fin T) - fin ta else fin 0)
        = fin c ∧
      HalfCosineActivation.spec_t_contract (fin T) (fin ta) (fin t) = fin c ∧
      (le (fmod (fin t) (fin T)) (fin ta) = true → c = 0) := by
  unfold HalfCosineActivation.spec_t_contract Dbl.max
  by_cases hT0 : T = 0
  · subst hT0
    exact ⟨0, le_refl _, by simp, by simp, fun _ => rfl⟩
  · rw [fmod_fin_of_ne t hT0]
    rcases lt_trichotomy ta (t - (trunc (t / T) : K) * T) with h | h | h
    · exact ⟨_, sub_nonneg.mpr h.le, by simp [h.le], by simp [h], by
        intro h'; simp at h'; linarith⟩
    · exact ⟨0, le_refl _, by simp [← h], by simp [← h], fun _ => rfl⟩
    · exact ⟨0, le_refl _, by simp [not_le.mpr h], by simp [not_lt.mpr h.le], fun _ => rfl⟩

/-- Claim C2 (amended): for every time, cardiac period and `t_active`, and
every `t_twitch` other than zero, `HalfCosineActivation::compute` returns a
finite value `v` with `0 <= v <= 1`. -/
theorem half_cosine_range (cos : K → K) (M_PI : K)
    (hcos : ∀ x, -1 ≤ cos x ∧ cos x ≤ 1)
    (a : HalfCosineActivation K) (t T ta tw : K)
    (hT : a.cardiac_period_ = fin T) (ha : a.params_ "t_active" = some (fin ta))
    (hw : a.params_ "t_twitch" = some (fin tw)) (htw : tw ≠ 0) :
    ∃ v, HalfCosineActivation.compute cos M_PI a (fin t) = .ok (fin v) ∧ 0 ≤ v ∧ v ≤ 1 := by
  rw [half_cosine_compute_eq cos M_PI a _ _ _ ha hw, hT]
  obtain ⟨c, hc, hceq, -, -⟩ := half_cosine_t_contract_fin t T ta
  rw [hceq]
  obtain ⟨h1, h2⟩ := hcos (2 * M_PI * c / tw)
  by_cases hle : c ≤ tw
  · refine ⟨-0.5 * cos (2 * M_PI * c / tw) + 0.5, by simp [hle, htw], ?_, ?_⟩ <;>
      norm_num <;> linarith
  · exact ⟨0, by simp [hle], le_refl _, zero_le_one⟩

/-- Claim C3: with `t_in_cycle = fmod(t, cardiac_period)` and
`t_contract = max(0, t_in_cycle - t_active)`, `HalfCosineActivation::compute`
returns `0.5 * (1 - cos(2 * pi * t_contract / t_twitch))` when
`t_contract <= t_twitch` and exactly 0 when `t_contract > t_twitch` (one of the
two always holds); and when `t_twitch > 0` it returns exactly 0 at every time
with `t_in_cycle <= t_active`. -/
theorem half_cosine_formula (cos : K → K) (M_PI : K) (hcos0 : cos 0 = 1)
    (a : HalfCosineActivation K) (t T ta tw : K)
    (hT : a.cardiac_period_ = fin T) (ha : a.params_ "t_active" = some (fin ta))
    (hw : a.params_ "t_twitch" = some (fin tw)) :
    (le (HalfCosineActivation.spec_t_contract (fin T) (fin ta) (fin t)) (fin tw) = true →
      HalfCosineActivation.compute cos M_PI a (fin t) =
        .ok (fin 0.5 * (fin 1 - Dbl.map cos (fin 2 * fin M_PI *
          HalfCosineActivation.spec_t_contract (fin T) (fin ta) (fin t) / fin tw)))) ∧
    (gt (HalfCosineActivation.spec_t_contract (fin T) (fin ta) (fin t)) (fin tw) = true →
      HalfCosineActivation.compute cos M_PI a (fin t) = .ok (fin 0)) ∧
    (le (HalfCosineActivation.spec_t_contract (fin T) (fin ta) (fin t)) (fin tw) = true ∨
      gt (HalfCosineActivation.spec_t_contract (fin T) (fin ta) (fin t)) (fin tw) = true) ∧
    (0 < tw → le (fmod (fin t) (fin T)) (fin ta) = true →
      HalfCosineActivation.compute cos M_PI a (fin t) = .ok (fin 0)) := by
  rw [half_cosine_compute_eq cos M_PI a _ _ _ ha hw, hT]
  obtain ⟨c, hc, hceq, hspec, hzero⟩ := half_cosine_t_contract_fin t T ta
  rw [hceq, hspec]
  refine ⟨?_, ?_, ?_, ?_⟩
  · intro hle
    simp only [le_fin_fin, decide_eq_true_eq] at hle
    rw [if_pos (by simpa using hle)]
    by_cases htw : tw = 0
    · subst htw
      have hc0 : c = 0 := le_antisymm hle hc
      subst hc0
      simp
    · simp only [fin_mul_fin, fin_div_fin_of_ne _ htw, map_fin, fin_add_fin, fin_sub_fin]
      congr 2
      norm_num
      ring
  · intro hgt
    simp only [gt_fin_fin, decide_eq_true_eq] at hgt
    rw [if_neg (by simpa using hgt)]
  · simp only [le_fin_fin, gt_fin_fin, decide_eq_true_eq]
    exact le_or_lt c tw
  · intro htw hle
    have hc0 : c = 0 := hzero hle
    subst hc0
    have : (0 : K) ≤ tw := htw.le
    simp [this, htw.ne', hcos0]

/-- Claim C2, counterexample: with cardiac period 1, `t_active = 0` and
`t_twitch = 0`, at time 0 the contraction time is 0, the argument of the cosine
is `0 / 0`, and `compute` returns `NaN`, which is no value between 0 and 1. -/
theorem half_cosine_range_counterexample :
    HalfCosineActivation.compute Real.cos Real.pi
        (((HalfCosineActivation.new (fin (1 : ℝ))).set_param "t_active" (fin 0)).set_param
          "t_twitch" (fin 0)) (fin 0) = .ok nan ∧
    ¬ ∃ v : ℝ, HalfCosineActivation.compute Real.cos Real.pi
        (((HalfCosineActivation.new (fin (1 : ℝ))).set_param "t_active" (fin 0)).set_param
          "t_twitch" (fin 0)) (fin 0) = .ok (fin v) ∧ 0 ≤ v ∧ v ≤ 1 := by
  have h : HalfCosineActivation.compute Real.cos Real.pi
        (((HalfCosineActivation.new (fin (1 : ℝ))).set_param "t_active" (fin 0)).set_param
          "t_twitch" (fin 0)) (fin 0) = .ok nan := by
    rw [half_cosine_compute_eq Real.cos Real.pi _ (fin 0) (fin 0) (fin 0) rfl rfl]
    simp [HalfCosineActivation.set_param, ActivationFunction.set_param,
      HalfCosineActivation.new, ActivationFunction.new, trunc]
  refine ⟨h, ?_⟩
  rintro ⟨v, hv, -⟩
  rw [h] at hv
  injection hv with hv
  exact Dbl.noConfusion hv

/-- Witness for `half_cosine_range`: cardiac period 1, `t_active = 0.2`,
`t_twitch = 0.3`, time 0.25. -/
theorem half_cosine_range_witness :
    ∃ v : ℝ, HalfCosineActivation.compute Real.cos Real.pi
        (((HalfCosineActivation.new (fin (1 : ℝ))).set_param "t_active" (fin 0.2)).set_param
          "t_twitch" (fin 0.3)) (fin 0.25) = .ok (fin v) ∧ 0 ≤ v ∧ v ≤ 1 :=
  half_cosine_range Real.cos Real.pi (fun x => ⟨Real.neg_one_le_cos x, Real.cos_le_one x⟩)
    _ 0.25 1 0.2 0.3 rfl rfl rfl (by norm_num)

/-- Witness for `half_cosine_formula`: cardiac period 1, `t_active = 0.2`,
`t_twitch = 0.3`; at time 0.1 the phase is not past `t_active` and the value
is exactly 0. -/
theorem half_cosine_formula_witness :
    (0 : ℝ) < 0.3 ∧ le (fmod (fin (0.1 : ℝ)) (fin 1)) (fin 0.2) = true ∧
    HalfCosineActivation.compute Real.cos Real.pi
        (((HalfCosineActivation.new (fin (1 : ℝ))).set_param "t_active" (fin 0.2)).set_param
          "t_twitch" (fin 0.3)) (fin 0.1) = .ok (fin 0) :=
  ⟨by norm_num, by norm_num [trunc],
    (half_cosine_formula Real.cos Real.pi Real.cos_zero _ 0.1 1 0.2 0.3 rfl rfl rfl).2.2.2
      (by norm_num) (by norm_num [trunc])⟩

end HalfCosine

/-! ## The remainder `fmod` and the wrapped phase -/

section Fmod

variable {K : Type} [LinearOrderedField K] [FloorRing K]

/-- Uniqueness of the wrapped value: a representative of `x` modulo `T` that
lies in `[0, T)` is `wrap x T`. -/
theorem wrap_eq_of {x T : K} (hT : 0 < T) (n : ℤ) (h0 : 0 ≤ x - (n : K) * T)
    (h1 : x - (n : K) * T < T) : wrap x T = x - (n : K) * T := by
  have hfl : ⌊x / T⌋ = n := by
    rw [Int.floor_eq_iff, le_div_iff₀ hT, div_lt_iff₀ hT]
    constructor <;> nlinarith
  unfold wrap
  rw [hfl]
  ring

/-- The wrapped value lies in `[0, T)` and differs from `x` by a multiple of `T`. -/
theorem wrap_range {x T : K} (hT : 0 < T) : 0 ≤ wrap x T ∧ wrap x T < T := by
  unfold wrap
  have h1 := Int.floor_le (x / T)
  have h2 := Int.lt_floor_add_one (x / T)
  rw [le_div_iff₀ hT] at h1
  rw [div_lt_iff₀ hT] at h2
  constructor <;> nlinarith

/-- The remainder `fmod(x, T)` for a positive finite `T`: a finite `r` with
`-T < r < T`, equal to `x` minus an integer multiple of `T`, carrying the sign
of `x`; it is the wrapped value when it is nonnegative and the wrapped value
minus `T` when it is negative. -/
theorem fmod_pos (x : K) {T : K} (hT : 0 < T) :
    ∃ r : K, fmod (fin x) (fin T) = fin r ∧ -T < r ∧ r < T ∧
      (∃ n : ℤ, r = x - (n : K) * T) ∧
      (0 ≤ x → 0 ≤ r) ∧ (x < 0 → r ≤ 0) ∧
      (0 ≤ r → r = wrap x T) ∧ (r < 0 → r + T = wrap x T) := by
  refine ⟨x - (trunc (x / T) : K) * T, fmod_fin_of_ne x hT.ne', ?_⟩
  have hrange : -T < x - (trunc (x / T) : K) * T ∧ x - (trunc (x / T) : K) * T < T ∧
      (0 ≤ x → 0 ≤ x - (trunc (x / T) : K) * T) ∧
      (x < 0 → x - (trunc (x / T) : K) * T ≤ 0) := by
    unfold trunc
    by_cases hx : 0 ≤ x
    · have hq : 0 ≤ x / T := div_nonneg hx hT.le
      rw [if_pos hq]
      have h1 := Int.floor_le (x / T)
      have h2 := Int.lt_floor_add_one (x / T)
      rw [le_div_iff₀ hT] at h1
      rw [div_lt_iff₀ hT] at h2
      refine ⟨by nlinarith, by nlinarith, fun _ => by nlinarith, fun h => absurd hx (not_le.mpr h)⟩
    · have hx' : x < 0 := not_le.mp hx
      have hq : ¬ 0 ≤ x / T := not_le.mpr (div_neg_of_neg_of_pos hx' hT)
      rw [if_neg hq]
      have h1 := Int.le_ceil (x / T)
      have h2 : ((⌈x / T⌉ : K) - 1) < x / T := by
        have := Int.ceil_lt_add_one (x / T)
        linarith
      rw [div_le_iff₀ hT] at h1
      rw [lt_div_iff₀ hT] at h2
      refine ⟨by nlinarith, by nlinarith, fun h => absurd h hx, fun _ => by nlinarith⟩
  obtain ⟨ha, hb, hc, hd⟩ := hrange
  refine ⟨ha, hb, ⟨_, rfl⟩, hc, hd, ?_, ?_⟩
  · intro h0
    exact (wrap_eq_of hT _ h0 hb).symm
  · intro hneg
    have := wrap_eq_of hT (trunc (x / T) - 1) (x := x)
      (by push_cast; nlinarith) (by push_cast; nlinarith)
    rw [this]
    push_cast
    ring

end Fmod

/-! ## Piecewise-cosine activation -/

section PiecewiseCosine

variable {K : Type} [LinearOrderedField K] [FloorRing K]

/-- The value of `PiecewiseCosineActivation::compute` once the four parameters
are found in the map. -/
theorem piecewise_cosine_compute_eq (cos : K → K) (M_PI : K)
    (a : PiecewiseCosineActivation K) (time cs rs cd rd : Dbl K)
    (hcs : a.params_ "contract_start" = some cs) (hrs : a.params_ "relax_start" = some rs)
    (hcd : a.params_ "contract_duration" = some cd)
    (hrd : a.params_ "relax_duration" = some rd) :
    PiecewiseCosineActivation.compute cos M_PI a time =
      .ok (if (le (fin 0) (fmod (time - cs) a.cardiac_period_) &&
                lt (fmod (time - cs) a.cardiac_period_) cd) = true then
            fin 0.5 * (fin 1 - Dbl.map cos
              ((fin M_PI * fmod (time - cs) a.cardiac_period_) / cd))
          else if (le (fin 0) (fmod (time - rs) a.cardiac_period_) &&
                lt (fmod (time - rs) a.cardiac_period_) rd) = true then
            fin 0.5 * (fin 1 + Dbl.map cos
              ((fin M_PI * fmod (time - rs) a.cardiac_period_) / rd))
          else fin 0) := by
  simp only [PiecewiseCosineActivation.compute, map_at, hcs, hrs, hcd, hrd, lit_zero, lit_one,
    bind, Except.bind, pure, Except.pure]
  split_ifs <;> rfl

/-- A window test of the code that succeeds: the offset is finite, and lies in
`[0, d)`, so that `d` is positive. -/
theorem window_true {x T d : K}
    (h : (le (fin 0) (fmod (fin x) (fin T)) && lt (fmod (fin x) (fin T)) (fin d)) = true) :
    ∃ r : K, fmod (fin x) (fin T) = fin r ∧ 0 ≤ r ∧ r < d := by
  by_cases hT : T = 0
  · subst hT
    simp at h
  · rw [fmod_fin_of_ne x hT] at h ⊢
    simp only [le_fin_fin, lt_fin_fin, Bool.and_eq_true, decide_eq_true_eq] at h
    exact ⟨_, rfl, h.1, h.2⟩

/-- The two cosine branches take values in `[0, 1]`. -/
theorem cos_branch_range (cos : K → K) (hcos : ∀ x, -1 ≤ cos x ∧ cos x ≤ 1) (x : K) :
    (0 ≤ 0.5 * (1 - cos x) ∧ 0.5 * (1 - cos x) ≤ 1) ∧
    (0 ≤ 0.5 * (1 + cos x) ∧ 0.5 * (1 + cos x) ≤ 1) := by
  obtain ⟨h1, h2⟩ := hcos x
  refine ⟨⟨?_, ?_⟩, ⟨?_, ?_⟩⟩ <;> norm_num <;> linarith

/-- Claim C4: for all finite times, periods and parameters,
`PiecewiseCosineActivation::compute` returns a finite value in `[0, 1]`; it
returns exactly 0 when neither window test of the code succeeds; and for a
positive period it returns exactly 0 when the contraction offset wrapped into
`[0, T)` is not below `contract_duration` and the relaxation offset wrapped into
`[0, T)` is not below `relax_duration`. -/
theorem piecewise_cosine_range (cos : K → K) (M_PI : K)
    (hcos : ∀ x, -1 ≤ cos x ∧ cos x ≤ 1)
    (a : PiecewiseCosineActivation K) (t T cs rs cd rd : K)
    (hT : a.cardiac_period_ = fin T)
    (hcs : a.params_ "contract_start" = some (fin cs))
    (hrs : a.params_ "relax_start" = some (fin rs))
    (hcd : a.params_ "contract_duration" = some (fin cd))
    (hrd : a.params_ "relax_duration" = some (fin rd)) :
    (∃ v, PiecewiseCosineActivation.compute cos M_PI a (fin t) = .ok (fin v) ∧ 0 ≤ v ∧ v ≤ 1) ∧
    ((le (fin 0) (fmod (fin t - fin cs) (fin T)) &&
        lt (fmod (fin t - fin cs) (fin T)) (fin cd)) = false →
      (le (fin 0) (fmod (fin t - fin rs) (fin T)) &&
        lt (fmod (fin t - fin rs) (fin T)) (fin rd)) = false →
      PiecewiseCosineActivation.compute cos M_PI a (fin t) = .ok (fin 0)) ∧
    (0 < T → ¬ wrap (t - cs) T < cd → ¬ wrap (t - rs) T < rd →
      PiecewiseCosineActivation.compute cos M_PI a (fin t) = .ok (fin 0)) := by
  rw [piecewise_cosine_compute_eq cos M_PI a _ _ _ _ _ hcs hrs hcd hrd, hT]
  simp only [fin_sub_fin]
  have hzero : ∀ {x d : K}, 0 < T → ¬ wrap x T < d →
      (le (fin 0) (fmod (fin x) (fin T)) && lt (fmod (fin x) (fin T)) (fin d)) = false := by
    intro x d hTpos hw
    by_contra hne
    rw [Bool.not_eq_false] at hne
    obtain ⟨r, hr, h0, hd⟩ := window_true hne
    obtain ⟨r', hr', -, -, -, -, -, hwr, -⟩ := fmod_pos x hTpos
    rw [hr] at hr'
    injection hr' with hr'
    subst hr'
    rw [← hwr h0] at hw
    exact hw hd
  refine ⟨?_, ?_, ?_⟩
  · by_cases hc : (le (fin 0) (fmod (fin (t - cs)) (fin T)) &&
        lt (fmod (fin (t - cs)) (fin T)) (fin cd)) = true
    · obtain ⟨r, hr, h0, hd⟩ := window_true hc
      have hcd0 : cd ≠ 0 := (lt_of_le_of_lt h0 hd).ne'
      rw [if_pos hc, hr]
      exact ⟨0.5 * (1 - cos (M_PI * r / cd)), by simp [hcd0],
        (cos_branch_range cos hcos _).1⟩
    · rw [if_neg hc]
      by_cases hrl : (le (fin 0) (fmod (fin (t - rs)) (fin T)) &&
          lt (fmod (fin (t - rs)) (fin T)) (fin rd)) = true
      · obtain ⟨r, hr, h0, hd⟩ := window_true hrl
        have hrd0 : rd ≠ 0 := (lt_of_le_of_lt h0 hd).ne'
        rw [if_pos hrl, hr]
        exact ⟨0.5 * (1 + cos (M_PI * r / rd)), by simp [hrd0],
          (cos_branch_range cos hcos _).2⟩
      · rw [if_neg hrl]
        exact ⟨0, rfl, le_refl _, zero_le_one⟩
  · intro hc hrl
    rw [if_neg (by simp [hc]), if_neg (by simp [hrl])]
  · intro hTpos hc hrl
    rw [if_neg (by simp [hzero hTpos hc]), if_neg (by simp [hzero hTpos hrl])]

/-- Witness for `piecewise_cosine_range`: period 1, contraction window
`[0, 0.3)`, relaxation window `[0.3, 0.6)`, time 0.8 outside both. -/
theorem piecewise_cosine_range_witness :
    (0 : ℝ) < 1 ∧ ¬ wrap ((0.8 : ℝ) - 0) 1 < 0.3 ∧ ¬ wrap ((0.8 : ℝ) - 0.3) 1 < 0.3 ∧
    PiecewiseCosineActivation.compute Real.cos Real.pi
      (((((PiecewiseCosineActivation.new (fin (1 : ℝ))).set_param "contract_start"
        (fin 0)).set_param "relax_start" (fin 0.3)).set_param "contract_duration"
        (fin 0.3)).set_param "relax_duration" (fin 0.3)) (fin 0.8) = .ok (fin 0) :=
  ⟨by norm_num, by norm_num [wrap], by norm_num [wrap],
    (piecewise_cosine_range Real.cos Real.pi
      (fun x => ⟨Real.neg_one_le_cos x, Real.cos_le_one x⟩) _ 0.8 1 0 0.3 0.3 0.3
      rfl rfl rfl rfl rfl).2.2 (by norm_num) (by norm_num [wrap]) (by norm_num [wrap])⟩

/-- The branch order of the code, on the remainders it forms itself: when the
remainder `fmod(t - contract_start, T)` lies in `[0, contract_duration)` the
contraction value at that remainder is returned, whatever the relaxation
remainder is; the relaxation value is returned when the relaxation remainder
passes its test and the contraction remainder fails its own.  (The remainders of
`fmod` are not the offsets wrapped into `[0, T)` when they are negative.) -/
theorem piecewise_cosine_contraction_first (cos : K → K) (M_PI : K)
    (a : PiecewiseCosineActivation K) (t T cs rs cd rd : K)
    (hT : a.cardiac_period_ = fin T)
    (hcs : a.params_ "contract_start" = some (fin cs))
    (hrs : a.params_ "relax_start" = some (fin rs))
    (hcd : a.params_ "contract_duration" = some (fin cd))
    (hrd : a.params_ "relax_duration" = some (fin rd)) :
    (∀ oc : K, fmod (fin t - fin cs) (fin T) = fin oc → 0 ≤ oc → oc < cd →
      PiecewiseCosineActivation.compute cos M_PI a (fin t) =
        .ok (fin (0.5 * (1 - cos (M_PI * oc / cd))))) ∧
    (∀ orl : K, fmod (fin t - fin rs) (fin T) = fin orl → 0 ≤ orl → orl < rd →
      (le (fin 0) (fmod (fin t - fin cs) (fin T)) &&
        lt (fmod (fin t - fin cs) (fin T)) (fin cd)) = false →
      PiecewiseCosineActivation.compute cos M_PI a (fin t) =
        .ok (fin (0.5 * (1 + cos (M_PI * orl / rd))))) := by
  rw [piecewise_cosine_compute_eq cos M_PI a _ _ _ _ _ hcs hrs hcd hrd, hT]
  refine ⟨?_, ?_⟩
  · intro oc hoc h0 h1
    have hcd0 : cd ≠ 0 := (lt_of_le_of_lt h0 h1).ne'
    rw [hoc, if_pos (by simp [h0, h1])]
    simp [hcd0]
  · intro orl horl h0 h1 hc
    have hrd0 : rd ≠ 0 := (lt_of_le_of_lt h0 h1).ne'
    rw [if_neg (by rw [hc]; exact Bool.false_ne_true), horl, if_pos (by simp [h0, h1])]
    simp [hrd0]

/-- Witness for `piecewise_cosine_contraction_first`: period 1, overlapping
windows `[0, 0.5)` (contraction) and `[0.2, 0.7)` (relaxation); at time 0.3 both
offsets (0.3 and 0.1) are inside their windows and the contraction value is
returned. -/
theorem piecewise_cosine_contraction_first_witness :
    fmod (fin (0.3 : ℝ) - fin 0) (fin 1) = fin 0.3 ∧ (0 : ℝ) ≤ 0.3 ∧ (0.3 : ℝ) < 0.5 ∧
    fmod (fin (0.3 : ℝ) - fin 0.2) (fin 1) = fin 0.1 ∧ (0 : ℝ) ≤ 0.1 ∧ (0.1 : ℝ) < 0.5 ∧
    PiecewiseCosineActivation.compute Real.cos Real.pi
      (((((PiecewiseCosineActivation.new (fin (1 : ℝ))).set_param "contract_start"
        (fin 0)).set_param "relax_start" (fin 0.2)).set_param "contract_duration"
        (fin 0.5)).set_param "relax_duration" (fin 0.5)) (fin 0.3) =
      .ok (fin (0.5 * (1 - Real.cos (Real.pi * 0.3 / 0.5)))) :=
  ⟨by norm_num [trunc], by norm_num, by norm_num, by norm_num [trunc], by norm_num,
    by norm_num,
    (piecewise_cosine_contraction_first Real.cos Real.pi _ 0.3 1 0 0.2 0.5 0.5
      rfl rfl rfl rfl rfl).1 0.3 (by norm_num [trunc]) (by norm_num) (by norm_num)⟩

/-- For a positive period and a time not before `contract_start`, the
contraction branch is taken exactly when the wrapped contraction offset is
below `contract_duration`, and it returns the contraction value at the wrapped
offset. -/
theorem piecewise_cosine_contraction_of_le (cos : K → K) (M_PI : K)
    (a : PiecewiseCosineActivation K) (t T cs rs cd rd : K)
    (hT : a.cardiac_period_ = fin T)
    (hcs : a.params_ "contract_start" = some (fin cs))
    (hrs : a.params_ "relax_start" = some (fin rs))
    (hcd : a.params_ "contract_duration" = some (fin cd))
    (hrd : a.params_ "relax_duration" = some (fin rd))
    (hTpos : 0 < T) (ht : cs ≤ t) (hw : wrap (t - cs) T < cd) :
    PiecewiseCosineActivation.compute cos M_PI a (fin t) =
      .ok (fin (0.5 * (1 - cos (M_PI * wrap (t - cs) T / cd)))) := by
  obtain ⟨r, hr, -, -, -, hnn, -, hwr, -⟩ := fmod_pos (t - cs) hTpos
  have h0 : 0 ≤ r := hnn (sub_nonneg.mpr ht)
  have hrw := hwr h0
  rw [← hrw] at hw ⊢
  have hcd0 : cd ≠ 0 := (lt_of_le_of_lt h0 hw).ne'
  rw [piecewise_cosine_compute_eq cos M_PI a _ _ _ _ _ hcs hrs hcd hrd, hT, fin_sub_fin, hr,
    if_pos (by simp [h0, hw])]
  simp [hcd0]

/-- Claim C5, evaluation at the failing input: period 1, `contract_start = 0.9`,
`contract_duration = 0.3`, `relax_start = 0.2`, `relax_duration = 0.3`, time
0.05.  The contraction offset wrapped into `[0, 1)` is 0.15, inside
`[0, 0.3)`, where the contraction formula gives
`0.5 * (1 - cos(pi * 0.15 / 0.3)) = 0.5`; the code forms the remainder
`fmod(-0.85, 1) = -0.85`, rejects it, and returns 0. -/
theorem piecewise_cosine_wrap_divergence :
    wrap ((0.05 : ℝ) - 0.9) 1 = 0.15 ∧ (0 : ℝ) ≤ 0.15 ∧ (0.15 : ℝ) < 0.3 ∧
    (0.5 : ℝ) * (1 - Real.cos (Real.pi * 0.15 / 0.3)) = 0.5 ∧
    fmod (fin (0.05 : ℝ) - fin 0.9) (fin 1) = fin (-0.85) ∧
    PiecewiseCosineActivation.compute Real.cos Real.pi
      (((((PiecewiseCosineActivation.new (fin (1 : ℝ))).set_param "contract_start"
        (fin 0.9)).set_param "relax_start" (fin 0.2)).set_param "contract_duration"
        (fin 0.3)).set_param "relax_duration" (fin 0.3)) (fin 0.05) = .ok (fin 0) := by
  refine ⟨by norm_num [wrap], by norm_num, by norm_num, ?_, by norm_num [trunc], ?_⟩
  · have h : Real.pi * 0.15 / 0.3 = Real.pi / 2 := by ring
    rw [h, Real.cos_pi_div_two]
    norm_num
  · have hc : fmod (fin (0.05 : ℝ) - fin 0.9) (fin 1) = fin (-0.85) := by norm_num [trunc]
    have hr : fmod (fin (0.05 : ℝ) - fin 0.2) (fin 1) = fin (-0.15) := by norm_num [trunc]
    rw [piecewise_cosine_compute_eq Real.cos Real.pi _ (fin 0.05) (fin 0.9) (fin 0.2)
      (fin 0.3) (fin 0.3) rfl rfl rfl rfl]
    simp only [PiecewiseCosineActivation.set_param, ActivationFunction.set_param,
      PiecewiseCosineActivation.new, ActivationFunction.new]
    rw [hc, hr]
    norm_num

/-- Claim C6, evaluation at the failing input: period 1, `contract_start = 0.9`,
`contract_duration = 0.3`, `relax_start = 0`, `relax_duration = 0.3`, time 0.05.
The contraction offset wrapped into `[0, 1)` is 0.15, inside `[0, 0.3)`, and the
relaxation offset is 0.05, inside `[0, 0.3)`: both windows match, and the
contraction value is `0.5 * (1 - cos(pi * 0.15 / 0.3)) = 0.5`.  The code forms
the remainder `fmod(-0.85, 1) = -0.85`, rejects the contraction window, and
returns the relaxation value `0.5 * (1 + cos(pi * 0.05 / 0.3))`, which is above
0.5 and so is not the contraction value. -/
theorem piecewise_cosine_overlap_divergence :
    (0 : ℝ) < 1 ∧
    wrap ((0.05 : ℝ) - 0.9) 1 = 0.15 ∧ (0 : ℝ) ≤ 0.15 ∧ (0.15 : ℝ) < 0.3 ∧
    wrap ((0.05 : ℝ) - 0) 1 = 0.05 ∧ (0 : ℝ) ≤ 0.05 ∧ (0.05 : ℝ) < 0.3 ∧
    (0.5 : ℝ) * (1 - Real.cos (Real.pi * 0.15 / 0.3)) = 0.5 ∧
    fmod (fin (0.05 : ℝ) - fin 0.9) (fin 1) = fin (-0.85) ∧
    PiecewiseCosineActivation.compute Real.cos Real.pi
      (((((PiecewiseCosineActivation.new (fin (1 : ℝ))).set_param "contract_start"
        (fin 0.9)).set_param "relax_start" (fin 0)).set_param "contract_duration"
        (fin 0.3)).set_param "relax_duration" (fin 0.3)) (fin 0.05) =
      .ok (fin (0.5 * (1 + Real.cos (Real.pi * 0.05 / 0.3)))) ∧
    (0.5 : ℝ) < 0.5 * (1 + Real.cos (Real.pi * 0.05 / 0.3)) ∧
    PiecewiseCosineActivation.compute Real.cos Real.pi
      (((((PiecewiseCosineActivation.new (fin (1 : ℝ))).set_param "contract_start"
        (fin 0.9)).set_param "relax_start" (fin 0)).set_param "contract_duration"
        (fin 0.3)).set_param "relax_duration" (fin 0.3)) (fin 0.05) ≠
      .ok (fin (0.5 * (1 - Real.cos (Real.pi * 0.15 / 0.3)))) := by
  have hval : (0.5 : ℝ) * (1 - Real.cos (Real.pi * 0.15 / 0.3)) = 0.5 := by
    have h : Real.pi * 0.15 / 0.3 = Real.pi / 2 := by ring
    rw [h, Real.cos_pi_div_two]
    norm_num
  have hpos : 0 < Real.cos (Real.pi * 0.05 / 0.3) := by
    have h : Real.pi * 0.05 / 0.3 = Real.pi / 6 := by ring
    rw [h]
    exact Real.cos_pos_of_mem_Ioo ⟨by linarith [Real.pi_pos], by linarith [Real.pi_pos]⟩
  have hgt : (0.5 : ℝ) < 0.5 * (1 + Real.cos (Real.pi * 0.05 / 0.3)) := by linarith
  have hcomp : PiecewiseCosineActivation.compute Real.cos Real.pi
      (((((PiecewiseCosineActivation.new (fin (1 : ℝ))).set_param "contract_start"
        (fin 0.9)).set_param "relax_start" (fin 0)).set_param "contract_duration"
        (fin 0.3)).set_param "relax_duration" (fin 0.3)) (fin 0.05) =
      .ok (fin (0.5 * (1 + Real.cos (Real.pi * 0.05 / 0.3)))) := by
    have hc : fmod (fin (0.05 : ℝ) - fin 0.9) (fin 1) = fin (-0.85) := by norm_num [trunc]
    have hr : fmod (fin (0.05 : ℝ) - fin 0) (fin 1) = fin 0.05 := by norm_num [trunc]
    rw [piecewise_cosine_compute_eq Real.cos Real.pi _ (fin 0.05) (fin 0.9) (fin 0)
      (fin 0.3) (fin 0.3) rfl rfl rfl rfl]
    simp only [PiecewiseCosineActivation.set_param, ActivationFunction.set_param,
      PiecewiseCosineActivation.new, ActivationFunction.new]
    rw [hc, hr]
    norm_num
  refine ⟨by norm_num, by norm_num [wrap], by norm_num, by norm_num, by norm_num [wrap],
    by norm_num, by norm_num, hval, by norm_num [trunc], hcomp, hgt, ?_⟩
  rw [hcomp, hval]
  intro h
  injection h with h
  injection h with h
  linarith

end PiecewiseCosine

/-! ## Two-hill activation: the scan of `calculate_normalization_factor` -/

section TwoHillScan

variable {K : Type} [LinearOrderedField K] [FloorRing K]

/-- The comparison `<` of doubles is irreflexive. -/
theorem Dbl.lt_self (a : Dbl K) : lt a a = false := by
  cases a <;> simp [lt]

/-- The comparison `<` of doubles is transitive. -/
theorem Dbl.lt_of_lt_of_lt {a b c : Dbl K} (h1 : lt a b = true) (h2 : lt b c = true) :
    lt a c = true := by
  cases a <;> cases b <;> cases c <;> simp_all [lt]
  exact h1.trans h2

/-- On doubles other than `NaN`, `b` not below `a` and `c` not below `b`
give `c` not below `a`. -/
theorem Dbl.not_lt_trans {a b c : Dbl K} (hb : b ≠ nan) (h1 : lt b a = false)
    (h2 : lt c b = false) : lt c a = false := by
  cases a <;> cases b <;> cases c <;> simp_all [lt]
  exact h1.trans h2

/-- The function `std::max` never returns `NaN` when its first argument is not `NaN`. -/
theorem Dbl.max_ne_nan {a b : Dbl K} (ha : a ≠ nan) : Dbl.max a b ≠ nan := by
  unfold Dbl.max
  split_ifs with h
  · intro hb
    rw [hb] at h
    simp at h
  · exact ha

/-- The scan step is positive. -/
theorem scan_step_pos : (0 : K) < 1e-5 := by norm_num

/-- A scan index is below the cardiac period exactly when it is below the
number `⌈T / 1e-5⌉₊` of scan points. -/
theorem scan_index_lt (T : K) (k : ℕ) : (k : K) * 1e-5 < T ↔ k < ⌈T / 1e-5⌉₊ := by
  rw [Nat.lt_ceil, lt_div_iff₀ scan_step_pos]

/-- The scan loop ends within `⌈T / 1e-5⌉₊ - k` iterations from the `k`-th scan
point, and its result is the running maximum or one of the remaining scan
values, is not `NaN`, and is not below the running maximum nor below any
remaining scan value. -/
theorem scan_loop_spec (pow : Dbl K → Dbl K → Dbl K) (T : K) (tau_1 tau_2 m1 m2 : Dbl K) :
    ∀ (fuel k : ℕ) (mx : Dbl K), ⌈T / 1e-5⌉₊ ≤ k + fuel → mx ≠ nan →
    ∃ R, TwoHillActivation.scan_loop pow (fin T) tau_1 tau_2 m1 m2 fuel
        (fin ((k : K) * 1e-5)) mx = some R ∧ R ≠ nan ∧
      (R = mx ∨ ∃ j : ℕ, k ≤ j ∧ (j : K) * 1e-5 < T ∧
        TwoHillActivation.two_hill_val pow tau_1 tau_2 m1 m2 (fin ((j : K) * 1e-5)) = R) ∧
      lt R mx = false ∧
      ∀ j : ℕ, k ≤ j → (j : K) * 1e-5 < T →
        lt R (TwoHillActivation.two_hill_val pow tau_1 tau_2 m1 m2 (fin ((j : K) * 1e-5)))
          = false := by
  intro fuel
  induction fuel with
  | zero =>
    intro k mx hk hmx
    have hnot : ¬ (k : K) * 1e-5 < T := by
      rw [scan_index_lt]
      omega
    refine ⟨mx, by simp [TwoHillActivation.scan_loop, hnot], hmx, Or.inl rfl, Dbl.lt_self mx, ?_⟩
    intro j hj hjT
    rw [scan_index_lt] at hjT
    omega
  | succ fuel ih =>
    intro k mx hk hmx
    by_cases hlt : (k : K) * 1e-5 < T
    · have hstep : (fin ((k : K) * 1e-5) + fin 1e-5 : Dbl K) = fin (((k + 1 : ℕ) : K) * 1e-5) := by
        rw [fin_add_fin]
        push_cast
        ring_nf
      obtain ⟨R, hR, hRnan, hatt, hRmx, hall⟩ := ih (k + 1)
        (Dbl.max mx (TwoHillActivation.two_hill_val pow tau_1 tau_2 m1 m2 (fin ((k : K) * 1e-5))))
        (by omega) (Dbl.max_ne_nan hmx)
      refine ⟨R, ?_, hRnan, ?_, ?_, ?_⟩
      · rw [TwoHillActivation.scan_loop]
        simp only [lt_fin_fin, hlt, decide_True, if_true, hstep]
        exact hR
      · rcases hatt with h | ⟨j, hj, hjT, hjv⟩
        · unfold Dbl.max at h
          split_ifs at h with hc
          · exact Or.inr ⟨k, le_refl _, hlt, h.symm⟩
          · exact Or.inl h
        · exact Or.inr ⟨j, by omega, hjT, hjv⟩
      · unfold Dbl.max at hRmx
        split_ifs at hRmx with hc
        · by_contra hne
          rw [Bool.not_eq_false] at hne
          have := Dbl.lt_of_lt_of_lt hne hc
          rw [hRmx] at this
          exact Bool.false_ne_true this
        · exact hRmx
      · intro j hj hjT
        rcases Nat.eq_or_lt_of_le hj with h | h
        · subst h
          unfold Dbl.max at hRmx
          split_ifs at hRmx with hc
          · exact hRmx
          · exact Dbl.not_lt_trans hmx (by simpa using hc) hRmx
        · exact hall j h hjT
    · refine ⟨mx, by simp [TwoHillActivation.scan_loop, hlt], hmx, Or.inl rfl, Dbl.lt_self mx, ?_⟩
      intro j hj hjT
      exfalso
      apply hlt
      have : (k : K) ≤ (j : K) := by exact_mod_cast hj
      have h5 : (0 : K) < 1e-5 := scan_step_pos
      nlinarith

end TwoHillScan

/-! ## Two-hill activation: `finalize` -/

section TwoHillFinalize

variable {K : Type} [LinearOrderedField K] [FloorRing K]

/-- The result of `calculate_normalization_factor` in terms of the value `R`
the scan loop returns: with enough fuel the loop ends, and the call stores
`1 / R` when `R` is positive and finite and throws otherwise. -/
theorem calculate_normalization_factor_eq (pow : Dbl K → Dbl K → Dbl K)
    (to_string : Dbl K → String) (a : TwoHillActivation K) (T : K) (tau_1 tau_2 m1 m2 : Dbl K)
    (hT : a.cardiac_period_ = fin T) (hTpos : 0 < T)
    (h1 : a.params_ "tau_1" = some tau_1) (h2 : a.params_ "tau_2" = some tau_2)
    (h3 : a.params_ "m1" = some m1) (h4 : a.params_ "m2" = some m2)
    (fuel : ℕ) (hfuel : ⌈T / 1e-5⌉₊ ≤ fuel) :
    ∃ R, TwoHillActivation.scan_loop pow (fin T) tau_1 tau_2 m1 m2 fuel (fin 0) (fin 0)
        = some R ∧ R ≠ nan ∧
      (R = fin 0 ∨ ∃ j : ℕ, (j : K) * 1e-5 < T ∧
        TwoHillActivation.two_hill_val pow tau_1 tau_2 m1 m2 (fin ((j : K) * 1e-5)) = R) ∧
      lt R (fin 0) = false ∧
      (∀ j : ℕ, (j : K) * 1e-5 < T →
        lt R (TwoHillActivation.two_hill_val pow tau_1 tau_2 m1 m2 (fin ((j : K) * 1e-5)))
          = false) ∧
      TwoHillActivation.calculate_normalization_factor pow to_string fuel a =
        some (if (!(gt R (fin 0)) || !(isfinite R)) = true then
            .error (Error.runtime_error
              ("TwoHillActivation::calculate_normalization_factor: max activation " ++
               "value must be positive and finite (got " ++ to_string R ++
               "). Check tau_1, tau_2, m1, m2 are valid (e.g., tau_1 > 0, tau_2 > " ++
               "0)."))
          else .ok { a with
            normalization_factor_ := fin 1 / R
            normalization_initialized_ := true }) := by
  obtain ⟨R, hR, hRnan, hatt, hRmx, hall⟩ :=
    scan_loop_spec pow T tau_1 tau_2 m1 m2 fuel 0 (fin 0) (by omega) (by simp)
  have h0 : (fin (((0 : ℕ) : K) * 1e-5) : Dbl K) = fin 0 := by simp
  rw [h0] at hR
  refine ⟨R, hR, hRnan, ?_, hRmx, fun j hj => hall j (Nat.zero_le _) hj, ?_⟩
  · rcases hatt with h | ⟨j, -, hj, hv⟩
    · exact Or.inl h
    · exact Or.inr ⟨j, hj, hv⟩
  · unfold TwoHillActivation.calculate_normalization_factor
    simp only [hT, map_at, h1, h2, h3, h4, lit_zero, lit_one, le_fin_fin, not_le.mpr hTpos,
      decide_False, hR]
    split_ifs <;> simp_all

end TwoHillFinalize

/-! ## Two-hill activation: `compute` needs a successful `finalize` -/

section TwoHillUsage

variable {K : Type} [LinearOrderedField K] [FloorRing K]

/-- The value of `TwoHillActivation::compute` once the flag is set and the
five parameters are found in the map. -/
theorem two_hill_compute_eq (pow : Dbl K → Dbl K → Dbl K) (a : TwoHillActivation K)
    (time ts t1 t2 e1 e2 : Dbl K) (hb : a.normalization_initialized_ = true)
    (hs : a.params_ "t_shift" = some ts)
    (h1 : a.params_ "tau_1" = some t1) (h2 : a.params_ "tau_2" = some t2)
    (h3 : a.params_ "m1" = some e1) (h4 : a.params_ "m2" = some e2) :
    TwoHillActivation.compute pow a time =
      .ok (a.normalization_factor_ *
        (pow (TwoHillActivation.t_shifted a.cardiac_period_ ts time / t1) e1 /
          (fin 1 + pow (TwoHillActivation.t_shifted a.cardiac_period_ ts time / t1) e1)) *
        (fin 1 / (fin 1 + pow (TwoHillActivation.t_shifted a.cardiac_period_ ts time / t2) e2))) := by
  simp only [TwoHillActivation.compute, hb, map_at, hs, h1, h2, h3, h4, lit_one]
  rfl

/-- After `set_param`, a name that was in the map is still in the map. -/
theorem map_assign_present (params : String → Option (Dbl K)) (name n : String) (value : Dbl K)
    (h : ∃ v, params n = some v) : ∃ v, map_assign params name value n = some v := by
  unfold map_assign
  split_ifs
  · exact ⟨value, rfl⟩
  · exact h

/-- With enough fuel `finalize` returns, by an exception or with an object
that has the same base state and the flag set. -/
theorem two_hill_finalize_total (pow : Dbl K → Dbl K → Dbl K) (to_string : Dbl K → String)
    (T : K) (a : TwoHillActivation K) (b : Bool) (hinv : TwoHillInv T a b)
    (fuel : ℕ) (hfuel : ⌈T / 1e-5⌉₊ ≤ fuel) :
    (∃ e, TwoHillActivation.finalize pow to_string fuel a = some (.error e)) ∨
    (∃ a', TwoHillActivation.finalize pow to_string fuel a = some (.ok a') ∧
      TwoHillInv T a' true) := by
  obtain ⟨hT, hb, hs, ⟨t1, h1⟩, ⟨t2, h2⟩, ⟨e1, h3⟩, ⟨e2, h4⟩⟩ := hinv
  unfold TwoHillActivation.finalize
  by_cases hTpos : 0 < T
  · obtain ⟨R, -, -, -, -, -, hres⟩ :=
      calculate_normalization_factor_eq pow to_string a T t1 t2 e1 e2 hT hTpos h1 h2 h3 h4
        fuel hfuel
    rw [hres]
    split_ifs
    · exact Or.inl ⟨_, rfl⟩
    · exact Or.inr ⟨_, rfl, hT, rfl, hs, ⟨t1, h1⟩, ⟨t2, h2⟩, ⟨e1, h3⟩, ⟨e2, h4⟩⟩
  · left
    unfold TwoHillActivation.calculate_normalization_factor
    simp only [hT, lit_zero, le_fin_fin, not_lt.mp hTpos, decide_True, if_true]
    exact ⟨_, rfl⟩

/-- Every sequence of calls returns (with enough fuel) and keeps the invariant. -/
theorem run_calls_inv (pow : Dbl K → Dbl K → Dbl K) (to_string : Dbl K → String)
    (T : K) (fuel : ℕ) (hfuel : ⌈T / 1e-5⌉₊ ≤ fuel) :
    ∀ (calls : List (TwoHillCall K)) (a : TwoHillActivation K) (b : Bool),
      TwoHillInv T a b →
      ∃ a' b', TwoHillActivation.run_calls pow to_string fuel calls (a, b) = some (a', b') ∧
        TwoHillInv T a' b' := by
  intro calls
  induction calls with
  | nil =>
    intro a b hinv
    exact ⟨a, b, rfl, hinv⟩
  | cons c rest ih =>
    intro a b hinv
    cases c with
    | set_param name value =>
      rw [TwoHillActivation.run_calls]
      apply ih
      obtain ⟨hT, hb, hs, h1, h2, h3, h4⟩ := hinv
      exact ⟨hT, hb, map_assign_present _ _ _ _ hs, map_assign_present _ _ _ _ h1,
        map_assign_present _ _ _ _ h2, map_assign_present _ _ _ _ h3,
        map_assign_present _ _ _ _ h4⟩
    | finalize =>
      rw [TwoHillActivation.run_calls]
      rcases two_hill_finalize_total pow to_string T a b hinv fuel hfuel with
        ⟨e, he⟩ | ⟨a', ha', hinv'⟩
      · rw [he]
        exact ih a b hinv
      · rw [ha']
        exact ih a' true hinv'

/-- Claim C7: on a `TwoHillActivation` built by its constructor with a finite
cardiac period, every sequence of `set_param` and `finalize` calls returns
(given fuel for the scan), and afterwards: if no `finalize` call has
succeeded, `compute` throws its usage error at every time and returns no
value; if one has, `compute` returns a value at every time. -/
theorem two_hill_compute_requires_finalize (pow : Dbl K → Dbl K → Dbl K)
    (to_string : Dbl K → String) (T : K) (fuel : ℕ) (hfuel : ⌈T / 1e-5⌉₊ ≤ fuel)
    (calls : List (TwoHillCall K)) :
    ∃ a finalized,
      TwoHillActivation.run_calls pow to_string fuel calls (TwoHillActivation.new (fin T), false)
        = some (a, finalized) ∧
      (finalized = false → ∀ t, TwoHillActivation.compute pow a t =
        .error (Error.runtime_error
          "TwoHillActivation: call finalize() after setting parameters")) ∧
      (finalized = true → ∀ t, ∃ v, TwoHillActivation.compute pow a t = .ok v) := by
  have hnew : TwoHillInv T (TwoHillActivation.new (fin T)) false := by
    refine ⟨rfl, rfl, ⟨_, rfl⟩, ⟨_, rfl⟩, ⟨_, rfl⟩, ⟨_, rfl⟩, ⟨_, rfl⟩⟩
  obtain ⟨a, b, hrun, hT, hb, ⟨ts, hs⟩, ⟨t1, h1⟩, ⟨t2, h2⟩, ⟨e1, h3⟩, ⟨e2, h4⟩⟩ :=
    run_calls_inv pow to_string T fuel hfuel calls _ _ hnew
  refine ⟨a, b, hrun, ?_, ?_⟩
  · intro hfalse t
    rw [hfalse] at hb
    simp [TwoHillActivation.compute, hb]
  · intro htrue t
    rw [htrue] at hb
    exact ⟨_, two_hill_compute_eq pow a t ts t1 t2 e1 e2 hb hs h1 h2 h3 h4⟩

/-- Witness for `two_hill_compute_requires_finalize`: period 1, fuel 100000,
the calls `set_param("tau_1", 0.2)`, `finalize()`, `set_param("m1", 2)`; `pow`
is the real power on finite arguments. -/
theorem two_hill_compute_requires_finalize_witness :
    ⌈(1 : ℝ) / 1e-5⌉₊ ≤ 100000 ∧
    ∃ a finalized,
      TwoHillActivation.run_calls
        (fun (x y : Dbl ℝ) => match x, y with
          | fin u, fin v => fin (u ^ v)
          | _, _ => nan)
        (fun (_ : Dbl ℝ) => "") 100000
        [TwoHillCall.set_param "tau_1" (fin 0.2), TwoHillCall.finalize,
          TwoHillCall.set_param "m1" (fin 2)]
        (TwoHillActivation.new (fin (1 : ℝ)), false) = some (a, finalized) ∧
      (finalized = false → ∀ t, TwoHillActivation.compute
        (fun (x y : Dbl ℝ) => match x, y with
          | fin u, fin v => fin (u ^ v)
          | _, _ => nan) a t =
        .error (Error.runtime_error
          "TwoHillActivation: call finalize() after setting parameters")) ∧
      (finalized = true → ∀ t, ∃ v, TwoHillActivation.compute
        (fun (x y : Dbl ℝ) => match x, y with
          | fin u, fin v => fin (u ^ v)
          | _, _ => nan) a t = .ok v) :=
  ⟨by rw [Nat.ceil_le]; norm_num,
    two_hill_compute_requires_finalize _ _ 1 100000 (by rw [Nat.ceil_le]; norm_num) _⟩

end TwoHillUsage

/-! ## Two-hill activation: the shifted phase -/

section TwoHillPhase

variable {K : Type} [LinearOrderedField K] [FloorRing K]

/-- The shifted phase of `TwoHillActivation::compute`, for a positive period
and finite time and shift, is `time - t_shift` wrapped into `[0, T)`. -/
theorem t_shifted_eq_wrap (t ts : K) {T : K} (hT : 0 < T) :
    TwoHillActivation.t_shifted (fin T) (fin ts) (fin t) = fin (wrap (t - ts) T) := by
  unfold TwoHillActivation.t_shifted
  obtain ⟨r1, hr1, -, -, ⟨n1, hn1⟩, -⟩ := fmod_pos t hT
  obtain ⟨r2, hr2, hlo, hhi, ⟨n2, hn2⟩, -⟩ := fmod_pos (r1 - ts) hT
  simp only [hr1, fin_sub_fin, hr2, lit_zero, ge_fin_fin]
  by_cases h0 : 0 ≤ r2
  · rw [if_pos (by simpa using h0)]
    have h : r2 = (t - ts) - ((n1 + n2 : ℤ) : K) * T := by
      rw [hn2, hn1]
      push_cast
      ring
    rw [h] at h0 hhi
    rw [wrap_eq_of hT (n1 + n2) h0 hhi, h]
  · rw [if_neg (by simpa using h0), fin_add_fin]
    have h : r2 + T = (t - ts) - ((n1 + n2 - 1 : ℤ) : K) * T := by
      rw [hn2, hn1]
      push_cast
      ring
    have h0' : 0 ≤ r2 + T := by linarith
    have hhi' : r2 + T < T := by linarith [not_le.mp h0]
    rw [h] at h0' hhi'
    rw [wrap_eq_of hT (n1 + n2 - 1) h0' hhi', h]

end TwoHillPhase

/-! ## Two-hill activation: the normalized maximum -/

section TwoHillMax

variable {K : Type} [LinearOrderedField K] [FloorRing K]

/-- When a positive finite `m` is the maximum of the raw value over the scan
points, `finalize` succeeds and stores `1 / m`. -/
theorem finalize_of_scan_max (pow : Dbl K → Dbl K → Dbl K)
    (to_string : Dbl K → String) (a : TwoHillActivation K) (T : K) (tau_1 tau_2 m1 m2 : Dbl K)
    (hT : a.cardiac_period_ = fin T) (hTpos : 0 < T)
    (h1 : a.params_ "tau_1" = some tau_1) (h2 : a.params_ "tau_2" = some tau_2)
    (h3 : a.params_ "m1" = some m1) (h4 : a.params_ "m2" = some m2)
    (fuel : ℕ) (hfuel : ⌈T / 1e-5⌉₊ ≤ fuel) (m : K) (hm : 0 < m)
    (hmax : TwoHillActivation.spec_scan_max pow T tau_1 tau_2 m1 m2 (fin m)) :
    TwoHillActivation.finalize pow to_string fuel a =
      some (.ok { a with
        normalization_factor_ := fin (1 / m)
        normalization_initialized_ := true }) := by
  obtain ⟨R, -, hRnan, hatt, hR0, hall, hres⟩ :=
    calculate_normalization_factor_eq pow to_string a T tau_1 tau_2 m1 m2 hT hTpos h1 h2 h3 h4
      fuel hfuel
  obtain ⟨⟨k, hk, hkv⟩, hno⟩ := hmax
  have hRk := hall k hk
  rw [hkv] at hRk
  have hR : R = fin m := by
    rcases hatt with h | ⟨j, hj, hjv⟩
    · rw [h] at hRk
      simp only [lt_fin_fin, decide_eq_false_iff_not, not_lt] at hRk
      exact absurd hm (not_lt.mpr hRk)
    · have hmj := hno j hj
      rw [hjv] at hmj
      cases R with
      | nan => exact absurd rfl hRnan
      | pinf => simp [lt] at hmj
      | ninf => simp [lt] at hRk
      | fin r =>
        simp only [lt_fin_fin, decide_eq_false_iff_not, not_lt] at hRk hmj
        rw [le_antisymm hmj hRk]
  unfold TwoHillActivation.finalize
  rw [hres, hR]
  simp [hm, isfinite, hm.ne']

/-- The raw two-hill value for `tau_1 = tau_2 = 0.2` and `m1 = m2 = 2`, given
that `pow` squares at the exponent 2. -/
theorem two_hill_val_square (pow : Dbl K → Dbl K → Dbl K)
    (hpow : ∀ x : K, pow (fin x) (fin 2) = fin (x ^ 2)) (t : K) :
    TwoHillActivation.two_hill_val pow (fin 0.2) (fin 0.2) (fin 2) (fin 2) (fin t) =
      fin (((t / 0.2) ^ 2 / (1 + (t / 0.2) ^ 2)) * (1 / (1 + (t / 0.2) ^ 2))) := by
  have h02 : (0.2 : K) ≠ 0 := by norm_num
  have hpos : (1 : K) + (t / 0.2) ^ 2 ≠ 0 := by positivity
  simp only [TwoHillActivation.two_hill_val, fin_div_fin_of_ne _ h02, hpow, lit_one,
    fin_add_fin, fin_div_fin_of_ne _ hpos, fin_mul_fin]

/-- The raw value `g / (1 + g) * (1 / (1 + g))` is at most `1 / 4`. -/
theorem raw_le_quarter (g : K) (hg : 0 ≤ g) : (g / (1 + g)) * (1 / (1 + g)) ≤ 1 / 4 := by
  have hpos : 0 < 1 + g := by linarith
  rw [div_mul_div_comm, div_le_iff₀ (by positivity)]
  nlinarith [sq_nonneg (1 - g)]

/-- The value of `compute` for period 1, `tau_1 = tau_2 = 0.2`, `m1 = m2 = 2`
and a finite normalization factor `c`, given that `pow` squares at the
exponent 2. -/
theorem two_hill_compute_square (pow : Dbl K → Dbl K → Dbl K)
    (hpow : ∀ x : K, pow (fin x) (fin 2) = fin (x ^ 2))
    (a : TwoHillActivation K) (ts c t : K)
    (hb : a.normalization_initialized_ = true) (hc : a.normalization_factor_ = fin c)
    (hT : a.cardiac_period_ = fin 1) (hs : a.params_ "t_shift" = some (fin ts))
    (h1 : a.params_ "tau_1" = some (fin 0.2)) (h2 : a.params_ "tau_2" = some (fin 0.2))
    (h3 : a.params_ "m1" = some (fin 2)) (h4 : a.params_ "m2" = some (fin 2)) :
    TwoHillActivation.compute pow a (fin t) =
      .ok (fin (c * ((wrap (t - ts) 1 / 0.2) ^ 2 / (1 + (wrap (t - ts) 1 / 0.2) ^ 2)) *
        (1 / (1 + (wrap (t - ts) 1 / 0.2) ^ 2)))) := by
  have h02 : (0.2 : K) ≠ 0 := by norm_num
  have hpos : (1 : K) + (wrap (t - ts) 1 / 0.2) ^ 2 ≠ 0 := by positivity
  rw [two_hill_compute_eq pow _ (fin t) (fin ts) (fin 0.2) (fin 0.2) (fin 2) (fin 2) hb
    hs h1 h2 h3 h4]
  simp only [hT, hc, t_shifted_eq_wrap t ts one_pos, fin_div_fin_of_ne _ h02, hpow,
    fin_add_fin, fin_div_fin_of_ne _ hpos, fin_mul_fin]

/-- Claim C9: for a `TwoHillActivation` with cardiac period 1,
`tau_1 = tau_2 = 0.2`, `m1 = m2 = 2` and any finite `t_shift`, `finalize`
succeeds (given fuel for the 100000 scan points), and afterwards `compute`
returns a value at most 1.001 at every time and a value at least 0.999 at some
time in `[0, 1)`. -/
theorem two_hill_normalized_max (pow : Dbl K → Dbl K → Dbl K) (to_string : Dbl K → String)
    (hpow : ∀ x : K, pow (fin x) (fin 2) = fin (x ^ 2))
    (a : TwoHillActivation K) (ts : K)
    (hT : a.cardiac_period_ = fin 1) (hs : a.params_ "t_shift" = some (fin ts))
    (h1 : a.params_ "tau_1" = some (fin 0.2)) (h2 : a.params_ "tau_2" = some (fin 0.2))
    (h3 : a.params_ "m1" = some (fin 2)) (h4 : a.params_ "m2" = some (fin 2))
    (fuel : ℕ) (hfuel : 100000 ≤ fuel) :
    ∃ a', TwoHillActivation.finalize pow to_string fuel a = some (.ok a') ∧
      (∀ t : K, ∃ v : K, TwoHillActivation.compute pow a' (fin t) = .ok (fin v) ∧ v ≤ 1.001) ∧
      (∃ t : K, 0 ≤ t ∧ t < 1 ∧
        ∃ v : K, TwoHillActivation.compute pow a' (fin t) = .ok (fin v) ∧ 0.999 ≤ v) := by
  have hceil : ⌈(1 : K) / 1e-5⌉₊ ≤ fuel := by
    refine le_trans ?_ hfuel
    rw [Nat.ceil_le]
    norm_num
  have hmax : TwoHillActivation.spec_scan_max pow 1 (fin 0.2) (fin 0.2) (fin 2) (fin 2)
      (fin (1 / 4)) := by
    refine ⟨⟨20000, by norm_num, ?_⟩, ?_⟩
    · rw [two_hill_val_square pow hpow]
      norm_num
    · intro k _
      rw [two_hill_val_square pow hpow, lt_fin_fin, decide_eq_false_iff_not, not_lt]
      exact raw_le_quarter _ (by positivity)
  have hfin := finalize_of_scan_max pow to_string a 1 _ _ _ _ hT one_pos h1 h2 h3 h4 fuel hceil
    (1 / 4) (by norm_num) hmax
  refine ⟨_, hfin, ?_, ?_⟩
  · intro t
    refine ⟨_, two_hill_compute_square pow hpow _ ts (1 / (1 / 4)) t rfl rfl hT hs h1 h2 h3 h4, ?_⟩
    have := raw_le_quarter ((wrap (t - ts) 1 / 0.2) ^ 2) (by positivity)
    norm_num at this ⊢
    nlinarith
  · have hw : wrap (wrap (0.2 + ts) 1 - ts) 1 = 0.2 := by
      have h : wrap (0.2 + ts) 1 - ts - ((-⌊(0.2 + ts) / 1⌋ : ℤ) : K) * 1 = 0.2 := by
        unfold wrap
        push_cast
        ring
      rw [wrap_eq_of one_pos (-⌊(0.2 + ts) / 1⌋) (by rw [h]; norm_num) (by rw [h]; norm_num), h]
    refine ⟨wrap (0.2 + ts) 1, (wrap_range one_pos).1, (wrap_range one_pos).2, _,
      two_hill_compute_square pow hpow _ ts (1 / (1 / 4)) _ rfl rfl hT hs h1 h2 h3 h4, ?_⟩
    rw [hw]
    norm_num

/-- Witness for `two_hill_normalized_max`: period 1, `t_shift = 0.1`,
`tau_1 = tau_2 = 0.2`, `m1 = m2 = 2`, fuel 100000; `pow` is the real power on
finite arguments. -/
theorem two_hill_normalized_max_witness :
    (∀ x : ℝ, (fun (x y : Dbl ℝ) => match x, y with
          | fin u, fin v => fin (u ^ v)
          | _, _ => nan) (fin x) (fin 2) = fin (x ^ 2)) ∧
    ∃ a', TwoHillActivation.finalize
        (fun (x y : Dbl ℝ) => match x, y with
          | fin u, fin v => fin (u ^ v)
          | _, _ => nan)
        (fun (_ : Dbl ℝ) => "") 100000
        ((((((TwoHillActivation.new (fin (1 : ℝ))).set_param "t_shift" (fin 0.1)).set_param
          "tau_1" (fin 0.2)).set_param "tau_2" (fin 0.2)).set_param "m1" (fin 2)).set_param "m2"
          (fin 2)) = some (.ok a') ∧
      (∀ t : ℝ, ∃ v : ℝ, TwoHillActivation.compute
        (fun (x y : Dbl ℝ) => match x, y with
          | fin u, fin v => fin (u ^ v)
          | _, _ => nan) a' (fin t) = .ok (fin v) ∧ v ≤ 1.001) ∧
      (∃ t : ℝ, 0 ≤ t ∧ t < 1 ∧
        ∃ v : ℝ, TwoHillActivation.compute
          (fun (x y : Dbl ℝ) => match x, y with
            | fin u, fin v => fin (u ^ v)
            | _, _ => nan) a' (fin t) = .ok (fin v) ∧ 0.999 ≤ v) :=
  ⟨fun x => by simp [Real.rpow_two],
    two_hill_normalized_max _ _ (fun x => by simp [Real.rpow_two]) _ 0.1
      rfl rfl rfl rfl rfl rfl 100000 (le_refl _)⟩

end TwoHillMax

/-! ## The sparse system: reading back what was written -/

section SparseLemmas

variable {K : Type} [LinearOrderedField K] [FloorRing K]

@[simp] theorem coeffRef_assign_val (m : SparseMatrix K) (i j : ℕ) (v : Dbl K) (a b : ℕ) :
    (m.coeffRef_assign i j v).val a b = if a = i ∧ b = j then v else m.val a b := rfl

@[simp] theorem coeffRef_assign_stored (m : SparseMatrix K) (i j : ℕ) (v : Dbl K) :
    (m.coeffRef_assign i j v).stored = insert (i, j) m.stored := rfl

@[simp] theorem vec_assign_apply (v : ℕ → Dbl K) (i : ℕ) (x : Dbl K) (a : ℕ) :
    vec_assign v i x a = if a = i then x else v a := rfl

@[simp] theorem neg_fin (x : K) : (-(fin x) : Dbl K) = fin (-x) := rfl

@[simp] theorem fabs_fin (x : K) : fabs (fin x) = fin |x| := rfl

@[simp] theorem lit_neg_one : (-1.0 : K) = -1 := by norm_num

/-- The sign the vessel computes is the sign of the specification. -/
theorem vessel_sgn_fin (q : K) : BloodVessel.sgn (fin q) = fin (sgn_spec q) := by
  unfold BloodVessel.sgn sgn_spec
  simp only [lit_zero, lt_fin_fin, decide_eq_true_eq]
  rcases lt_trichotomy 0 q with h | h | h
  · simp [h, not_lt.mpr h.le]
  · subst h
    simp
  · simp [h, not_lt.mpr h.le]

/-- Claim C11: for all finite states and parameters, `update_solution` leaves
`D[eqn 1, Q_in] = 2 * capacitance * stenosis_coefficient * sgn(Q_in) * dQ_in/dt`
with `sgn` equal to `+1`, `-1` or `0`; at exactly zero inlet flow the entry is
0 whatever the derivative and the parameters; and with stenosis coefficient 0.5
and `Q_in = -3` the sign factor is `-1`. -/
theorem vessel_D_sign_entry (self : Block) (system : SparseSystem K)
    (parameters y dy : ℕ → K) :
    (BloodVessel.update_solution self system (fun k => fin (parameters k))
        (fun k => fin (y k)) (fun k => fin (dy k))).D.val
        (Block.at self.global_eqn_ids 1) (Block.at self.global_var_ids 1) =
      fin (2 * parameters (Block.at self.global_param_ids BloodVessel.CAPACITANCE) *
        parameters (Block.at self.global_param_ids BloodVessel.STENOSIS_COEFFICIENT) *
        sgn_spec (y (Block.at self.global_var_ids 1)) * dy (Block.at self.global_var_ids 1)) ∧
    (y (Block.at self.global_var_ids 1) = 0 →
      (BloodVessel.update_solution self system (fun k => fin (parameters k))
        (fun k => fin (y k)) (fun k => fin (dy k))).D.val
        (Block.at self.global_eqn_ids 1) (Block.at self.global_var_ids 1) = fin 0) ∧
    (parameters (Block.at self.global_param_ids BloodVessel.STENOSIS_COEFFICIENT) = 0.5 →
      y (Block.at self.global_var_ids 1) = -3 →
      BloodVessel.sgn (fin (y (Block.at self.global_var_ids 1)) : Dbl K) = fin (-1) ∧
      (BloodVessel.update_solution self system (fun k => fin (parameters k))
        (fun k => fin (y k)) (fun k => fin (dy k))).D.val
        (Block.at self.global_eqn_ids 1) (Block.at self.global_var_ids 1) =
        fin (2 * parameters (Block.at self.global_param_ids BloodVessel.CAPACITANCE) * 0.5 *
          (-1) * dy (Block.at self.global_var_ids 1))) ∧
    (∀ q : K, sgn_spec q = 1 ∧ 0 < q ∨ sgn_spec q = -1 ∧ q < 0 ∨ sgn_spec q = 0 ∧ q = 0) := by
  have hmain : (BloodVessel.update_solution self system (fun k => fin (parameters k))
        (fun k => fin (y k)) (fun k => fin (dy k))).D.val
        (Block.at self.global_eqn_ids 1) (Block.at self.global_var_ids 1) =
      fin (2 * parameters (Block.at self.global_param_ids BloodVessel.CAPACITANCE) *
        parameters (Block.at self.global_param_ids BloodVessel.STENOSIS_COEFFICIENT) *
        sgn_spec (y (Block.at self.global_var_ids 1)) * dy (Block.at self.global_var_ids 1)) := by
    simp [BloodVessel.update_solution, vessel_sgn_fin]
  refine ⟨hmain, ?_, ?_, ?_⟩
  · intro h0
    rw [hmain, h0]
    simp [sgn_spec]
  · intro hs hq
    have hsgn : sgn_spec (-3 : K) = -1 := by
      unfold sgn_spec
      norm_num
    refine ⟨?_, ?_⟩
    · rw [vessel_sgn_fin, hq, hsgn]
    · rw [hmain, hs, hq, hsgn]
  · intro q
    unfold sgn_spec
    rcases lt_trichotomy 0 q with h | h | h
    · left
      simp [h]
    · right; right
      subst h
      simp
    · right; left
      simp [h, not_lt.mpr h.le]

end SparseLemmas

/-! ## The vessel: stenosis resistance -/

section VesselStenosis

variable {K : Type} [LinearOrderedField K] [FloorRing K]

/-- Claim C12: for all finite states and parameters, `update_solution` forms
the stenosis resistance `stenosis_coefficient * |Q_in|`, leaves
`F[eqn 0, Q_in] = -(R + stenosis_coefficient * |Q_in|)` and (the two equation
indices being distinct) `D[eqn 0, Q_in] = -stenosis_coefficient * |Q_in|`; when
the stenosis coefficient is 0 the stenosis resistance is 0, the `D` entry is 0
and the `F` entry is exactly `-R`. -/
theorem vessel_stenosis_entries (self : Block) (system : SparseSystem K)
    (parameters y dy : ℕ → K)
    (hne : Block.at self.global_eqn_ids 0 ≠ Block.at self.global_eqn_ids 1) :
    (fin (parameters (Block.at self.global_param_ids BloodVessel.STENOSIS_COEFFICIENT)) *
        fabs (fin (y (Block.at self.global_var_ids 1))) : Dbl K) =
      fin (parameters (Block.at self.global_param_ids BloodVessel.STENOSIS_COEFFICIENT) *
        |y (Block.at self.global_var_ids 1)|) ∧
    (BloodVessel.update_solution self system (fun k => fin (parameters k))
        (fun k => fin (y k)) (fun k => fin (dy k))).F.val
        (Block.at self.global_eqn_ids 0) (Block.at self.global_var_ids 1) =
      fin (-(parameters (Block.at self.global_param_ids BloodVessel.RESISTANCE) +
        parameters (Block.at self.global_param_ids BloodVessel.STENOSIS_COEFFICIENT) *
          |y (Block.at self.global_var_ids 1)|)) ∧
    (BloodVessel.update_solution self system (fun k => fin (parameters k))
        (fun k => fin (y k)) (fun k => fin (dy k))).D.val
        (Block.at self.global_eqn_ids 0) (Block.at self.global_var_ids 1) =
      fin (-(parameters (Block.at self.global_param_ids BloodVessel.STENOSIS_COEFFICIENT) *
          |y (Block.at self.global_var_ids 1)|)) ∧
    (parameters (Block.at self.global_param_ids BloodVessel.STENOSIS_COEFFICIENT) = 0 →
      (fin (parameters (Block.at self.global_param_ids BloodVessel.STENOSIS_COEFFICIENT)) *
        fabs (fin (y (Block.at self.global_var_ids 1))) : Dbl K) = fin 0 ∧
      (BloodVessel.update_solution self system (fun k => fin (parameters k))
        (fun k => fin (y k)) (fun k => fin (dy k))).D.val
        (Block.at self.global_eqn_ids 0) (Block.at self.global_var_ids 1) = fin 0 ∧
      (BloodVessel.update_solution self system (fun k => fin (parameters k))
        (fun k => fin (y k)) (fun k => fin (dy k))).F.val
        (Block.at self.global_eqn_ids 0) (Block.at self.global_var_ids 1) =
        fin (-parameters (Block.at self.global_param_ids BloodVessel.RESISTANCE))) := by
  have hF : (BloodVessel.update_solution self system (fun k => fin (parameters k))
        (fun k => fin (y k)) (fun k => fin (dy k))).F.val
        (Block.at self.global_eqn_ids 0) (Block.at self.global_var_ids 1) =
      fin (-(parameters (Block.at self.global_param_ids BloodVessel.RESISTANCE) +
        parameters (Block.at self.global_param_ids BloodVessel.STENOSIS_COEFFICIENT) *
          |y (Block.at self.global_var_ids 1)|)) := by
    simp [BloodVessel.update_solution]
    ring
  have hD : (BloodVessel.update_solution self system (fun k => fin (parameters k))
        (fun k => fin (y k)) (fun k => fin (dy k))).D.val
        (Block.at self.global_eqn_ids 0) (Block.at self.global_var_ids 1) =
      fin (-(parameters (Block.at self.global_param_ids BloodVessel.STENOSIS_COEFFICIENT) *
          |y (Block.at self.global_var_ids 1)|)) := by
    simp [BloodVessel.update_solution, hne]
  refine ⟨by simp, hF, hD, ?_⟩
  intro hs
  rw [hF, hD, hs]
  simp

/-- Witness for `vessel_stenosis_entries`: variable indices 0..3, equation
indices 0 and 1, parameter indices 0..3 holding `R = 1`, `C = 1`, `L = 0` and
stenosis coefficient 0, and `Q_in = 2`: the stenosis resistance is 0, the `D`
entry is 0 and the `F` entry is `-1`. -/
theorem vessel_stenosis_entries_witness :
    (0 : ℕ) ≠ 1 ∧
    (fin (0 : ℝ) * fabs (fin 2) : Dbl ℝ) = fin 0 ∧
    (BloodVessel.update_solution ⟨[0, 1, 2, 3], [0, 1], [0, 1, 2, 3]⟩ SparseSystem.zero
        (fun k => fin ((fun k => if k = 0 then 1 else if k = 1 then 1 else 0 : ℕ → ℝ) k))
        (fun k => fin ((fun k => if k = 1 then 2 else 0 : ℕ → ℝ) k))
        (fun k => fin ((fun _ => 0 : ℕ → ℝ) k))).D.val 0 1 = fin 0 ∧
    (BloodVessel.update_solution ⟨[0, 1, 2, 3], [0, 1], [0, 1, 2, 3]⟩ SparseSystem.zero
        (fun k => fin ((fun k => if k = 0 then 1 else if k = 1 then 1 else 0 : ℕ → ℝ) k))
        (fun k => fin ((fun k => if k = 1 then 2 else 0 : ℕ → ℝ) k))
        (fun k => fin ((fun _ => 0 : ℕ → ℝ) k))).F.val 0 1 = fin (-1) :=
  ⟨by decide,
    (vessel_stenosis_entries ⟨[0, 1, 2, 3], [0, 1], [0, 1, 2, 3]⟩ SparseSystem.zero
      (fun k => if k = 0 then 1 else if k = 1 then 1 else 0)
      (fun k => if k = 1 then 2 else 0) (fun _ => 0) (by decide)).2.2.2 rfl⟩

end VesselStenosis

/-! ## The vessel: the parameter gradient -/

section VesselGradient

/-- A function that is affine around `x0` with slope `a` has derivative `a` at `x0`. -/
theorem hasDerivAt_of_affine (f : ℝ → ℝ) (a x0 : ℝ) (h : ∀ x, f x = a * (x - x0) + f x0) :
    HasDerivAt f a x0 := by
  have h1 := (((hasDerivAt_id x0).sub_const x0).const_mul a).add_const (f x0)
  have h2 : f = fun x => a * (id x - x0) + f x0 := by
    funext x
    rw [h x]
    rfl
  rw [h2]
  simpa using h1

/-- Claim C13: for the vessel with four global parameters (pairwise distinct
indices, distinct equation indices) and all finite `y`, `dy` and `alpha`, each
of the six jacobian entries that `update_gradient` writes at (equation `i`,
parameter `p`) is the derivative with respect to `p` of the residual the same
call writes for equation `i`, as a function of `alpha` at fixed `y` and `dy`;
the two pairs it does not write (equation 0 with the capacitance, equation 1
with the inductance) are left as they were and have derivative 0; and all the
written values are finite. -/
theorem vessel_gradient_is_derivative (self : Block) (e0 e1 pR pC pL pS : ℕ)
    (he : self.global_eqn_ids = [e0, e1]) (hp : self.global_param_ids = [pR, pC, pL, pS])
    (hpn : [pR, pC, pL, pS].Nodup) (hen : e0 ≠ e1)
    (jacobian : SparseMatrix ℝ) (residual : ℕ → Dbl ℝ) (alpha y dy : ℕ → ℝ) :
    HasDerivAt (fun x => BloodVessel.residual_at self jacobian residual alpha y dy pR x e0)
      (BloodVessel.jacobian_at self jacobian residual alpha y dy e0 pR) (alpha pR) ∧
    HasDerivAt (fun x => BloodVessel.residual_at self jacobian residual alpha y dy pL x e0)
      (BloodVessel.jacobian_at self jacobian residual alpha y dy e0 pL) (alpha pL) ∧
    HasDerivAt (fun x => BloodVessel.residual_at self jacobian residual alpha y dy pS x e0)
      (BloodVessel.jacobian_at self jacobian residual alpha y dy e0 pS) (alpha pS) ∧
    HasDerivAt (fun x => BloodVessel.residual_at self jacobian residual alpha y dy pR x e1)
      (BloodVessel.jacobian_at self jacobian residual alpha y dy e1 pR) (alpha pR) ∧
    HasDerivAt (fun x => BloodVessel.residual_at self jacobian residual alpha y dy pC x e1)
      (BloodVessel.jacobian_at self jacobian residual alpha y dy e1 pC) (alpha pC) ∧
    HasDerivAt (fun x => BloodVessel.residual_at self jacobian residual alpha y dy pS x e1)
      (BloodVessel.jacobian_at self jacobian residual alpha y dy e1 pS) (alpha pS) ∧
    (HasDerivAt (fun x => BloodVessel.residual_at self jacobian residual alpha y dy pC x e0)
        0 (alpha pC) ∧
      ((e0, pC) ∈ (BloodVessel.update_gradient self jacobian residual (fun k => fin (alpha k))
        (fun k => fin (y k)) (fun k => fin (dy k))).1.stored ↔ (e0, pC) ∈ jacobian.stored) ∧
      (BloodVessel.update_gradient self jacobian residual (fun k => fin (alpha k))
        (fun k => fin (y k)) (fun k => fin (dy k))).1.val e0 pC = jacobian.val e0 pC) ∧
    (HasDerivAt (fun x => BloodVessel.residual_at self jacobian residual alpha y dy pL x e1)
        0 (alpha pL) ∧
      ((e1, pL) ∈ (BloodVessel.update_gradient self jacobian residual (fun k => fin (alpha k))
        (fun k => fin (y k)) (fun k => fin (dy k))).1.stored ↔ (e1, pL) ∈ jacobian.stored) ∧
      (BloodVessel.update_gradient self jacobian residual (fun k => fin (alpha k))
        (fun k => fin (y k)) (fun k => fin (dy k))).1.val e1 pL = jacobian.val e1 pL) ∧
    (∀ i p, (i = e0 ∨ i = e1) → (p = pR ∨ p = pC ∨ p = pL ∨ p = pS) →
      ¬ (i = e0 ∧ p = pC) → ¬ (i = e1 ∧ p = pL) →
      (BloodVessel.update_gradient self jacobian residual (fun k => fin (alpha k))
        (fun k => fin (y k)) (fun k => fin (dy k))).1.val i p =
        fin (BloodVessel.jacobian_at self jacobian residual alpha y dy i p)) ∧
    (∀ i, (i = e0 ∨ i = e1) →
      (BloodVessel.update_gradient self jacobian residual (fun k => fin (alpha k))
        (fun k => fin (y k)) (fun k => fin (dy k))).2 i =
        fin (BloodVessel.residual_at self jacobian residual alpha y dy pR (alpha pR) i)) := by
  simp only [List.nodup_cons, List.mem_cons, List.mem_singleton, not_or, List.not_mem_nil,
    not_false_eq_true, List.nodup_nil, and_true] at hpn
  obtain ⟨⟨h12, h13, h14⟩, ⟨h23, h24⟩, h34⟩ := hpn
  have h21 := Ne.symm h12
  have h31 := Ne.symm h13
  have h41 := Ne.symm h14
  have h32 := Ne.symm h23
  have h42 := Ne.symm h24
  have h43 := Ne.symm h34
  have hne := Ne.symm hen
  refine ⟨?_, ?_, ?_, ?_, ?_, ?_, ⟨?_, ?_, ?_⟩, ⟨?_, ?_, ?_⟩, ?_, ?_⟩
  any_goals
    apply hasDerivAt_of_affine
    intro x
    simp [BloodVessel.residual_at, BloodVessel.jacobian_at, BloodVessel.update_gradient, hp, he,
      Block.at, BloodVessel.RESISTANCE, BloodVessel.CAPACITANCE, BloodVessel.INDUCTANCE,
      BloodVessel.STENOSIS_COEFFICIENT, Dbl.value, Function.update, hen, hne, h12, h13, h14,
      h23, h24, h34, h21, h31, h41, h32, h42, h43]
    try ring
  · simp [BloodVessel.update_gradient, hp, he, Block.at, hen, hne, h12, h13, h14,
      h23, h24, h34, h21, h31, h41, h32, h42, h43]
  · simp [BloodVessel.update_gradient, hp, he, Block.at, hen, hne, h12, h13, h14,
      h23, h24, h34, h21, h31, h41, h32, h42, h43]
  · simp [BloodVessel.update_gradient, hp, he, Block.at, hen, hne, h12, h13, h14,
      h23, h24, h34, h21, h31, h41, h32, h42, h43]
  · simp [BloodVessel.update_gradient, hp, he, Block.at, hen, hne, h12, h13, h14,
      h23, h24, h34, h21, h31, h41, h32, h42, h43]
  · rintro i p (rfl | rfl) (rfl | rfl | rfl | rfl) hn1 hn2 <;>
      simp [BloodVessel.jacobian_at, BloodVessel.update_gradient, hp, he,
        Block.at, BloodVessel.RESISTANCE, BloodVessel.CAPACITANCE, BloodVessel.INDUCTANCE,
        BloodVessel.STENOSIS_COEFFICIENT, Dbl.value, hen, hne, h12, h13, h14,
        h23, h24, h34, h21, h31, h41, h32, h42, h43] at hn1 hn2 ⊢
  · rintro i (rfl | rfl) <;>
      simp [BloodVessel.residual_at, BloodVessel.update_gradient, hp, he,
        Block.at, BloodVessel.RESISTANCE, BloodVessel.CAPACITANCE, BloodVessel.INDUCTANCE,
        BloodVessel.STENOSIS_COEFFICIENT, Dbl.value, hen, hne]

/-- Witness for `vessel_gradient_is_derivative`: variable indices 0..3,
equation indices 0 and 1, parameter indices 0..3, `R = 1`, `C = 2`, `L = 3`,
stenosis coefficient 0.5, `y = (5, -3, 4, 1)`, `dy = (1, 2, 0, 7)`: the
derivative of the first residual with respect to `R` is the written entry. -/
theorem vessel_gradient_is_derivative_witness :
    [0, 1, 2, 3].Nodup ∧ (0 : ℕ) ≠ 1 ∧
    HasDerivAt
      (fun x => BloodVessel.residual_at ⟨[0, 1, 2, 3], [0, 1], [0, 1, 2, 3]⟩ SparseMatrix.zero
        (fun _ => fin 0)
        (fun k => if k = 0 then 1 else if k = 1 then 2 else if k = 2 then 3 else 0.5)
        (fun k => if k = 0 then 5 else if k = 1 then -3 else if k = 2 then 4 else 1)
        (fun k => if k = 0 then 1 else if k = 1 then 2 else if k = 2 then 0 else 7) 0 x 0)
      (BloodVessel.jacobian_at ⟨[0, 1, 2, 3], [0, 1], [0, 1, 2, 3]⟩ SparseMatrix.zero
        (fun _ => fin 0)
        (fun k => if k = 0 then 1 else if k = 1 then 2 else if k = 2 then 3 else 0.5)
        (fun k => if k = 0 then 5 else if k = 1 then -3 else if k = 2 then 4 else 1)
        (fun k => if k = 0 then 1 else if k = 1 then 2 else if k = 2 then 0 else 7) 0 0)
      ((fun k => if k = 0 then 1 else if k = 1 then 2 else if k = 2 then 3 else 0.5 : ℕ → ℝ) 0) :=
  ⟨by decide, by decide,
    (vessel_gradient_is_derivative ⟨[0, 1, 2, 3], [0, 1], [0, 1, 2, 3]⟩ 0 1 0 1 2 3 rfl rfl
      (by decide) (by decide) SparseMatrix.zero (fun _ => fin 0)
      (fun k => if k = 0 then 1 else if k = 1 then 2 else if k = 2 then 3 else 0.5)
      (fun k => if k = 0 then 5 else if k = 1 then -3 else if k = 2 then 4 else 1)
      (fun k => if k = 0 then 1 else if k = 1 then 2 else if k = 2 then 0 else 7)).1⟩

end VesselGradient

/-! ## The triplet budgets -/

section Triplets

variable {K : Type} [LinearOrderedField K] [FloorRing K]

/-- Claim C14: with pairwise distinct variable indices and distinct equation
indices, `update_constant` followed by `update_solution` on a system with no
stored entry stores exactly 5 entries of `F`, 3 of `E` and 2 of `D`, the
declared budget `{5, 3, 2}`. -/
theorem vessel_triplets_exact (self : Block) (v0 v1 v2 v3 e0 e1 : ℕ)
    (hv : self.global_var_ids = [v0, v1, v2, v3]) (he : self.global_eqn_ids = [e0, e1])
    (hvn : [v0, v1, v2, v3].Nodup) (hen : e0 ≠ e1) (parameters y dy : ℕ → Dbl K) :
    (BloodVessel.update_solution self
      (BloodVessel.update_constant self SparseSystem.zero parameters) parameters y dy).F.stored
      = {(e0, v0), (e0, v2), (e1, v1), (e1, v3), (e0, v1)} ∧
    (BloodVessel.update_solution self
      (BloodVessel.update_constant self SparseSystem.zero parameters) parameters y dy).E.stored
      = {(e0, v3), (e1, v0), (e1, v1)} ∧
    (BloodVessel.update_solution self
      (BloodVessel.update_constant self SparseSystem.zero parameters) parameters y dy).D.stored
      = {(e0, v1), (e1, v1)} ∧
    (BloodVessel.update_solution self
      (BloodVessel.update_constant self SparseSystem.zero parameters) parameters y dy
        ).F.stored.card = 5 ∧
    (BloodVessel.update_solution self
      (BloodVessel.update_constant self SparseSystem.zero parameters) parameters y dy
        ).E.stored.card = 3 ∧
    (BloodVessel.update_solution self
      (BloodVessel.update_constant self SparseSystem.zero parameters) parameters y dy
        ).D.stored.card = 2 ∧
    TripletsContributions.mk
      (BloodVessel.update_solution self
        (BloodVessel.update_constant self SparseSystem.zero parameters) parameters y dy
          ).F.stored.card
      (BloodVessel.update_solution self
        (BloodVessel.update_constant self SparseSystem.zero parameters) parameters y dy
          ).E.stored.card
      (BloodVessel.update_solution self
        (BloodVessel.update_constant self SparseSystem.zero parameters) parameters y dy
          ).D.stored.card = BloodVessel.num_triplets := by
  simp only [List.nodup_cons, List.mem_cons, List.mem_singleton, not_or, List.not_mem_nil,
    not_false_eq_true, List.nodup_nil, and_true] at hvn
  obtain ⟨⟨h01, h02, h03⟩, ⟨h12, h13⟩, h23⟩ := hvn
  have hF : (BloodVessel.update_solution self
      (BloodVessel.update_constant self SparseSystem.zero parameters) parameters y dy).F.stored
      = {(e0, v0), (e0, v2), (e1, v1), (e1, v3), (e0, v1)} := by
    ext ⟨a, b⟩
    simp [BloodVessel.update_solution, BloodVessel.update_constant, SparseSystem.zero,
      SparseMatrix.zero, hv, he, Block.at]
    tauto
  have hE : (BloodVessel.update_solution self
      (BloodVessel.update_constant self SparseSystem.zero parameters) parameters y dy).E.stored
      = {(e0, v3), (e1, v0), (e1, v1)} := by
    ext ⟨a, b⟩
    simp [BloodVessel.update_solution, BloodVessel.update_constant, SparseSystem.zero,
      SparseMatrix.zero, hv, he, Block.at]
    tauto
  have hD : (BloodVessel.update_solution self
      (BloodVessel.update_constant self SparseSystem.zero parameters) parameters y dy).D.stored
      = {(e0, v1), (e1, v1)} := by
    ext ⟨a, b⟩
    simp [BloodVessel.update_solution, BloodVessel.update_constant, SparseSystem.zero,
      SparseMatrix.zero, hv, he, Block.at]
    tauto
  have hcF : (BloodVessel.update_solution self
      (BloodVessel.update_constant self SparseSystem.zero parameters) parameters y dy
        ).F.stored.card = 5 := by
    rw [hF]
    simp [Finset.card_insert_of_not_mem, hen, hen.symm, h01, h02, h03, h12, h13, h23,
      Ne.symm h01, Ne.symm h02, Ne.symm h03, Ne.symm h12, Ne.symm h13, Ne.symm h23]
  have hcE : (BloodVessel.update_solution self
      (BloodVessel.update_constant self SparseSystem.zero parameters) parameters y dy
        ).E.stored.card = 3 := by
    rw [hE]
    simp [Finset.card_insert_of_not_mem, hen, hen.symm, h01, h02, h03, h12, h13, h23,
      Ne.symm h01, Ne.symm h02, Ne.symm h03, Ne.symm h12, Ne.symm h13, Ne.symm h23]
  have hcD : (BloodVessel.update_solution self
      (BloodVessel.update_constant self SparseSystem.zero parameters) parameters y dy
        ).D.stored.card = 2 := by
    rw [hD]
    simp [Finset.card_insert_of_not_mem, hen, hen.symm, h01, h02, h03, h12, h13, h23,
      Ne.symm h01, Ne.symm h02, Ne.symm h03, Ne.symm h12, Ne.symm h13, Ne.symm h23]
  refine ⟨hF, hE, hD, hcF, hcE, hcD, ?_⟩
  rw [hcF, hcE, hcD]
  rfl

/-- Witness for `vessel_triplets_exact`: variable indices 0..3, equation
indices 0 and 1, all parameters and states 0. -/
theorem vessel_triplets_exact_witness :
    [0, 1, 2, 3].Nodup ∧ (0 : ℕ) ≠ 1 ∧
    TripletsContributions.mk
      (BloodVessel.update_solution ⟨[0, 1, 2, 3], [0, 1], [0, 1, 2, 3]⟩
        (BloodVessel.update_constant ⟨[0, 1, 2, 3], [0, 1], [0, 1, 2, 3]⟩ SparseSystem.zero
          (fun _ => fin (0 : ℝ))) (fun _ => fin 0) (fun _ => fin 0) (fun _ => fin 0)
          ).F.stored.card
      (BloodVessel.update_solution ⟨[0, 1, 2, 3], [0, 1], [0, 1, 2, 3]⟩
        (BloodVessel.update_constant ⟨[0, 1, 2, 3], [0, 1], [0, 1, 2, 3]⟩ SparseSystem.zero
          (fun _ => fin (0 : ℝ))) (fun _ => fin 0) (fun _ => fin 0) (fun _ => fin 0)
          ).E.stored.card
      (BloodVessel.update_solution ⟨[0, 1, 2, 3], [0, 1], [0, 1, 2, 3]⟩
        (BloodVessel.update_constant ⟨[0, 1, 2, 3], [0, 1], [0, 1, 2, 3]⟩ SparseSystem.zero
          (fun _ => fin (0 : ℝ))) (fun _ => fin 0) (fun _ => fin 0) (fun _ => fin 0)
          ).D.stored.card = ⟨5, 3, 2⟩ :=
  ⟨by decide, by decide,
    (vessel_triplets_exact ⟨[0, 1, 2, 3], [0, 1], [0, 1, 2, 3]⟩ 0 1 2 3 0 1 rfl rfl
      (by decide) (by decide) (fun _ => fin (0 : ℝ)) (fun _ => fin 0)
      (fun _ => fin 0)).2.2.2.2.2.2⟩

/-- Storing one more key raises the number of stored keys by at most one. -/
theorem card_insert_le_succ {s : Finset (ℕ × ℕ)} {n : ℕ} (k : ℕ × ℕ) (h : s.card ≤ n) :
    (insert k s).card ≤ n + 1 :=
  le_trans (Finset.card_insert_le k s) (Nat.succ_le_succ h)

/-- Claim C15: whatever the index lists of the block, starting from a system
with no stored entry, the vessel's `update_constant` and `update_solution` store
at most 5 entries of `F`, 3 of `E` and 2 of `D` (its declared budget), and the
chamber's `update_constant` and `update_time` store at most 6 entries of `F`,
2 of `E` and none of `D` (its declared budget), also when `update_time` throws
and writes nothing. -/
theorem triplet_budgets_respected {A : Type} (vessel : Block)
    (chamber : LinearElastanceChamber K A)
    (compute : A → Dbl K → Except Error (Dbl K) × A) (time : Dbl K)
    (parameters y dy : ℕ → Dbl K) :
    ((BloodVessel.update_solution vessel
        (BloodVessel.update_constant vessel SparseSystem.zero parameters) parameters y dy
          ).F.stored.card ≤ BloodVessel.num_triplets.F ∧
      (BloodVessel.update_solution vessel
        (BloodVessel.update_constant vessel SparseSystem.zero parameters) parameters y dy
          ).E.stored.card ≤ BloodVessel.num_triplets.E ∧
      (BloodVessel.update_solution vessel
        (BloodVessel.update_constant vessel SparseSystem.zero parameters) parameters y dy
          ).D.stored.card ≤ BloodVessel.num_triplets.D) ∧
    ((LinearElastanceChamber.update_constant chamber SparseSystem.zero parameters
          ).F.stored.card ≤ LinearElastanceChamber.num_triplets.F ∧
      (LinearElastanceChamber.update_constant chamber SparseSystem.zero parameters
          ).E.stored.card ≤ LinearElastanceChamber.num_triplets.E ∧
      (LinearElastanceChamber.update_constant chamber SparseSystem.zero parameters
          ).D.stored = ∅) ∧
    (∀ chamber' system',
      LinearElastanceChamber.update_time compute time chamber
        (LinearElastanceChamber.update_constant chamber SparseSystem.zero parameters)
        parameters = .ok (chamber', system') →
      system'.F.stored.card ≤ LinearElastanceChamber.num_triplets.F ∧
      system'.E.stored.card ≤ LinearElastanceChamber.num_triplets.E ∧
      system'.D.stored = ∅ ∧ system'.D.stored.card = LinearElastanceChamber.num_triplets.D) := by
  refine ⟨⟨?_, ?_, ?_⟩, ⟨?_, ?_, ?_⟩, ?_⟩
  · simp only [BloodVessel.update_solution, BloodVessel.update_constant, SparseSystem.zero,
      SparseMatrix.zero, coeffRef_assign_stored, BloodVessel.num_triplets]
    exact card_insert_le_succ _ (card_insert_le_succ _ (card_insert_le_succ _
      (card_insert_le_succ _ (card_insert_le_succ _ (le_of_eq Finset.card_empty)))))
  · simp only [BloodVessel.update_solution, BloodVessel.update_constant, SparseSystem.zero,
      SparseMatrix.zero, coeffRef_assign_stored, BloodVessel.num_triplets]
    exact card_insert_le_succ _ (card_insert_le_succ _ (card_insert_le_succ _
      (le_of_eq Finset.card_empty)))
  · simp only [BloodVessel.update_solution, BloodVessel.update_constant, SparseSystem.zero,
      SparseMatrix.zero, coeffRef_assign_stored, BloodVessel.num_triplets]
    exact card_insert_le_succ _ (card_insert_le_succ _ (le_of_eq Finset.card_empty))
  · simp only [LinearElastanceChamber.update_constant, SparseSystem.zero,
      SparseMatrix.zero, coeffRef_assign_stored, LinearElastanceChamber.num_triplets]
    exact le_trans (card_insert_le_succ _ (card_insert_le_succ _ (card_insert_le_succ _
      (card_insert_le_succ _ (card_insert_le_succ _ (le_of_eq Finset.card_empty))))))
      (by norm_num)
  · simp only [LinearElastanceChamber.update_constant, SparseSystem.zero,
      SparseMatrix.zero, coeffRef_assign_stored, LinearElastanceChamber.num_triplets]
    exact le_trans (card_insert_le_succ _ (le_of_eq Finset.card_empty)) (by norm_num)
  · rfl
  · intro chamber' system' h
    unfold LinearElastanceChamber.update_time at h
    cases hg : LinearElastanceChamber.get_elastance_values compute time chamber parameters with
    | error e =>
      rw [hg] at h
      exact Except.noConfusion h
    | ok c =>
      rw [hg] at h
      simp only [Except.ok.injEq, Prod.mk.injEq] at h
      obtain ⟨-, hs⟩ := h
      subst hs
      refine ⟨?_, ?_, rfl, rfl⟩
      · simp only [LinearElastanceChamber.update_constant, SparseSystem.zero,
          SparseMatrix.zero, coeffRef_assign_stored, LinearElastanceChamber.num_triplets]
        exact card_insert_le_succ _ (card_insert_le_succ _ (card_insert_le_succ _
          (card_insert_le_succ _ (card_insert_le_succ _ (card_insert_le_succ _
            (le_of_eq Finset.card_empty))))))
      · simp only [LinearElastanceChamber.update_constant, SparseSystem.zero,
          SparseMatrix.zero, coeffRef_assign_stored, LinearElastanceChamber.num_triplets]
        exact le_trans (card_insert_le_succ _ (le_of_eq Finset.card_empty)) (by norm_num)

end Triplets

/-! ## The chamber: the time-dependent update -/

section ChamberTime

variable {K : Type} [LinearOrderedField K] [FloorRing K]

/-- The result of `update_time` when `compute` returns the value `phi`. -/
theorem chamber_update_time_eq {A : Type} (compute : A → Dbl K → Except Error (Dbl K) × A)
    (time : Dbl K) (self : LinearElastanceChamber K A) (system : SparseSystem K)
    (parameters : ℕ → Dbl K) (phi : Dbl K) (af : A)
    (hphi : compute self.activation_func_ time = (.ok phi, af)) :
    LinearElastanceChamber.update_time compute time self system parameters =
      .ok ({ self with
          activation_func_ := af
          Elas := parameters (Block.at self.global_param_ids LinearElastanceChamber.EPASS) +
            parameters (Block.at self.global_param_ids LinearElastanceChamber.EMAX) * phi },
        { system with
          F := (system.F.coeffRef_assign (Block.at self.global_eqn_ids 0)
            (Block.at self.global_var_ids 4)
            (-(parameters (Block.at self.global_param_ids LinearElastanceChamber.EPASS) +
              parameters (Block.at self.global_param_ids LinearElastanceChamber.EMAX) * phi)))
          C := (vec_assign system.C (Block.at self.global_eqn_ids 0)
            ((parameters (Block.at self.global_param_ids LinearElastanceChamber.EPASS) +
              parameters (Block.at self.global_param_ids LinearElastanceChamber.EMAX) * phi) *
              parameters (Block.at self.global_param_ids LinearElastanceChamber.VREST))) }) := by
  simp only [LinearElastanceChamber.update_time, LinearElastanceChamber.get_elastance_values,
    hphi]

/-- Claim C16: for all finite parameters and every injected activation function
whose `compute` returns the finite value `phi` at the model's time,
`update_time` sets `E(t) = Epass + Emax * phi`, leaves `F[eqn 0, Vc] = -E(t)`
and `C[eqn 0] = E(t) * Vrest`, and calls `compute` exactly once: the activation
function is left in the state one call produces, and a counter of the calls
goes up by one.  For `Emax = 2`, `Epass = 0.5`, `Vrest = 10`, `phi = 0.25` the
elastance is 1 and the constant term is 10. -/
theorem chamber_update_time_spec {A : Type} (compute : A → Dbl K → Except Error (Dbl K) × A)
    (time : Dbl K) (self : LinearElastanceChamber K A) (system : SparseSystem K)
    (parameters : ℕ → K) (phi : K) (af : A)
    (hphi : compute self.activation_func_ time = (.ok (fin phi), af)) :
    (∃ self' system',
      LinearElastanceChamber.update_time compute time self system (fun k => fin (parameters k))
        = .ok (self', system') ∧
      self'.Elas = fin (parameters (Block.at self.global_param_ids LinearElastanceChamber.EPASS) +
        parameters (Block.at self.global_param_ids LinearElastanceChamber.EMAX) * phi) ∧
      self'.activation_func_ = af ∧
      self'.toBlock = self.toBlock ∧
      system'.F.val (Block.at self.global_eqn_ids 0) (Block.at self.global_var_ids 4) =
        fin (-(parameters (Block.at self.global_param_ids LinearElastanceChamber.EPASS) +
          parameters (Block.at self.global_param_ids LinearElastanceChamber.EMAX) * phi)) ∧
      system'.C (Block.at self.global_eqn_ids 0) =
        fin ((parameters (Block.at self.global_param_ids LinearElastanceChamber.EPASS) +
          parameters (Block.at self.global_param_ids LinearElastanceChamber.EMAX) * phi) *
          parameters (Block.at self.global_param_ids LinearElastanceChamber.VREST)) ∧
      (parameters (Block.at self.global_param_ids LinearElastanceChamber.EMAX) = 2 →
        parameters (Block.at self.global_param_ids LinearElastanceChamber.EPASS) = 0.5 →
        parameters (Block.at self.global_param_ids LinearElastanceChamber.VREST) = 10 →
        phi = 0.25 →
        self'.Elas = fin 1 ∧ system'.C (Block.at self.global_eqn_ids 0) = fin 10)) ∧
    (∀ n : ℕ, ∃ counted system',
      LinearElastanceChamber.update_time (counting compute) time
        { self with activation_func_ := (self.activation_func_, n) } system
        (fun k => fin (parameters k)) = .ok (counted, system') ∧
      counted.activation_func_ = (af, n + 1)) := by
  constructor
  · refine ⟨_, _, chamber_update_time_eq compute time self system _ (fin phi) af hphi,
      ?_, rfl, rfl, ?_, ?_, ?_⟩
    · simp
    · simp
    · simp
    · intro h1 h2 h3 h4
      simp only [h1, h2, h3, h4]
      constructor
      · simp
        norm_num
      · simp
        norm_num
  · intro n
    have hc : counting compute (self.activation_func_, n) time = (.ok (fin phi), (af, n + 1)) := by
      simp [counting, hphi]
    exact ⟨_, _, chamber_update_time_eq (counting compute) time
      { self with activation_func_ := (self.activation_func_, n) } system _ (fin phi)
      (af, n + 1) hc, rfl⟩

/-- Witness for `chamber_update_time_spec`: parameter indices 0, 1, 2 holding
`Emax = 2`, `Epass = 0.5`, `Vrest = 10`, and an activation function that
returns 0.25: the elastance is 1 and the constant term written is 10. -/
theorem chamber_update_time_spec_witness :
    ∃ self' system',
      LinearElastanceChamber.update_time
        (fun (_ : Unit) (_ : Dbl ℝ) => (Except.ok (fin 0.25), ())) (fin 0)
        { global_var_ids := [0, 1, 2, 3, 4], global_eqn_ids := [0, 1, 2],
          global_param_ids := [0, 1, 2], Elas := fin 0, activation_func_ := () }
        SparseSystem.zero
        (fun k => fin ((fun k => if k = 0 then 2 else if k = 1 then 0.5 else 10 : ℕ → ℝ) k))
        = .ok (self', system') ∧
      self'.Elas = fin 1 ∧ system'.C 0 = fin 10 := by
  obtain ⟨⟨s, t, h, -, -, -, -, -, hex⟩, -⟩ := chamber_update_time_spec
    (fun (_ : Unit) (_ : Dbl ℝ) => (Except.ok (fin 0.25), ())) (fin 0)
    { global_var_ids := [0, 1, 2, 3, 4], global_eqn_ids := [0, 1, 2],
      global_param_ids := [0, 1, 2], Elas := fin 0, activation_func_ := () }
    SparseSystem.zero (fun k => if k = 0 then 2 else if k = 1 then 0.5 else 10) 0.25 () rfl
  exact ⟨s, t, h, hex rfl rfl rfl rfl⟩

end ChamberTime

/-! ## The assembled residual -/

section Assembled

variable {K : Type} [LinearOrderedField K] [FloorRing K]

/-- The sum of finite doubles is the finite double of the sum. -/
theorem dbl_sum_fin_list (f : ℕ → K) (l : List ℕ) :
    Dbl.sum (l.map fun j => fin (f j)) = fin ((l.map f).sum) := by
  induction l with
  | nil => rfl
  | cons x xs ih =>
    simp only [List.map_cons, Dbl.sum, ih, fin_add_fin, List.sum_cons]

/-- The sum over the variables `0, ..., n - 1` of finite doubles. -/
theorem dbl_sum_fin_range (f : ℕ → K) (n : ℕ) :
    Dbl.sum ((List.range n).map fun j => fin (f j)) = fin (∑ j in Finset.range n, f j) := by
  have h : ((List.range n).map f).sum = ∑ j in Finset.range n, f j := by
    induction n with
    | zero => simp
    | succ n ih =>
      rw [List.range_succ, List.map_append, List.sum_append, ih, Finset.sum_range_succ]
      simp
  rw [dbl_sum_fin_list, h]

/-- A row with the single coefficient `c` at the variable `a`. -/
theorem sum_single (n a : ℕ) (c : K) (ha : a < n) :
    ∑ j in Finset.range n, (if j = a then c else 0) = c := by
  rw [Finset.sum_ite_eq' (Finset.range n) a (fun _ => c)]
  simp [ha]

/-- The product of a row of finite coefficients with a finite vector. -/
theorem dbl_row_sum (r : ℕ → Dbl K) (c x : ℕ → K) (n : ℕ) (hr : ∀ j, r j = fin (c j)) :
    Dbl.sum ((List.range n).map fun j => r j * fin (x j)) =
      fin (∑ j in Finset.range n, c j * x j) := by
  rw [← dbl_sum_fin_range]
  congr 1
  apply List.map_congr_left
  intro j _
  rw [hr j, fin_mul_fin]

/-- Claim C17: starting from the all-zero system, with pairwise distinct
variable indices (all below the number `n` of variables) and pairwise distinct
equation indices, finite parameters and states, and an activation value `phi`,
after `update_constant` and `update_time` the rows of `E * dy + F * y + C` at
the chamber's three equations are `P_in - E(t) * (Vc - Vrest)`, `P_in - P_out`
and `Q_in - Q_out - dVc/dt`, with `E(t) = Epass + Emax * phi`. -/
theorem chamber_assembled_rows {A : Type} (compute : A → Dbl K → Except Error (Dbl K) × A)
    (time : Dbl K) (self : LinearElastanceChamber K A)
    (v0 v1 v2 v3 v4 e0 e1 e2 n : ℕ)
    (hv : self.global_var_ids = [v0, v1, v2, v3, v4])
    (he : self.global_eqn_ids = [e0, e1, e2])
    (hvn : [v0, v1, v2, v3, v4].Nodup) (hen : [e0, e1, e2].Nodup)
    (hn : ∀ v ∈ [v0, v1, v2, v3, v4], v < n)
    (parameters y dy : ℕ → K) (phi : K) (af : A)
    (hphi : compute self.activation_func_ time = (.ok (fin phi), af)) :
    ∃ self' system',
      LinearElastanceChamber.update_time compute time self
        (LinearElastanceChamber.update_constant self SparseSystem.zero
          (fun k => fin (parameters k))) (fun k => fin (parameters k)) = .ok (self', system') ∧
      system'.residual_row n (fun k => fin (y k)) (fun k => fin (dy k)) e0 =
        fin (y v0 -
          (parameters (Block.at self.global_param_ids LinearElastanceChamber.EPASS) +
            parameters (Block.at self.global_param_ids LinearElastanceChamber.EMAX) * phi) *
          (y v4 - parameters (Block.at self.global_param_ids LinearElastanceChamber.VREST))) ∧
      system'.residual_row n (fun k => fin (y k)) (fun k => fin (dy k)) e1 =
        fin (y v0 - y v2) ∧
      system'.residual_row n (fun k => fin (y k)) (fun k => fin (dy k)) e2 =
        fin (y v1 - y v3 - dy v4) := by
  simp only [List.nodup_cons, List.mem_cons, List.mem_singleton, not_or, List.not_mem_nil,
    not_false_eq_true, List.nodup_nil, and_true] at hvn hen
  obtain ⟨⟨h01, h02, h03, h04⟩, ⟨h12, h13, h14⟩, ⟨h23, h24⟩, h34⟩ := hvn
  obtain ⟨⟨g01, g02⟩, g12⟩ := hen
  have hn0 := hn v0 (by simp)
  have hn1 := hn v1 (by simp)
  have hn2 := hn v2 (by simp)
  have hn3 := hn v3 (by simp)
  have hn4 := hn v4 (by simp)
  refine ⟨_, _, chamber_update_time_eq compute time self _ _ (fin phi) af hphi, ?_, ?_, ?_⟩
  · unfold SparseSystem.residual_row
    rw [dbl_row_sum _ (fun _ => 0) dy n, dbl_row_sum _
      (fun j => (if j = v0 then 1 else 0) + (if j = v4 then
        -(parameters (Block.at self.global_param_ids LinearElastanceChamber.EPASS) +
          parameters (Block.at self.global_param_ids LinearElastanceChamber.EMAX) * phi)
        else 0)) y n]
    · simp [LinearElastanceChamber.update_constant, SparseSystem.zero, SparseMatrix.zero,
        hv, he, Block.at, add_mul, Finset.sum_add_distrib, Finset.sum_ite_eq', hn0, hn4]
      ring
    · intro j
      simp [LinearElastanceChamber.update_constant, SparseSystem.zero, SparseMatrix.zero,
        hv, he, Block.at, g01, g02, g12, Ne.symm g01, Ne.symm g02, Ne.symm g12]
      split_ifs <;> simp_all
    · intro j
      simp [LinearElastanceChamber.update_constant, SparseSystem.zero, SparseMatrix.zero,
        hv, he, Block.at, g01, g02, g12, Ne.symm g01, Ne.symm g02, Ne.symm g12]
  · unfold SparseSystem.residual_row
    rw [dbl_row_sum _ (fun _ => 0) dy n, dbl_row_sum _
      (fun j => (if j = v0 then 1 else 0) + (if j = v2 then -1 else 0)) y n]
    · simp [LinearElastanceChamber.update_constant, SparseSystem.zero, SparseMatrix.zero,
        hv, he, Block.at, add_mul, Finset.sum_add_distrib, Finset.sum_ite_eq', hn0, hn2,
        g01, g02, g12, Ne.symm g01, Ne.symm g02, Ne.symm g12]
      ring
    · intro j
      simp [LinearElastanceChamber.update_constant, SparseSystem.zero, SparseMatrix.zero,
        hv, he, Block.at, g01, g02, g12, Ne.symm g01, Ne.symm g02, Ne.symm g12]
      split_ifs <;> simp_all
    · intro j
      simp [LinearElastanceChamber.update_constant, SparseSystem.zero, SparseMatrix.zero,
        hv, he, Block.at, g01, g02, g12, Ne.symm g01, Ne.symm g02, Ne.symm g12]
  · unfold SparseSystem.residual_row
    rw [dbl_row_sum _ (fun j => if j = v4 then -1 else 0) dy n, dbl_row_sum _
      (fun j => (if j = v1 then 1 else 0) + (if j = v3 then -1 else 0)) y n]
    · simp [LinearElastanceChamber.update_constant, SparseSystem.zero, SparseMatrix.zero,
        hv, he, Block.at, add_mul, Finset.sum_add_distrib, Finset.sum_ite_eq', hn1, hn3, hn4,
        g01, g02, g12, Ne.symm g01, Ne.symm g02, Ne.symm g12]
      ring
    · intro j
      simp [LinearElastanceChamber.update_constant, SparseSystem.zero, SparseMatrix.zero,
        hv, he, Block.at, g01, g02, g12, Ne.symm g01, Ne.symm g02, Ne.symm g12]
      split_ifs <;> simp_all
    · intro j
      simp [LinearElastanceChamber.update_constant, SparseSystem.zero, SparseMatrix.zero,
        hv, he, Block.at, g01, g02, g12, Ne.symm g01, Ne.symm g02, Ne.symm g12]
      split_ifs <;> rfl

/-- Witness for `chamber_assembled_rows`: variable indices 0..4, equation
indices 0, 1, 2, five variables, `Emax = 2`, `Epass = 0.5`, `Vrest = 10`,
activation value 0.25, `y = (3, 4, 5, 6, 12)`, `dy = (0, 0, 0, 0, 7)`. -/
theorem chamber_assembled_rows_witness :
    [0, 1, 2, 3, 4].Nodup ∧ [0, 1, 2].Nodup ∧ (∀ v ∈ [0, 1, 2, 3, 4], v < 5) ∧
    ∃ self' system',
      LinearElastanceChamber.update_time
        (fun (_ : Unit) (_ : Dbl ℝ) => (Except.ok (fin 0.25), ())) (fin 0)
        { global_var_ids := [0, 1, 2, 3, 4], global_eqn_ids := [0, 1, 2],
          global_param_ids := [0, 1, 2], Elas := fin 0, activation_func_ := () }
        (LinearElastanceChamber.update_constant
          { global_var_ids := [0, 1, 2, 3, 4], global_eqn_ids := [0, 1, 2],
            global_param_ids := [0, 1, 2], Elas := fin (0 : ℝ), activation_func_ := () }
          SparseSystem.zero
          (fun k => fin ((fun k => if k = 0 then 2 else if k = 1 then 0.5 else 10 : ℕ → ℝ) k)))
        (fun k => fin ((fun k => if k = 0 then 2 else if k = 1 then 0.5 else 10 : ℕ → ℝ) k))
        = .ok (self', system') ∧
      system'.residual_row 5
        (fun k => fin ((fun k => if k = 0 then 3 else if k = 1 then 4 else if k = 2 then 5
          else if k = 3 then 6 else 12 : ℕ → ℝ) k))
        (fun k => fin ((fun k => if k = 4 then 7 else 0 : ℕ → ℝ) k)) 2 = fin (4 - 6 - 7) := by
  refine ⟨by decide, by decide, by decide, ?_⟩
  obtain ⟨s, t, h, -, -, h2⟩ := chamber_assembled_rows
    (fun (_ : Unit) (_ : Dbl ℝ) => (Except.ok (fin 0.25), ())) (fin 0)
    { global_var_ids := [0, 1, 2, 3, 4], global_eqn_ids := [0, 1, 2],
      global_param_ids := [0, 1, 2], Elas := fin 0, activation_func_ := () }
    0 1 2 3 4 0 1 2 5 rfl rfl (by decide) (by decide) (by decide)
    (fun k => if k = 0 then 2 else if k = 1 then 0.5 else 10)
    (fun k => if k = 0 then 3 else if k = 1 then 4 else if k = 2 then 5
      else if k = 3 then 6 else 12)
    (fun k => if k = 4 then 7 else 0) 0.25 () rfl
  exact ⟨s, t, h, h2⟩

end Assembled

/-! ## The vessel: the second governing equation -/

section VesselSecondEquation

variable {K : Type} [LinearOrderedField K] [FloorRing K]

/-- Claim C18 (amended): for all finite states, derivatives and parameters
(four parameter indices, pairwise distinct variable indices below the number
`n` of variables, distinct equation indices), the vessel's second equation is
`Q_in - Q_out - C * dP_in/dt + C * (R + 2 * stenosis_coefficient * |Q_in|) *
dQ_in/dt`: the residual `update_gradient` writes for equation 1 and row 1 of
`E * dy + F * y` assembled by `update_constant` and `update_solution` both
equal it, and in that row `E` has the entry `-C` on `P_in`, the entry
`C * (R + 2 * stenosis_coefficient * |Q_in|)` on `Q_in`, and 0 elsewhere. -/
theorem vessel_second_equation (self : Block) (v0 v1 v2 v3 e0 e1 pR pC pL pS n : ℕ)
    (hv : self.global_var_ids = [v0, v1, v2, v3]) (he : self.global_eqn_ids = [e0, e1])
    (hp : self.global_param_ids = [pR, pC, pL, pS])
    (hvn : [v0, v1, v2, v3].Nodup) (hen : e0 ≠ e1)
    (hn : ∀ v ∈ [v0, v1, v2, v3], v < n)
    (jacobian : SparseMatrix K) (residual : ℕ → Dbl K) (parameters y dy : ℕ → K) :
    (BloodVessel.update_gradient self jacobian residual (fun k => fin (parameters k))
        (fun k => fin (y k)) (fun k => fin (dy k))).2 e1 =
      fin (y v1 - y v3 - parameters pC * dy v0 +
        parameters pC * (parameters pR + 2 * (parameters pS * |y v1|)) * dy v1) ∧
    (BloodVessel.update_solution self
        (BloodVessel.update_constant self SparseSystem.zero (fun k => fin (parameters k)))
        (fun k => fin (parameters k)) (fun k => fin (y k)) (fun k => fin (dy k))).residual_row
        n (fun k => fin (y k)) (fun k => fin (dy k)) e1 =
      fin (y v1 - y v3 - parameters pC * dy v0 +
        parameters pC * (parameters pR + 2 * (parameters pS * |y v1|)) * dy v1) ∧
    (∀ j, (BloodVessel.update_solution self
        (BloodVessel.update_constant self SparseSystem.zero (fun k => fin (parameters k)))
        (fun k => fin (parameters k)) (fun k => fin (y k)) (fun k => fin (dy k))).E.val e1 j =
      fin (if j = v0 then -parameters pC
        else if j = v1 then parameters pC * (parameters pR + 2 * (parameters pS * |y v1|))
        else 0)) := by
  simp only [List.nodup_cons, List.mem_cons, List.mem_singleton, not_or, List.not_mem_nil,
    not_false_eq_true, List.nodup_nil, and_true] at hvn
  obtain ⟨⟨h01, h02, h03⟩, ⟨h12, h13⟩, h23⟩ := hvn
  have hn0 := hn v0 (by simp)
  have hn1 := hn v1 (by simp)
  have hn3 := hn v3 (by simp)
  have hE : ∀ j, (BloodVessel.update_solution self
        (BloodVessel.update_constant self SparseSystem.zero (fun k => fin (parameters k)))
        (fun k => fin (parameters k)) (fun k => fin (y k)) (fun k => fin (dy k))).E.val e1 j =
      fin (if j = v0 then -parameters pC
        else if j = v1 then parameters pC * (parameters pR + 2 * (parameters pS * |y v1|))
        else 0) := by
    intro j
    simp [BloodVessel.update_solution, BloodVessel.update_constant, SparseSystem.zero,
      SparseMatrix.zero, hv, he, hp, Block.at, BloodVessel.RESISTANCE, BloodVessel.CAPACITANCE,
      BloodVessel.INDUCTANCE, BloodVessel.STENOSIS_COEFFICIENT, hen, Ne.symm hen]
    split_ifs <;> simp_all
  refine ⟨?_, ?_, hE⟩
  · simp [BloodVessel.update_gradient, hv, he, hp, Block.at, BloodVessel.RESISTANCE,
      BloodVessel.CAPACITANCE, BloodVessel.INDUCTANCE, BloodVessel.STENOSIS_COEFFICIENT]
  · unfold SparseSystem.residual_row
    rw [dbl_row_sum _ _ dy n hE, dbl_row_sum _
      (fun j => (if j = v1 then 1 else 0) + (if j = v3 then -1 else 0)) y n]
    · have hsplit : ∀ j, (if j = v0 then -parameters pC
          else if j = v1 then parameters pC * (parameters pR + 2 * (parameters pS * |y v1|))
          else 0) = (if j = v0 then -parameters pC else 0) +
            (if j = v1 then parameters pC * (parameters pR + 2 * (parameters pS * |y v1|))
              else 0) := by
        intro j
        split_ifs <;> simp_all
      simp [hsplit, BloodVessel.update_solution, BloodVessel.update_constant,
        SparseSystem.zero, add_mul, Finset.sum_add_distrib, Finset.sum_ite_eq', hn0, hn1, hn3]
      ring
    · intro j
      simp [BloodVessel.update_solution, BloodVessel.update_constant, SparseSystem.zero,
        SparseMatrix.zero, hv, he, hp, Block.at, hen, Ne.symm hen]
      split_ifs <;> simp_all

/-- Claim C18, counterexample: variable indices 0..3, equation indices 0 and 1,
parameter indices 0..3 with `R = 1`, `C = 1`, `L = 0`, stenosis coefficient 0,
state `y = 0` and `dQ_in/dt = 1` (all other derivatives 0).  The pure capacitive
relation `Q_in - Q_out - C * dP_in/dt` is `0 - 0 - 1 * 0 = 0`, but the residual
written for equation 1 is 1, and `E` holds the entry `C * R = 1` on `Q_in` in
that row. -/
theorem vessel_second_equation_counterexample :
    (BloodVessel.update_gradient ⟨[0, 1, 2, 3], [0, 1], [0, 1, 2, 3]⟩ SparseMatrix.zero
        (fun _ => fin 0)
        (fun k => fin ((fun k => if k = 0 then 1 else if k = 1 then 1 else 0 : ℕ → ℝ) k))
        (fun _ => fin 0)
        (fun k => fin ((fun k => if k = 1 then 1 else 0 : ℕ → ℝ) k))).2 1 = fin 1 ∧
    ¬ (BloodVessel.update_gradient ⟨[0, 1, 2, 3], [0, 1], [0, 1, 2, 3]⟩ SparseMatrix.zero
        (fun _ => fin 0)
        (fun k => fin ((fun k => if k = 0 then 1 else if k = 1 then 1 else 0 : ℕ → ℝ) k))
        (fun _ => fin 0)
        (fun k => fin ((fun k => if k = 1 then 1 else 0 : ℕ → ℝ) k))).2 1 =
      fin ((0 : ℝ) - 0 - 1 * 0) ∧
    (BloodVessel.update_solution ⟨[0, 1, 2, 3], [0, 1], [0, 1, 2, 3]⟩
        (BloodVessel.update_constant ⟨[0, 1, 2, 3], [0, 1], [0, 1, 2, 3]⟩ SparseSystem.zero
          (fun k => fin ((fun k => if k = 0 then 1 else if k = 1 then 1 else 0 : ℕ → ℝ) k)))
        (fun k => fin ((fun k => if k = 0 then 1 else if k = 1 then 1 else 0 : ℕ → ℝ) k))
        (fun _ => fin 0)
        (fun k => fin ((fun k => if k = 1 then 1 else 0 : ℕ → ℝ) k))).E.val 1 1 = fin 1 := by
  have h : (BloodVessel.update_gradient ⟨[0, 1, 2, 3], [0, 1], [0, 1, 2, 3]⟩ SparseMatrix.zero
        (fun _ => fin 0)
        (fun k => fin ((fun k => if k = 0 then 1 else if k = 1 then 1 else 0 : ℕ → ℝ) k))
        (fun _ => fin 0)
        (fun k => fin ((fun k => if k = 1 then 1 else 0 : ℕ → ℝ) k))).2 1 = fin 1 := by
    simp [BloodVessel.update_gradient, Block.at, BloodVessel.RESISTANCE,
      BloodVessel.CAPACITANCE, BloodVessel.INDUCTANCE, BloodVessel.STENOSIS_COEFFICIENT]
  refine ⟨h, ?_, ?_⟩
  · rw [h]
    intro hfalse
    injection hfalse with hfalse
    norm_num at hfalse
  · simp [BloodVessel.update_solution, BloodVessel.update_constant, Block.at,
      BloodVessel.RESISTANCE, BloodVessel.CAPACITANCE, BloodVessel.INDUCTANCE,
      BloodVessel.STENOSIS_COEFFICIENT]

/-- Witness for `vessel_second_equation`: the same block with `R = 1`, `C = 2`,
`L = 3`, stenosis coefficient 0.5, `y = (5, -3, 4, 1)`, `dy = (1, 2, 0, 7)`:
the residual written for equation 1 is
`-3 - 1 - 2 * 1 + 2 * (1 + 2 * (0.5 * 3)) * 2`. -/
theorem vessel_second_equation_witness :
    [0, 1, 2, 3].Nodup ∧ (0 : ℕ) ≠ 1 ∧ (∀ v ∈ [0, 1, 2, 3], v < 4) ∧
    (BloodVessel.update_gradient ⟨[0, 1, 2, 3], [0, 1], [0, 1, 2, 3]⟩ SparseMatrix.zero
        (fun _ => fin 0)
        (fun k => fin ((fun k => if k = 0 then 1 else if k = 1 then 2 else if k = 2 then 3
          else 0.5 : ℕ → ℝ) k))
        (fun k => fin ((fun k => if k = 0 then 5 else if k = 1 then -3 else if k = 2 then 4
          else 1 : ℕ → ℝ) k))
        (fun k => fin ((fun k => if k = 0 then 1 else if k = 1 then 2 else if k = 2 then 0
          else 7 : ℕ → ℝ) k))).2 1 =
      fin (-3 - 1 - 2 * 1 + 2 * (1 + 2 * (0.5 * |(-3 : ℝ)|)) * 2) :=
  ⟨by decide, by decide, by decide,
    (vessel_second_equation ⟨[0, 1, 2, 3], [0, 1], [0, 1, 2, 3]⟩ 0 1 2 3 0 1 0 1 2 3 4
      rfl rfl rfl (by decide) (by decide) (by decide) SparseMatrix.zero (fun _ => fin 0)
      (fun k => if k = 0 then 1 else if k = 1 then 2 else if k = 2 then 3 else 0.5)
      (fun k => if k = 0 then 5 else if k = 1 then -3 else if k = 2 then 4 else 1)
      (fun k => if k = 0 then 1 else if k = 1 then 2 else if k = 2 then 0 else 7)).1⟩

end VesselSecondEquation

/-! ## Phases overwrite -/

section Overwrite

variable {K : Type} [LinearOrderedField K] [FloorRing K]

/-- Two sparse matrices with the same coefficients and the same stored keys are equal. -/
theorem sparse_matrix_eq {m1 m2 : SparseMatrix K} (hval : ∀ i j, m1.val i j = m2.val i j)
    (hstored : m1.stored = m2.stored) : m1 = m2 := by
  cases m1
  cases m2
  simp only [SparseMatrix.mk.injEq]
  exact ⟨funext fun i => funext fun j => hval i j, hstored⟩

/-- The vessel's `update_constant` run twice is the same as run once. -/
theorem vessel_update_constant_idem (self : Block) (system : SparseSystem K)
    (parameters : ℕ → Dbl K) :
    BloodVessel.update_constant self (BloodVessel.update_constant self system parameters)
      parameters = BloodVessel.update_constant self system parameters := by
  simp only [BloodVessel.update_constant]
  congr 1
  · apply sparse_matrix_eq
    · intro i j
      simp only [coeffRef_assign_val]
      split_ifs <;> rfl
    · ext x
      simp only [coeffRef_assign_stored, Finset.mem_insert]
      tauto
  · apply sparse_matrix_eq
    · intro i j
      simp only [coeffRef_assign_val]
      split_ifs <;> rfl
    · ext x
      simp only [coeffRef_assign_stored, Finset.mem_insert]
      tauto

/-- The vessel's `update_constant` overwrites. -/
theorem vessel_update_constant_overwrites (self : Block) (s1 s2 : SparseSystem K)
    (parameters : ℕ → Dbl K) :
    SparseSystem.overwritten s1 (BloodVessel.update_constant self s1 parameters)
      s2 (BloodVessel.update_constant self s2 parameters) := by
  refine ⟨?_, ?_, ?_, ?_⟩
  · intro i j
    simp only [BloodVessel.update_constant, coeffRef_assign_val]
    split_ifs <;> first | exact Or.inl rfl | exact Or.inr ⟨rfl, rfl⟩
  · intro i j
    simp only [BloodVessel.update_constant, coeffRef_assign_val]
    split_ifs <;> first | exact Or.inl rfl | exact Or.inr ⟨rfl, rfl⟩
  · intro i j
    exact Or.inr ⟨rfl, rfl⟩
  · intro i
    exact Or.inr ⟨rfl, rfl⟩

/-- The vessel's `update_solution` run twice is the same as run once. -/
theorem vessel_update_solution_idem (self : Block) (system : SparseSystem K)
    (parameters y dy : ℕ → Dbl K) :
    BloodVessel.update_solution self (BloodVessel.update_solution self system parameters y dy)
      parameters y dy = BloodVessel.update_solution self system parameters y dy := by
  simp only [BloodVessel.update_solution]
  congr 1
  · apply sparse_matrix_eq
    · intro i j
      simp only [coeffRef_assign_val]
      split_ifs <;> rfl
    · ext x
      simp only [coeffRef_assign_stored, Finset.mem_insert]
      tauto
  · apply sparse_matrix_eq
    · intro i j
      simp only [coeffRef_assign_val]
      split_ifs <;> rfl
    · ext x
      simp only [coeffRef_assign_stored, Finset.mem_insert]
      tauto
  · apply sparse_matrix_eq
    · intro i j
      simp only [coeffRef_assign_val]
      split_ifs <;> rfl
    · ext x
      simp only [coeffRef_assign_stored, Finset.mem_insert]
      tauto

/-- The vessel's `update_solution` overwrites. -/
theorem vessel_update_solution_overwrites (self : Block) (s1 s2 : SparseSystem K)
    (parameters y dy : ℕ → Dbl K) :
    SparseSystem.overwritten s1 (BloodVessel.update_solution self s1 parameters y dy)
      s2 (BloodVessel.update_solution self s2 parameters y dy) := by
  refine ⟨?_, ?_, ?_, ?_⟩
  · intro i j
    simp only [BloodVessel.update_solution, coeffRef_assign_val]
    split_ifs <;> first | exact Or.inl rfl | exact Or.inr ⟨rfl, rfl⟩
  · intro i j
    simp only [BloodVessel.update_solution, coeffRef_assign_val]
    split_ifs <;> first | exact Or.inl rfl | exact Or.inr ⟨rfl, rfl⟩
  · intro i j
    simp only [BloodVessel.update_solution, coeffRef_assign_val]
    split_ifs <;> first | exact Or.inl rfl | exact Or.inr ⟨rfl, rfl⟩
  · intro i
    exact Or.inr ⟨rfl, rfl⟩

/-- The vessel's `update_gradient` run twice is the same as run once. -/
theorem vessel_update_gradient_idem (self : Block) (jacobian : SparseMatrix K)
    (residual : ℕ → Dbl K) (alpha y dy : ℕ → Dbl K) :
    BloodVessel.update_gradient self
      (BloodVessel.update_gradient self jacobian residual alpha y dy).1
      (BloodVessel.update_gradient self jacobian residual alpha y dy).2 alpha y dy =
    BloodVessel.update_gradient self jacobian residual alpha y dy := by
  simp only [BloodVessel.update_gradient]
  by_cases h : self.global_param_ids.length > 3
  · simp only [h, if_true]
    refine Prod.ext ?_ ?_
    · apply sparse_matrix_eq
      · intro i j
        simp only [coeffRef_assign_val]
        split_ifs <;> rfl
      · ext x
        simp only [coeffRef_assign_stored, Finset.mem_insert]
        tauto
    · funext i
      simp only [vec_assign_apply]
      split_ifs <;> rfl
  · simp only [h, if_false]
    refine Prod.ext ?_ ?_
    · apply sparse_matrix_eq
      · intro i j
        simp only [coeffRef_assign_val]
        split_ifs <;> rfl
      · ext x
        simp only [coeffRef_assign_stored, Finset.mem_insert]
        tauto
    · funext i
      simp only [vec_assign_apply]
      split_ifs <;> rfl

/-- The vessel's `update_gradient` overwrites. -/
theorem vessel_update_gradient_overwrites (self : Block) (j1 j2 : SparseMatrix K)
    (r1 r2 : ℕ → Dbl K) (alpha y dy : ℕ → Dbl K) :
    SparseMatrix.overwritten j1 (BloodVessel.update_gradient self j1 r1 alpha y dy).1
      j2 (BloodVessel.update_gradient self j2 r2 alpha y dy).1 ∧
    vec_overwritten r1 (BloodVessel.update_gradient self j1 r1 alpha y dy).2
      r2 (BloodVessel.update_gradient self j2 r2 alpha y dy).2 := by
  constructor
  · intro i j
    simp only [BloodVessel.update_gradient]
    by_cases h : self.global_param_ids.length > 3
    · simp only [h, if_true, coeffRef_assign_val]
      split_ifs <;> first | exact Or.inl rfl | exact Or.inr ⟨rfl, rfl⟩
    · simp only [h, if_false, coeffRef_assign_val]
      split_ifs <;> first | exact Or.inl rfl | exact Or.inr ⟨rfl, rfl⟩
  · intro i
    simp only [BloodVessel.update_gradient, vec_assign_apply]
    split_ifs <;> first | exact Or.inl rfl | exact Or.inr ⟨rfl, rfl⟩

/-- The chamber's `update_constant` run twice is the same as run once. -/
theorem chamber_update_constant_idem {A : Type} (self : LinearElastanceChamber K A)
    (system : SparseSystem K) (parameters : ℕ → Dbl K) :
    LinearElastanceChamber.update_constant self
      (LinearElastanceChamber.update_constant self system parameters) parameters =
    LinearElastanceChamber.update_constant self system parameters := by
  simp only [LinearElastanceChamber.update_constant]
  congr 1
  · apply sparse_matrix_eq
    · intro i j
      simp only [coeffRef_assign_val]
      split_ifs <;> rfl
    · ext x
      simp only [coeffRef_assign_stored, Finset.mem_insert]
      tauto
  · apply sparse_matrix_eq
    · intro i j
      simp only [coeffRef_assign_val]
      split_ifs <;> rfl
    · ext x
      simp only [coeffRef_assign_stored, Finset.mem_insert]
      tauto

/-- The chamber's `update_constant` overwrites. -/
theorem chamber_update_constant_overwrites {A : Type} (self : LinearElastanceChamber K A)
    (s1 s2 : SparseSystem K) (parameters : ℕ → Dbl K) :
    SparseSystem.overwritten s1 (LinearElastanceChamber.update_constant self s1 parameters)
      s2 (LinearElastanceChamber.update_constant self s2 parameters) := by
  refine ⟨?_, ?_, ?_, ?_⟩
  · intro i j
    simp only [LinearElastanceChamber.update_constant, coeffRef_assign_val]
    split_ifs <;> first | exact Or.inl rfl | exact Or.inr ⟨rfl, rfl⟩
  · intro i j
    simp only [LinearElastanceChamber.update_constant, coeffRef_assign_val]
    split_ifs <;> first | exact Or.inl rfl | exact Or.inr ⟨rfl, rfl⟩
  · intro i j
    exact Or.inr ⟨rfl, rfl⟩
  · intro i
    exact Or.inr ⟨rfl, rfl⟩

/-- The chamber's `update_time` run twice, the activation function returning
the same value both times, leaves the system and the elastance of one run. -/
theorem chamber_update_time_idem {A : Type} (compute : A → Dbl K → Except Error (Dbl K) × A)
    (time : Dbl K) (self : LinearElastanceChamber K A) (system : SparseSystem K)
    (parameters : ℕ → Dbl K) (phi : Dbl K) (af af' : A)
    (h1 : compute self.activation_func_ time = (.ok phi, af))
    (h2 : compute af time = (.ok phi, af')) :
    ∃ c1 sys1 c2,
      LinearElastanceChamber.update_time compute time self system parameters = .ok (c1, sys1) ∧
      LinearElastanceChamber.update_time compute time c1 sys1 parameters = .ok (c2, sys1) ∧
      c2.Elas = c1.Elas ∧ c2.toBlock = c1.toBlock := by
  refine ⟨_, _,
    { self with
      activation_func_ := af'
      Elas := parameters (Block.at self.global_param_ids LinearElastanceChamber.EPASS) +
        parameters (Block.at self.global_param_ids LinearElastanceChamber.EMAX) * phi },
    chamber_update_time_eq compute time self system parameters phi af h1, ?_, rfl, rfl⟩
  rw [chamber_update_time_eq compute time _ _ parameters phi af' h2]
  refine congrArg Except.ok (Prod.ext rfl ?_)
  simp only [SparseSystem.mk.injEq]
  refine ⟨?_, trivial, trivial, ?_⟩
  · apply sparse_matrix_eq
    · intro i j
      simp only [coeffRef_assign_val]
      split_ifs <;> rfl
    · ext x
      simp only [coeffRef_assign_stored, Finset.mem_insert]
      tauto
  · funext i
    simp only [vec_assign_apply]
    split_ifs <;> rfl

/-- The chamber's `update_time` overwrites. -/
theorem chamber_update_time_overwrites {A : Type}
    (compute : A → Dbl K → Except Error (Dbl K) × A)
    (time : Dbl K) (self : LinearElastanceChamber K A) (s1 s2 : SparseSystem K)
    (parameters : ℕ → Dbl K) (phi : Dbl K) (af : A)
    (h1 : compute self.activation_func_ time = (.ok phi, af)) :
    ∃ c s1' s2',
      LinearElastanceChamber.update_time compute time self s1 parameters = .ok (c, s1') ∧
      LinearElastanceChamber.update_time compute time self s2 parameters = .ok (c, s2') ∧
      SparseSystem.overwritten s1 s1' s2 s2' := by
  refine ⟨_, _, _, chamber_update_time_eq compute time self s1 parameters phi af h1,
    chamber_update_time_eq compute time self s2 parameters phi af h1, ?_, ?_, ?_, ?_⟩
  · intro i j
    simp only [coeffRef_assign_val]
    split_ifs <;> first | exact Or.inl rfl | exact Or.inr ⟨rfl, rfl⟩
  · intro i j
    exact Or.inr ⟨rfl, rfl⟩
  · intro i j
    exact Or.inr ⟨rfl, rfl⟩
  · intro i
    simp only [vec_assign_apply]
    split_ifs <;> first | exact Or.inl rfl | exact Or.inr ⟨rfl, rfl⟩

/-- Claim C19: each update phase overwrites rather than accumulates.  For the
vessel's `update_constant`, `update_solution` and `update_gradient` and the
chamber's `update_constant` and `update_time`, for every starting system (or
jacobian and residual) and all inputs: running the phase twice in a row with
the same inputs leaves exactly what one run leaves, and every key is either
untouched or holds after the call a value that does not depend on what the
system held before.  For `update_time` the same input means that the activation
function returns the same value at both calls. -/
theorem phases_overwrite {A : Type} (vessel : Block) (chamber : LinearElastanceChamber K A)
    (compute : A → Dbl K → Except Error (Dbl K) × A) (time : Dbl K)
    (s1 s2 : SparseSystem K) (j1 j2 : SparseMatrix K) (r1 r2 : ℕ → Dbl K)
    (parameters alpha y dy : ℕ → Dbl K) :
    (BloodVessel.update_constant vessel (BloodVessel.update_constant vessel s1 parameters)
        parameters = BloodVessel.update_constant vessel s1 parameters ∧
      SparseSystem.overwritten s1 (BloodVessel.update_constant vessel s1 parameters)
        s2 (BloodVessel.update_constant vessel s2 parameters)) ∧
    (BloodVessel.update_solution vessel (BloodVessel.update_solution vessel s1 parameters y dy)
        parameters y dy = BloodVessel.update_solution vessel s1 parameters y dy ∧
      SparseSystem.overwritten s1 (BloodVessel.update_solution vessel s1 parameters y dy)
        s2 (BloodVessel.update_solution vessel s2 parameters y dy)) ∧
    (BloodVessel.update_gradient vessel
        (BloodVessel.update_gradient vessel j1 r1 alpha y dy).1
        (BloodVessel.update_gradient vessel j1 r1 alpha y dy).2 alpha y dy =
        BloodVessel.update_gradient vessel j1 r1 alpha y dy ∧
      SparseMatrix.overwritten j1 (BloodVessel.update_gradient vessel j1 r1 alpha y dy).1
        j2 (BloodVessel.update_gradient vessel j2 r2 alpha y dy).1 ∧
      vec_overwritten r1 (BloodVessel.update_gradient vessel j1 r1 alpha y dy).2
        r2 (BloodVessel.update_gradient vessel j2 r2 alpha y dy).2) ∧
    (LinearElastanceChamber.update_constant chamber
        (LinearElastanceChamber.update_constant chamber s1 parameters) parameters =
        LinearElastanceChamber.update_constant chamber s1 parameters ∧
      SparseSystem.overwritten s1 (LinearElastanceChamber.update_constant chamber s1 parameters)
        s2 (LinearElastanceChamber.update_constant chamber s2 parameters)) ∧
    (∀ phi af af', compute chamber.activation_func_ time = (.ok phi, af) →
      compute af time = (.ok phi, af') →
      ∃ c1 s1' c2 s2',
        LinearElastanceChamber.update_time compute time chamber s1 parameters = .ok (c1, s1') ∧
        LinearElastanceChamber.update_time compute time c1 s1' parameters = .ok (c2, s1') ∧
        c2.Elas = c1.Elas ∧ c2.toBlock = c1.toBlock ∧
        LinearElastanceChamber.update_time compute time chamber s2 parameters = .ok (c1, s2') ∧
        SparseSystem.overwritten s1 s1' s2 s2') := by
  refine ⟨⟨?_, ?_⟩, ⟨?_, ?_⟩, ⟨?_, ?_⟩, ⟨?_, ?_⟩, ?_⟩
  · exact vessel_update_constant_idem vessel s1 parameters
  · exact vessel_update_constant_overwrites vessel s1 s2 parameters
  · exact vessel_update_solution_idem vessel s1 parameters y dy
  · exact vessel_update_solution_overwrites vessel s1 s2 parameters y dy
  · exact vessel_update_gradient_idem vessel j1 r1 alpha y dy
  · exact vessel_update_gradient_overwrites vessel j1 j2 r1 r2 alpha y dy
  · exact chamber_update_constant_idem chamber s1 parameters
  · exact chamber_update_constant_overwrites chamber s1 s2 parameters
  · intro phi af af' h1 h2
    obtain ⟨c1, t1, c2, hfirst, hsecond, hE, hB⟩ :=
      chamber_update_time_idem compute time chamber s1 parameters phi af af' h1 h2
    obtain ⟨c, u1, u2, hu1, hu2, hover⟩ :=
      chamber_update_time_overwrites compute time chamber s1 s2 parameters phi af h1
    rw [hfirst] at hu1
    simp only [Except.ok.injEq, Prod.mk.injEq] at hu1
    obtain ⟨hc, hs⟩ := hu1
    subst hc
    subst hs
    exact ⟨c1, t1, c2, u2, hfirst, hsecond, hE, hB, hu2, hover⟩

end Overwrite

/-! ## Piecewise-cosine activation: periodicity -/

section PiecewisePeriod

/-- Claim C20, evaluation at the failing input: period 1, `contract_start = 0.9`,
`contract_duration = 0.3`, `relax_start = 0.2`, `relax_duration = 0.3` (both
start times in `[0, 1)`), time 0.05.  At `t = 0.05` the code forms
`fmod(-0.85, 1) = -0.85` and `fmod(-0.15, 1) = -0.15`, rejects both and
returns 0; one period later, at `t = 1.05`, it forms `fmod(0.15, 1) = 0.15`,
inside the contraction window, and returns
`0.5 * (1 - cos(pi * 0.15 / 0.3)) = 0.5`. -/
theorem piecewise_cosine_period_divergence :
    (0 : ℝ) < 1 ∧ (0 : ℝ) ≤ 0.9 ∧ (0.9 : ℝ) < 1 ∧ (0 : ℝ) ≤ 0.2 ∧ (0.2 : ℝ) < 1 ∧
    (0 : ℝ) ≤ 0.05 ∧
    PiecewiseCosineActivation.compute Real.cos Real.pi
      (((((PiecewiseCosineActivation.new (fin (1 : ℝ))).set_param "contract_start"
        (fin 0.9)).set_param "relax_start" (fin 0.2)).set_param "contract_duration"
        (fin 0.3)).set_param "relax_duration" (fin 0.3)) (fin 0.05) = .ok (fin 0) ∧
    PiecewiseCosineActivation.compute Real.cos Real.pi
      (((((PiecewiseCosineActivation.new (fin (1 : ℝ))).set_param "contract_start"
        (fin 0.9)).set_param "relax_start" (fin 0.2)).set_param "contract_duration"
        (fin 0.3)).set_param "relax_duration" (fin 0.3)) (fin (0.05 + 1)) = .ok (fin 0.5) ∧
    PiecewiseCosineActivation.compute Real.cos Real.pi
      (((((PiecewiseCosineActivation.new (fin (1 : ℝ))).set_param "contract_start"
        (fin 0.9)).set_param "relax_start" (fin 0.2)).set_param "contract_duration"
        (fin 0.3)).set_param "relax_duration" (fin 0.3)) (fin (0.05 + 1)) ≠
    PiecewiseCosineActivation.compute Real.cos Real.pi
      (((((PiecewiseCosineActivation.new (fin (1 : ℝ))).set_param "contract_start"
        (fin 0.9)).set_param "relax_start" (fin 0.2)).set_param "contract_duration"
        (fin 0.3)).set_param "relax_duration" (fin 0.3)) (fin 0.05) := by
  have h0 : PiecewiseCosineActivation.compute Real.cos Real.pi
      (((((PiecewiseCosineActivation.new (fin (1 : ℝ))).set_param "contract_start"
        (fin 0.9)).set_param "relax_start" (fin 0.2)).set_param "contract_duration"
        (fin 0.3)).set_param "relax_duration" (fin 0.3)) (fin 0.05) = .ok (fin 0) := by
    have hc : fmod (fin (0.05 : ℝ) - fin 0.9) (fin 1) = fin (-0.85) := by norm_num [trunc]
    have hr : fmod (fin (0.05 : ℝ) - fin 0.2) (fin 1) = fin (-0.15) := by norm_num [trunc]
    rw [piecewise_cosine_compute_eq Real.cos Real.pi _ (fin 0.05) (fin 0.9) (fin 0.2)
      (fin 0.3) (fin 0.3) rfl rfl rfl rfl]
    simp only [PiecewiseCosineActivation.set_param, ActivationFunction.set_param,
      PiecewiseCosineActivation.new, ActivationFunction.new]
    rw [hc, hr]
    norm_num
  have h1 : PiecewiseCosineActivation.compute Real.cos Real.pi
      (((((PiecewiseCosineActivation.new (fin (1 : ℝ))).set_param "contract_start"
        (fin 0.9)).set_param "relax_start" (fin 0.2)).set_param "contract_duration"
        (fin 0.3)).set_param "relax_duration" (fin 0.3)) (fin (0.05 + 1)) = .ok (fin 0.5) := by
    have hc : fmod (fin ((0.05 : ℝ) + 1) - fin 0.9) (fin 1) = fin 0.15 := by norm_num [trunc]
    have hcos : Real.cos (Real.pi * 0.15 / 0.3) = 0 := by
      have h : Real.pi * 0.15 / 0.3 = Real.pi / 2 := by ring
      rw [h, Real.cos_pi_div_two]
    rw [piecewise_cosine_compute_eq Real.cos Real.pi _ (fin (0.05 + 1)) (fin 0.9) (fin 0.2)
      (fin 0.3) (fin 0.3) rfl rfl rfl rfl]
    simp only [PiecewiseCosineActivation.set_param, ActivationFunction.set_param,
      PiecewiseCosineActivation.new, ActivationFunction.new]
    rw [hc]
    have h03 : (0.3 : ℝ) ≠ 0 := by norm_num
    simp only [fin_mul_fin, fin_div_fin_of_ne _ h03, map_fin, hcos]
    norm_num
  refine ⟨by norm_num, by norm_num, by norm_num, by norm_num, by norm_num, by norm_num,
    h0, h1, ?_⟩
  rw [h0, h1]
  intro h
  injection h with h
  injection h with h
  norm_num at h

end PiecewisePeriod

/-! ## Parameter lookups never fail -/

section Lookups

variable {K : Type} [LinearOrderedField K] [FloorRing K]

/-- The parameter map after a sequence of assignments. -/
theorem foldl_map_assign_present (calls : List (String × Dbl K)) :
    ∀ (params : String → Option (Dbl K)) (n : String), (∃ v, params n = some v) →
      ∃ v, (calls.foldl (fun p c => map_assign p c.1 c.2) params) n = some v := by
  induction calls with
  | nil => intro params n h; exact h
  | cons c rest ih =>
    intro params n h
    exact ih _ n (map_assign_present params c.1 n c.2 h)

/-- A name that no assignment mentions keeps its value. -/
theorem foldl_map_assign_other (calls : List (String × Dbl K)) :
    ∀ (params : String → Option (Dbl K)) (n : String), n ∉ calls.map Prod.fst →
      (calls.foldl (fun p c => map_assign p c.1 c.2) params) n = params n := by
  induction calls with
  | nil => intro params n _; rfl
  | cons c rest ih =>
    intro params n h
    simp only [List.map_cons, List.mem_cons, not_or] at h
    rw [List.foldl_cons, ih _ n h.2]
    simp [map_assign, h.1]

/-- The state of a `HalfCosineActivation` after a sequence of `set_param` calls. -/
theorem half_cosine_set_params_state (calls : List (String × Dbl K)) :
    ∀ a : HalfCosineActivation K,
      (a.set_params calls).params_ = calls.foldl (fun p c => map_assign p c.1 c.2) a.params_ ∧
      (a.set_params calls).input_param_properties = a.input_param_properties ∧
      (a.set_params calls).cardiac_period_ = a.cardiac_period_ := by
  induction calls with
  | nil => intro a; exact ⟨rfl, rfl, rfl⟩
  | cons c rest ih =>
    intro a
    exact ih (a.set_param c.1 c.2)

/-- The state of a `PiecewiseCosineActivation` after a sequence of `set_param` calls. -/
theorem piecewise_cosine_set_params_state (calls : List (String × Dbl K)) :
    ∀ a : PiecewiseCosineActivation K,
      (a.set_params calls).params_ = calls.foldl (fun p c => map_assign p c.1 c.2) a.params_ ∧
      (a.set_params calls).input_param_properties = a.input_param_properties ∧
      (a.set_params calls).cardiac_period_ = a.cardiac_period_ := by
  induction calls with
  | nil => intro a; exact ⟨rfl, rfl, rfl⟩
  | cons c rest ih =>
    intro a
    exact ih (a.set_param c.1 c.2)

/-- The state of a `TwoHillActivation` after a sequence of `set_param` calls. -/
theorem two_hill_set_params_state (calls : List (String × Dbl K)) :
    ∀ a : TwoHillActivation K,
      (a.set_params calls).params_ = calls.foldl (fun p c => map_assign p c.1 c.2) a.params_ ∧
      (a.set_params calls).input_param_properties = a.input_param_properties ∧
      (a.set_params calls).cardiac_period_ = a.cardiac_period_ ∧
      (a.set_params calls).normalization_initialized_ = a.normalization_initialized_ := by
  induction calls with
  | nil => intro a; exact ⟨rfl, rfl, rfl, rfl⟩
  | cons c rest ih =>
    intro a
    exact ih (a.set_param c.1 c.2)

/-- On a `TwoHillActivation` whose map holds the four shape parameters,
`finalize` never throws the `out_of_range` of a failed lookup. -/
theorem two_hill_finalize_no_lookup_failure (pow : Dbl K → Dbl K → Dbl K)
    (to_string : Dbl K → String) (fuel : ℕ) (a : TwoHillActivation K)
    (h1 : ∃ v, a.params_ "tau_1" = some v) (h2 : ∃ v, a.params_ "tau_2" = some v)
    (h3 : ∃ v, a.params_ "m1" = some v) (h4 : ∃ v, a.params_ "m2" = some v) :
    TwoHillActivation.finalize pow to_string fuel a ≠ some (.error Error.out_of_range) := by
  obtain ⟨t1, h1⟩ := h1
  obtain ⟨t2, h2⟩ := h2
  obtain ⟨e1, h3⟩ := h3
  obtain ⟨e2, h4⟩ := h4
  unfold TwoHillActivation.finalize TwoHillActivation.calculate_normalization_factor
  simp only [map_at, h1, h2, h3, h4]
  split_ifs with hle
  · simp
  · cases hs : TwoHillActivation.scan_loop pow a.cardiac_period_ t1 t2 e1 e2 fuel
        (fin 0.0) (fin 0.0) with
    | none => simp
    | some R =>
      simp only
      split_ifs <;> simp

/-- Claim C21: for each of the three variants as built by its constructor and
after any sequence of `set_param` calls, every name that `compute` (and, for
two-hill, `finalize`) looks up is declared in the descriptor list and has a
value in the map; `compute` of the half-cosine and piecewise-cosine variants
returns a value, `compute` of the two-hill variant returns a value once the
flag is set and otherwise throws its usage error, not a lookup failure, and
`finalize` never throws a lookup failure; and every declared parameter that no
call has set reads as 0.0. -/
theorem lookups_never_fail (cardiac_period : Dbl K) (calls : List (String × Dbl K)) :
    ((∀ n ∈ HalfCosineActivation.lookup_names,
        n ∈ ((HalfCosineActivation.new cardiac_period).set_params calls).declared ∧
        ∃ v, ((HalfCosineActivation.new cardiac_period).set_params calls).params_ n = some v) ∧
      (∀ (cos : K → K) (M_PI : K) (time : Dbl K), ∃ v,
        HalfCosineActivation.compute cos M_PI
          ((HalfCosineActivation.new cardiac_period).set_params calls) time = .ok v) ∧
      (∀ n ∈ ((HalfCosineActivation.new cardiac_period).set_params calls).declared,
        n ∉ calls.map Prod.fst →
        ((HalfCosineActivation.new cardiac_period).set_params calls).params_ n
          = some (fin 0.0))) ∧
    ((∀ n ∈ PiecewiseCosineActivation.lookup_names,
        n ∈ ((PiecewiseCosineActivation.new cardiac_period).set_params calls).declared ∧
        ∃ v, ((PiecewiseCosineActivation.new cardiac_period).set_params calls).params_ n
          = some v) ∧
      (∀ (cos : K → K) (M_PI : K) (time : Dbl K), ∃ v,
        PiecewiseCosineActivation.compute cos M_PI
          ((PiecewiseCosineActivation.new cardiac_period).set_params calls) time = .ok v) ∧
      (∀ n ∈ ((PiecewiseCosineActivation.new cardiac_period).set_params calls).declared,
        n ∉ calls.map Prod.fst →
        ((PiecewiseCosineActivation.new cardiac_period).set_params calls).params_ n
          = some (fin 0.0))) ∧
    ((∀ n ∈ TwoHillActivation.compute_lookup_names ++ TwoHillActivation.finalize_lookup_names,
        n ∈ ((TwoHillActivation.new cardiac_period).set_params calls).declared ∧
        ∃ v, ((TwoHillActivation.new cardiac_period).set_params calls).params_ n = some v) ∧
      (∀ (pow : Dbl K → Dbl K → Dbl K) (time : Dbl K),
        TwoHillActivation.compute pow
          ((TwoHillActivation.new cardiac_period).set_params calls) time =
          .error (Error.runtime_error
            "TwoHillActivation: call finalize() after setting parameters")) ∧
      (∀ (pow : Dbl K → Dbl K → Dbl K) (time : Dbl K) (a' : TwoHillActivation K),
        a'.toActivationFunction =
          ((TwoHillActivation.new cardiac_period).set_params calls).toActivationFunction →
        a'.normalization_initialized_ = true →
        ∃ v, TwoHillActivation.compute pow a' time = .ok v) ∧
      (∀ (pow : Dbl K → Dbl K → Dbl K) (to_string : Dbl K → String) (fuel : ℕ),
        TwoHillActivation.finalize pow to_string fuel
          ((TwoHillActivation.new cardiac_period).set_params calls)
          ≠ some (.error Error.out_of_range)) ∧
      (∀ n ∈ ((TwoHillActivation.new cardiac_period).set_params calls).declared,
        n ∉ calls.map Prod.fst →
        ((TwoHillActivation.new cardiac_period).set_params calls).params_ n
          = some (fin 0.0))) := by
  refine ⟨?_, ?_, ?_⟩
  · obtain ⟨hp, hd, -⟩ := half_cosine_set_params_state calls
      (HalfCosineActivation.new cardiac_period)
    have hpres : ∀ n ∈ HalfCosineActivation.lookup_names,
        ∃ v, ((HalfCosineActivation.new cardiac_period).set_params calls).params_ n = some v := by
      intro n hn
      rw [hp]
      apply foldl_map_assign_present
      simp only [HalfCosineActivation.lookup_names, List.mem_cons, List.mem_singleton,
        List.not_mem_nil, or_false] at hn
      rcases hn with rfl | rfl <;> exact ⟨_, rfl⟩
    refine ⟨?_, ?_, ?_⟩
    · intro n hn
      refine ⟨?_, hpres n hn⟩
      simp only [ActivationFunction.declared, hd]
      simp only [HalfCosineActivation.lookup_names, List.mem_cons, List.mem_singleton,
        List.not_mem_nil, or_false] at hn
      rcases hn with rfl | rfl <;> simp [HalfCosineActivation.new, ActivationFunction.new]
    · intro cos M_PI time
      obtain ⟨ta, hta⟩ := hpres "t_active" (by simp [HalfCosineActivation.lookup_names])
      obtain ⟨tw, htw⟩ := hpres "t_twitch" (by simp [HalfCosineActivation.lookup_names])
      exact ⟨_, half_cosine_compute_eq cos M_PI _ time ta tw hta htw⟩
    · intro n hn hnot
      rw [hp, foldl_map_assign_other calls _ n hnot]
      simp only [ActivationFunction.declared, hd] at hn
      simp only [HalfCosineActivation.new, ActivationFunction.new, List.map_cons, List.map_nil,
        List.mem_cons, List.mem_singleton, List.not_mem_nil, or_false] at hn
      rcases hn with rfl | rfl <;> simp <;> rfl
  · obtain ⟨hp, hd, -⟩ := piecewise_cosine_set_params_state calls
      (PiecewiseCosineActivation.new cardiac_period)
    have hpres : ∀ n ∈ PiecewiseCosineActivation.lookup_names,
        ∃ v, ((PiecewiseCosineActivation.new cardiac_period).set_params calls).params_ n
          = some v := by
      intro n hn
      rw [hp]
      apply foldl_map_assign_present
      simp only [PiecewiseCosineActivation.lookup_names, List.mem_cons, List.mem_singleton,
        List.not_mem_nil, or_false] at hn
      rcases hn with rfl | rfl | rfl | rfl <;> exact ⟨_, rfl⟩
    refine ⟨?_, ?_, ?_⟩
    · intro n hn
      refine ⟨?_, hpres n hn⟩
      simp only [ActivationFunction.declared, hd]
      simp only [PiecewiseCosineActivation.lookup_names, List.mem_cons, List.mem_singleton,
        List.not_mem_nil, or_false] at hn
      rcases hn with rfl | rfl | rfl | rfl <;>
        simp [PiecewiseCosineActivation.new, ActivationFunction.new]
    · intro cos M_PI time
      obtain ⟨cs, hcs⟩ := hpres "contract_start" (by simp [PiecewiseCosineActivation.lookup_names])
      obtain ⟨rs, hrs⟩ := hpres "relax_start" (by simp [PiecewiseCosineActivation.lookup_names])
      obtain ⟨cd, hcd⟩ := hpres "contract_duration"
        (by simp [PiecewiseCosineActivation.lookup_names])
      obtain ⟨rd, hrd⟩ := hpres "relax_duration"
        (by simp [PiecewiseCosineActivation.lookup_names])
      exact ⟨_, piecewise_cosine_compute_eq cos M_PI _ time cs rs cd rd hcs hrs hcd hrd⟩
    · intro n hn hnot
      rw [hp, foldl_map_assign_other calls _ n hnot]
      simp only [ActivationFunction.declared, hd] at hn
      simp only [PiecewiseCosineActivation.new, ActivationFunction.new, List.map_cons,
        List.map_nil, List.mem_cons, List.mem_singleton, List.not_mem_nil, or_false] at hn
      rcases hn with rfl | rfl | rfl | rfl <;> simp <;> rfl
  · obtain ⟨hp, hd, -, hflag⟩ := two_hill_set_params_state calls
      (TwoHillActivation.new cardiac_period)
    have hpres : ∀ n ∈ TwoHillActivation.compute_lookup_names,
        ∃ v, ((TwoHillActivation.new cardiac_period).set_params calls).params_ n = some v := by
      intro n hn
      rw [hp]
      apply foldl_map_assign_present
      simp only [TwoHillActivation.compute_lookup_names, List.mem_cons, List.mem_singleton,
        List.not_mem_nil, or_false] at hn
      rcases hn with rfl | rfl | rfl | rfl | rfl <;> exact ⟨_, rfl⟩
    have hsub : ∀ n ∈ TwoHillActivation.compute_lookup_names ++
        TwoHillActivation.finalize_lookup_names, n ∈ TwoHillActivation.compute_lookup_names := by
      intro n hn
      simp only [TwoHillActivation.compute_lookup_names,
        TwoHillActivation.finalize_lookup_names, List.mem_append, List.mem_cons,
        List.mem_singleton, List.not_mem_nil, or_false] at hn ⊢
      tauto
    obtain ⟨ts, hts⟩ := hpres "t_shift" (by simp [TwoHillActivation.compute_lookup_names])
    obtain ⟨t1, ht1⟩ := hpres "tau_1" (by simp [TwoHillActivation.compute_lookup_names])
    obtain ⟨t2, ht2⟩ := hpres "tau_2" (by simp [TwoHillActivation.compute_lookup_names])
    obtain ⟨e1, he1⟩ := hpres "m1" (by simp [TwoHillActivation.compute_lookup_names])
    obtain ⟨e2, he2⟩ := hpres "m2" (by simp [TwoHillActivation.compute_lookup_names])
    refine ⟨?_, ?_, ?_, ?_, ?_⟩
    · intro n hn
      have hn' := hsub n hn
      refine ⟨?_, hpres n hn'⟩
      simp only [ActivationFunction.declared, hd]
      simp only [TwoHillActivation.compute_lookup_names, List.mem_cons, List.mem_singleton,
        List.not_mem_nil, or_false] at hn'
      rcases hn' with rfl | rfl | rfl | rfl | rfl <;>
        simp [TwoHillActivation.new, ActivationFunction.new]
    · intro pow time
      have hfalse : ((TwoHillActivation.new cardiac_period).set_params
          calls).normalization_initialized_ = false := by
        rw [hflag]
        rfl
      simp [TwoHillActivation.compute, hfalse]
    · intro pow time a' hbase hinit
      have hparams : a'.params_ =
          ((TwoHillActivation.new cardiac_period).set_params calls).params_ := by
        rw [hbase]
      exact ⟨_, two_hill_compute_eq pow a' time ts t1 t2 e1 e2 hinit
        (by rw [hparams]; exact hts) (by rw [hparams]; exact ht1) (by rw [hparams]; exact ht2)
        (by rw [hparams]; exact he1) (by rw [hparams]; exact he2)⟩
    · intro pow to_string fuel
      exact two_hill_finalize_no_lookup_failure pow to_string fuel _ ⟨t1, ht1⟩ ⟨t2, ht2⟩
        ⟨e1, he1⟩ ⟨e2, he2⟩
    · intro n hn hnot
      rw [hp, foldl_map_assign_other calls _ n hnot]
      simp only [ActivationFunction.declared, hd] at hn
      simp only [TwoHillActivation.new, ActivationFunction.new, List.map_cons,
        List.map_nil, List.mem_cons, List.mem_singleton, List.not_mem_nil, or_false] at hn
      rcases hn with rfl | rfl | rfl | rfl | rfl <;> simp <;> rfl

end Lookups

/-! ## The vessel: residual and forward assembly agree -/

section VesselAgreement

variable {K : Type} [LinearOrderedField K] [FloorRing K]

/-- Claim C22: starting from the all-zero system, with pairwise distinct
variable indices (below the number `n` of variables), distinct equation
indices and four parameter indices, for all finite `y`, `dy` and parameters,
the residuals that `update_gradient` writes for equations 0 and 1 are rows 0
and 1 of `E * dy + F * y` assembled from what `update_constant` and
`update_solution` write at the same `y`, `dy` and parameters. -/
theorem vessel_residual_agrees (self : Block) (v0 v1 v2 v3 e0 e1 pR pC pL pS n : ℕ)
    (hv : self.global_var_ids = [v0, v1, v2, v3]) (he : self.global_eqn_ids = [e0, e1])
    (hp : self.global_param_ids = [pR, pC, pL, pS])
    (hvn : [v0, v1, v2, v3].Nodup) (hen : e0 ≠ e1)
    (hn : ∀ v ∈ [v0, v1, v2, v3], v < n)
    (jacobian : SparseMatrix K) (residual : ℕ → Dbl K) (parameters y dy : ℕ → K) :
    (BloodVessel.update_gradient self jacobian residual (fun k => fin (parameters k))
        (fun k => fin (y k)) (fun k => fin (dy k))).2 e0 =
      (BloodVessel.update_solution self
        (BloodVessel.update_constant self SparseSystem.zero (fun k => fin (parameters k)))
        (fun k => fin (parameters k)) (fun k => fin (y k)) (fun k => fin (dy k))).residual_row
        n (fun k => fin (y k)) (fun k => fin (dy k)) e0 ∧
    (BloodVessel.update_gradient self jacobian residual (fun k => fin (parameters k))
        (fun k => fin (y k)) (fun k => fin (dy k))).2 e1 =
      (BloodVessel.update_solution self
        (BloodVessel.update_constant self SparseSystem.zero (fun k => fin (parameters k)))
        (fun k => fin (parameters k)) (fun k => fin (y k)) (fun k => fin (dy k))).residual_row
        n (fun k => fin (y k)) (fun k => fin (dy k)) e1 ∧
    (∃ r0 r1 : K,
      (BloodVessel.update_gradient self jacobian residual (fun k => fin (parameters k))
        (fun k => fin (y k)) (fun k => fin (dy k))).2 e0 = fin r0 ∧
      (BloodVessel.update_gradient self jacobian residual (fun k => fin (parameters k))
        (fun k => fin (y k)) (fun k => fin (dy k))).2 e1 = fin r1) := by
  simp only [List.nodup_cons, List.mem_cons, List.mem_singleton, not_or, List.not_mem_nil,
    not_false_eq_true, List.nodup_nil, and_true] at hvn
  obtain ⟨⟨h01, h02, h03⟩, ⟨h12, h13⟩, h23⟩ := hvn
  have hn0 := hn v0 (by simp)
  have hn1 := hn v1 (by simp)
  have hn2 := hn v2 (by simp)
  have hn3 := hn v3 (by simp)
  have hr0 : (BloodVessel.update_gradient self jacobian residual (fun k => fin (parameters k))
        (fun k => fin (y k)) (fun k => fin (dy k))).2 e0 =
      fin (y v0 - (parameters pR + parameters pS * |y v1|) * y v1 - y v2 -
        parameters pL * dy v3) := by
    simp [BloodVessel.update_gradient, hv, he, hp, Block.at, BloodVessel.RESISTANCE,
      BloodVessel.CAPACITANCE, BloodVessel.INDUCTANCE, BloodVessel.STENOSIS_COEFFICIENT, hen]
  have hr1 : (BloodVessel.update_gradient self jacobian residual (fun k => fin (parameters k))
        (fun k => fin (y k)) (fun k => fin (dy k))).2 e1 =
      fin (y v1 - y v3 - parameters pC * dy v0 +
        parameters pC * (parameters pR + 2 * (parameters pS * |y v1|)) * dy v1) := by
    simp [BloodVessel.update_gradient, hv, he, hp, Block.at, BloodVessel.RESISTANCE,
      BloodVessel.CAPACITANCE, BloodVessel.INDUCTANCE, BloodVessel.STENOSIS_COEFFICIENT]
  refine ⟨?_, ?_, _, _, hr0, hr1⟩
  · rw [hr0]
    unfold SparseSystem.residual_row
    rw [dbl_row_sum _ (fun j => if j = v3 then -parameters pL else 0) dy n, dbl_row_sum _
      (fun j => (if j = v0 then 1 else 0) + (if j = v2 then -1 else 0) +
        (if j = v1 then -parameters pR - parameters pS * |y v1| else 0)) y n]
    · simp [BloodVessel.update_solution, BloodVessel.update_constant, SparseSystem.zero,
        add_mul, Finset.sum_add_distrib, Finset.sum_ite_eq', hn0, hn1, hn2, hn3]
      ring
    · intro j
      simp [BloodVessel.update_solution, BloodVessel.update_constant, SparseSystem.zero,
        SparseMatrix.zero, hv, he, hp, Block.at, BloodVessel.RESISTANCE,
        BloodVessel.CAPACITANCE, BloodVessel.INDUCTANCE, BloodVessel.STENOSIS_COEFFICIENT,
        hen, Ne.symm hen]
      split_ifs <;> simp_all
    · intro j
      simp [BloodVessel.update_solution, BloodVessel.update_constant, SparseSystem.zero,
        SparseMatrix.zero, hv, he, hp, Block.at, BloodVessel.RESISTANCE,
        BloodVessel.CAPACITANCE, BloodVessel.INDUCTANCE, BloodVessel.STENOSIS_COEFFICIENT,
        hen, Ne.symm hen]
      split_ifs <;> simp_all
  · rw [hr1]
    unfold SparseSystem.residual_row
    rw [dbl_row_sum _ (fun j => (if j = v0 then -parameters pC else 0) +
        (if j = v1 then parameters pC * (parameters pR + 2 * (parameters pS * |y v1|)) else 0))
        dy n, dbl_row_sum _
      (fun j => (if j = v1 then 1 else 0) + (if j = v3 then -1 else 0)) y n]
    · simp [BloodVessel.update_solution, BloodVessel.update_constant, SparseSystem.zero,
        add_mul, Finset.sum_add_distrib, Finset.sum_ite_eq', hn0, hn1, hn2, hn3]
      ring
    · intro j
      simp [BloodVessel.update_solution, BloodVessel.update_constant, SparseSystem.zero,
        SparseMatrix.zero, hv, he, hp, Block.at, BloodVessel.RESISTANCE,
        BloodVessel.CAPACITANCE, BloodVessel.INDUCTANCE, BloodVessel.STENOSIS_COEFFICIENT,
        hen, Ne.symm hen]
      split_ifs <;> simp_all
    · intro j
      simp [BloodVessel.update_solution, BloodVessel.update_constant, SparseSystem.zero,
        SparseMatrix.zero, hv, he, hp, Block.at, BloodVessel.RESISTANCE,
        BloodVessel.CAPACITANCE, BloodVessel.INDUCTANCE, BloodVessel.STENOSIS_COEFFICIENT,
        hen, Ne.symm hen]
      split_ifs <;> simp_all

/-- Witness for `vessel_residual_agrees`: variable indices 0..3, equation
indices 0 and 1, parameter indices 0..3 with `R = 1`, `C = 2`, `L = 3`,
stenosis coefficient 0.5, `y = (5, -3, 4, 1)`, `dy = (1, 2, 0, 7)`. -/
theorem vessel_residual_agrees_witness :
    [0, 1, 2, 3].Nodup ∧ (0 : ℕ) ≠ 1 ∧ (∀ v ∈ [0, 1, 2, 3], v < 4) ∧
    (BloodVessel.update_gradient ⟨[0, 1, 2, 3], [0, 1], [0, 1, 2, 3]⟩ SparseMatrix.zero
        (fun _ => fin 0)
        (fun k => fin ((fun k => if k = 0 then 1 else if k = 1 then 2 else if k = 2 then 3
          else 0.5 : ℕ → ℝ) k))
        (fun k => fin ((fun k => if k = 0 then 5 else if k = 1 then -3 else if k = 2 then 4
          else 1 : ℕ → ℝ) k))
        (fun k => fin ((fun k => if k = 0 then 1 else if k = 1 then 2 else if k = 2 then 0
          else 7 : ℕ → ℝ) k))).2 0 =
      (BloodVessel.update_solution ⟨[0, 1, 2, 3], [0, 1], [0, 1, 2, 3]⟩
        (BloodVessel.update_constant ⟨[0, 1, 2, 3], [0, 1], [0, 1, 2, 3]⟩ SparseSystem.zero
          (fun k => fin ((fun k => if k = 0 then 1 else if k = 1 then 2 else if k = 2 then 3
            else 0.5 : ℕ → ℝ) k)))
        (fun k => fin ((fun k => if k = 0 then 1 else if k = 1 then 2 else if k = 2 then 3
          else 0.5 : ℕ → ℝ) k))
        (fun k => fin ((fun k => if k = 0 then 5 else if k = 1 then -3 else if k = 2 then 4
          else 1 : ℕ → ℝ) k))
        (fun k => fin ((fun k => if k = 0 then 1 else if k = 1 then 2 else if k = 2 then 0
          else 7 : ℕ → ℝ) k))).residual_row 4
        (fun k => fin ((fun k => if k = 0 then 5 else if k = 1 then -3 else if k = 2 then 4
          else 1 : ℕ → ℝ) k))
        (fun k => fin ((fun k => if k = 0 then 1 else if k = 1 then 2 else if k = 2 then 0
          else 7 : ℕ → ℝ) k)) 0 :=
  ⟨by decide, by decide, by decide,
    (vessel_residual_agrees ⟨[0, 1, 2, 3], [0, 1], [0, 1, 2, 3]⟩ 0 1 2 3 0 1 0 1 2 3 4
      rfl rfl rfl (by decide) (by decide) (by decide) SparseMatrix.zero (fun _ => fin 0)
      (fun k => if k = 0 then 1 else if k = 1 then 2 else if k = 2 then 3 else 0.5)
      (fun k => if k = 0 then 5 else if k = 1 then -3 else if k = 2 then 4 else 1)
      (fun k => if k = 0 then 1 else if k = 1 then 2 else if k = 2 then 0 else 7)).1⟩

end VesselAgreement

/-! ## The vessel: the `D` entries are the Jacobian correction -/

section VesselJacobian

/-- Away from zero the absolute value has the sign as derivative. -/
theorem hasDerivAt_abs_sgn {q : ℝ} (hq : q ≠ 0) :
    HasDerivAt (fun x : ℝ => |x|) (sgn_spec q) q := by
  unfold sgn_spec
  rcases lt_or_gt_of_ne hq with h | h
  · rw [if_neg (not_lt.mpr h.le), if_pos h]
    exact hasDerivAt_abs_neg h
  · rw [if_pos h]
    exact hasDerivAt_abs_pos h

/-- The sign times the value is the absolute value. -/
theorem sgn_spec_mul_self (q : ℝ) : sgn_spec q * q = |q| := by
  unfold sgn_spec
  rcases lt_trichotomy 0 q with h | h | h
  · rw [if_pos h, abs_of_pos h, one_mul]
  · subst h
    simp
  · rw [if_neg (not_lt.mpr h.le), if_pos h, abs_of_neg h]
    ring

/-- Claim C23: for distinct equation indices, all finite parameters and states
and every inlet flow `Q_in` other than 0, the derivative with respect to `Q_in`
of `F[eqn 0, Q_in](Q_in) * Q_in` is `F[eqn 0, Q_in] + D[eqn 0, Q_in]`, which is
`-(R + 2 * stenosis_coefficient * |Q_in|)`, and the derivative with respect to
`Q_in` of `E[eqn 1, Q_in](Q_in) * dQ_in/dt` is `D[eqn 1, Q_in]`. -/
theorem vessel_D_is_jacobian_correction (self : Block) (system : SparseSystem ℝ)
    (parameters y dy : ℕ → ℝ)
    (hen : Block.at self.global_eqn_ids 0 ≠ Block.at self.global_eqn_ids 1)
    (hq : y (Block.at self.global_var_ids 1) ≠ 0) :
    HasDerivAt
      (fun q => BloodVessel.entry_at SparseSystem.F self system parameters y dy q
        (Block.at self.global_eqn_ids 0) (Block.at self.global_var_ids 1) * q)
      (BloodVessel.entry_at SparseSystem.F self system parameters y dy
          (y (Block.at self.global_var_ids 1))
          (Block.at self.global_eqn_ids 0) (Block.at self.global_var_ids 1) +
        BloodVessel.entry_at SparseSystem.D self system parameters y dy
          (y (Block.at self.global_var_ids 1))
          (Block.at self.global_eqn_ids 0) (Block.at self.global_var_ids 1))
      (y (Block.at self.global_var_ids 1)) ∧
    BloodVessel.entry_at SparseSystem.F self system parameters y dy
        (y (Block.at self.global_var_ids 1))
        (Block.at self.global_eqn_ids 0) (Block.at self.global_var_ids 1) +
      BloodVessel.entry_at SparseSystem.D self system parameters y dy
        (y (Block.at self.global_var_ids 1))
        (Block.at self.global_eqn_ids 0) (Block.at self.global_var_ids 1) =
      -(parameters (Block.at self.global_param_ids BloodVessel.RESISTANCE) +
        2 * parameters (Block.at self.global_param_ids BloodVessel.STENOSIS_COEFFICIENT) *
          |y (Block.at self.global_var_ids 1)|) ∧
    HasDerivAt
      (fun q => BloodVessel.entry_at SparseSystem.E self system parameters y dy q
        (Block.at self.global_eqn_ids 1) (Block.at self.global_var_ids 1) *
        dy (Block.at self.global_var_ids 1))
      (BloodVessel.entry_at SparseSystem.D self system parameters y dy
        (y (Block.at self.global_var_ids 1))
        (Block.at self.global_eqn_ids 1) (Block.at self.global_var_ids 1))
      (y (Block.at self.global_var_ids 1)) := by
  have hF : ∀ q, BloodVessel.entry_at SparseSystem.F self system parameters y dy q
      (Block.at self.global_eqn_ids 0) (Block.at self.global_var_ids 1) =
      -(parameters (Block.at self.global_param_ids BloodVessel.RESISTANCE) +
        parameters (Block.at self.global_param_ids BloodVessel.STENOSIS_COEFFICIENT) * |q|) := by
    intro q
    simp [BloodVessel.entry_at, BloodVessel.update_solution, Dbl.value]
    ring
  have hE : ∀ q, BloodVessel.entry_at SparseSystem.E self system parameters y dy q
      (Block.at self.global_eqn_ids 1) (Block.at self.global_var_ids 1) =
      parameters (Block.at self.global_param_ids BloodVessel.CAPACITANCE) *
        (parameters (Block.at self.global_param_ids BloodVessel.RESISTANCE) +
          2 * (parameters (Block.at self.global_param_ids BloodVessel.STENOSIS_COEFFICIENT) *
            |q|)) := by
    intro q
    simp [BloodVessel.entry_at, BloodVessel.update_solution, Dbl.value]
  have hD0 : BloodVessel.entry_at SparseSystem.D self system parameters y dy
      (y (Block.at self.global_var_ids 1))
      (Block.at self.global_eqn_ids 0) (Block.at self.global_var_ids 1) =
      -(parameters (Block.at self.global_param_ids BloodVessel.STENOSIS_COEFFICIENT) *
        |y (Block.at self.global_var_ids 1)|) := by
    simp [BloodVessel.entry_at, BloodVessel.update_solution, Dbl.value, hen]
  have hD1 : BloodVessel.entry_at SparseSystem.D self system parameters y dy
      (y (Block.at self.global_var_ids 1))
      (Block.at self.global_eqn_ids 1) (Block.at self.global_var_ids 1) =
      2 * parameters (Block.at self.global_param_ids BloodVessel.CAPACITANCE) *
        parameters (Block.at self.global_param_ids BloodVessel.STENOSIS_COEFFICIENT) *
        sgn_spec (y (Block.at self.global_var_ids 1)) * dy (Block.at self.global_var_ids 1) := by
    simp [BloodVessel.entry_at, BloodVessel.update_solution, Dbl.value, vessel_sgn_fin]
  have habs := hasDerivAt_abs_sgn hq
  have hmul := sgn_spec_mul_self (y (Block.at self.global_var_ids 1))
  refine ⟨?_, ?_, ?_⟩
  · simp only [hF, hD0]
    have h := (((hasDerivAt_const (y (Block.at self.global_var_ids 1))
      (parameters (Block.at self.global_param_ids BloodVessel.RESISTANCE))).add
      (habs.const_mul
        (parameters (Block.at self.global_param_ids BloodVessel.STENOSIS_COEFFICIENT)))).neg).mul
      (hasDerivAt_id (y (Block.at self.global_var_ids 1)))
    convert h using 1
    simp only [id]
    linear_combination
      parameters (Block.at self.global_param_ids BloodVessel.STENOSIS_COEFFICIENT) * hmul
  · rw [hF, hD0]
    ring
  · simp only [hE, hD1]
    have h := (((hasDerivAt_const (y (Block.at self.global_var_ids 1))
      (parameters (Block.at self.global_param_ids BloodVessel.RESISTANCE))).add
      ((habs.const_mul
        (parameters (Block.at self.global_param_ids BloodVessel.STENOSIS_COEFFICIENT))).const_mul
          2)).const_mul
      (parameters (Block.at self.global_param_ids BloodVessel.CAPACITANCE))).mul_const
      (dy (Block.at self.global_var_ids 1))
    convert h using 1
    ring

/-- Witness for `vessel_D_is_jacobian_correction`: variable indices 0..3,
equation indices 0 and 1, parameter indices 0..3 with `R = 1`, `C = 2`, `L = 3`,
stenosis coefficient 0.5, `Q_in = -3`: the sum of the `F` and `D` entries at
(equation 0, `Q_in`) is `-(1 + 2 * 0.5 * 3)`. -/
theorem vessel_D_is_jacobian_correction_witness :
    (0 : ℕ) ≠ 1 ∧ (-3 : ℝ) ≠ 0 ∧
    BloodVessel.entry_at SparseSystem.F ⟨[0, 1, 2, 3], [0, 1], [0, 1, 2, 3]⟩ SparseSystem.zero
        (fun k => if k = 0 then 1 else if k = 1 then 2 else if k = 2 then 3 else 0.5)
        (fun k => if k = 0 then 5 else if k = 1 then -3 else if k = 2 then 4 else 1)
        (fun k => if k = 0 then 1 else if k = 1 then 2 else if k = 2 then 0 else 7)
        (-3 : ℝ) 0 1 +
      BloodVessel.entry_at SparseSystem.D ⟨[0, 1, 2, 3], [0, 1], [0, 1, 2, 3]⟩ SparseSystem.zero
        (fun k => if k = 0 then 1 else if k = 1 then 2 else if k = 2 then 3 else 0.5)
        (fun k => if k = 0 then 5 else if k = 1 then -3 else if k = 2 then 4 else 1)
        (fun k => if k = 0 then 1 else if k = 1 then 2 else if k = 2 then 0 else 7)
        (-3 : ℝ) 0 1 =
      -(1 + 2 * 0.5 * |(-3 : ℝ)|) :=
  ⟨by decide, by norm_num,
    (vessel_D_is_jacobian_correction ⟨[0, 1, 2, 3], [0, 1], [0, 1, 2, 3]⟩ SparseSystem.zero
      (fun k => if k = 0 then 1 else if k = 1 then 2 else if k = 2 then 3 else 0.5)
      (fun k => if k = 0 then 5 else if k = 1 then -3 else if k = 2 then 4 else 1)
      (fun k => if k = 0 then 1 else if k = 1 then 2 else if k = 2 then 0 else 7)
      (by decide) (by simp [Block.at])).2.1⟩

end VesselJacobian

/-! ## Later phases leave the constant phase alone -/

section Frame

variable {K : Type} [LinearOrderedField K] [FloorRing K]

/-- Claim C24: with pairwise distinct variable indices and pairwise distinct
equation indices, for every starting system and all inputs: the vessel's
`update_solution` leaves the six entries written by its `update_constant`
unchanged and changes nothing outside the rows of its two equations; the
chamber's `update_time` leaves the six entries written by its `update_constant`
unchanged, changes no entry other than `F[eqn 0, Vc]` and `C[eqn 0]`, and
stores no key other than `(eqn 0, Vc)`. -/
theorem later_phases_frame {A : Type} (vessel : Block) (chamber : LinearElastanceChamber K A)
    (v0 v1 v2 v3 e0 e1 w0 w1 w2 w3 w4 f0 f1 f2 : ℕ)
    (hv : vessel.global_var_ids = [v0, v1, v2, v3]) (he : vessel.global_eqn_ids = [e0, e1])
    (hvn : [v0, v1, v2, v3].Nodup) (hen : [e0, e1].Nodup)
    (hw : chamber.global_var_ids = [w0, w1, w2, w3, w4])
    (hf : chamber.global_eqn_ids = [f0, f1, f2])
    (hwn : [w0, w1, w2, w3, w4].Nodup) (hfn : [f0, f1, f2].Nodup)
    (compute : A → Dbl K → Except Error (Dbl K) × A) (time : Dbl K) (phi : Dbl K) (af : A)
    (hphi : compute chamber.activation_func_ time = (.ok phi, af))
    (system : SparseSystem K) (parameters y dy : ℕ → Dbl K) :
    (((BloodVessel.update_solution vessel (BloodVessel.update_constant vessel system parameters)
          parameters y dy).E.val e0 v3 =
        (BloodVessel.update_constant vessel system parameters).E.val e0 v3 ∧
      (BloodVessel.update_solution vessel (BloodVessel.update_constant vessel system parameters)
          parameters y dy).E.val e1 v0 =
        (BloodVessel.update_constant vessel system parameters).E.val e1 v0 ∧
      (BloodVessel.update_solution vessel (BloodVessel.update_constant vessel system parameters)
          parameters y dy).F.val e0 v0 =
        (BloodVessel.update_constant vessel system parameters).F.val e0 v0 ∧
      (BloodVessel.update_solution vessel (BloodVessel.update_constant vessel system parameters)
          parameters y dy).F.val e0 v2 =
        (BloodVessel.update_constant vessel system parameters).F.val e0 v2 ∧
      (BloodVessel.update_solution vessel (BloodVessel.update_constant vessel system parameters)
          parameters y dy).F.val e1 v1 =
        (BloodVessel.update_constant vessel system parameters).F.val e1 v1 ∧
      (BloodVessel.update_solution vessel (BloodVessel.update_constant vessel system parameters)
          parameters y dy).F.val e1 v3 =
        (BloodVessel.update_constant vessel system parameters).F.val e1 v3) ∧
      (∀ s i j, i ≠ e0 → i ≠ e1 →
        (BloodVessel.update_solution vessel s parameters y dy).F.val i j = s.F.val i j ∧
        (BloodVessel.update_solution vessel s parameters y dy).E.val i j = s.E.val i j ∧
        (BloodVessel.update_solution vessel s parameters y dy).D.val i j = s.D.val i j) ∧
      (∀ s, (BloodVessel.update_solution vessel s parameters y dy).C = s.C) ∧
      (∀ s k, (k ∈ (BloodVessel.update_solution vessel s parameters y dy).F.stored ∨
          k ∈ (BloodVessel.update_solution vessel s parameters y dy).E.stored ∨
          k ∈ (BloodVessel.update_solution vessel s parameters y dy).D.stored) →
        (k ∈ s.F.stored ∨ k ∈ s.E.stored ∨ k ∈ s.D.stored) ∨ k.1 = e0 ∨ k.1 = e1)) ∧
    (∃ chamber' system',
      LinearElastanceChamber.update_time compute time chamber
        (LinearElastanceChamber.update_constant chamber system parameters) parameters =
        .ok (chamber', system') ∧
      (system'.F.val f0 w0 =
          (LinearElastanceChamber.update_constant chamber system parameters).F.val f0 w0 ∧
        system'.F.val f1 w0 =
          (LinearElastanceChamber.update_constant chamber system parameters).F.val f1 w0 ∧
        system'.F.val f1 w2 =
          (LinearElastanceChamber.update_constant chamber system parameters).F.val f1 w2 ∧
        system'.F.val f2 w1 =
          (LinearElastanceChamber.update_constant chamber system parameters).F.val f2 w1 ∧
        system'.F.val f2 w3 =
          (LinearElastanceChamber.update_constant chamber system parameters).F.val f2 w3 ∧
        system'.E.val f2 w4 =
          (LinearElastanceChamber.update_constant chamber system parameters).E.val f2 w4) ∧
      (∀ i j, ¬ (i = f0 ∧ j = w4) → system'.F.val i j =
        (LinearElastanceChamber.update_constant chamber system parameters).F.val i j) ∧
      system'.E = (LinearElastanceChamber.update_constant chamber system parameters).E ∧
      system'.D = (LinearElastanceChamber.update_constant chamber system parameters).D ∧
      (∀ i, i ≠ f0 → system'.C i =
        (LinearElastanceChamber.update_constant chamber system parameters).C i) ∧
      system'.F.stored = insert (f0, w4)
        (LinearElastanceChamber.update_constant chamber system parameters).F.stored) := by
  simp only [List.nodup_cons, List.mem_cons, List.mem_singleton, not_or, List.not_mem_nil,
    not_false_eq_true, List.nodup_nil, and_true] at hvn hen hwn hfn
  obtain ⟨⟨h01, h02, h03⟩, ⟨h12, h13⟩, h23⟩ := hvn
  obtain ⟨⟨g01, g02, g03, g04⟩, ⟨g12, g13, g14⟩, ⟨g23, g24⟩, g34⟩ := hwn
  obtain ⟨⟨k01, k02⟩, k12⟩ := hfn
  refine ⟨⟨⟨?_, ?_, ?_, ?_, ?_, ?_⟩, ?_, ?_, ?_⟩, ?_⟩
  · simp [BloodVessel.update_solution, BloodVessel.update_constant, hv, he, Block.at, hen,
      Ne.symm hen, h01, h02, h03, h12, h13, h23, Ne.symm h01, Ne.symm h02, Ne.symm h03,
      Ne.symm h12, Ne.symm h13, Ne.symm h23]
  · simp [BloodVessel.update_solution, BloodVessel.update_constant, hv, he, Block.at, hen,
      Ne.symm hen, h01, h02, h03, h12, h13, h23, Ne.symm h01, Ne.symm h02, Ne.symm h03,
      Ne.symm h12, Ne.symm h13, Ne.symm h23]
  · simp [BloodVessel.update_solution, BloodVessel.update_constant, hv, he, Block.at, hen,
      Ne.symm hen, h01, h02, h03, h12, h13, h23, Ne.symm h01, Ne.symm h02, Ne.symm h03,
      Ne.symm h12, Ne.symm h13, Ne.symm h23]
  · simp [BloodVessel.update_solution, BloodVessel.update_constant, hv, he, Block.at, hen,
      Ne.symm hen, h01, h02, h03, h12, h13, h23, Ne.symm h01, Ne.symm h02, Ne.symm h03,
      Ne.symm h12, Ne.symm h13, Ne.symm h23]
  · simp [BloodVessel.update_solution, BloodVessel.update_constant, hv, he, Block.at, hen,
      Ne.symm hen, h01, h02, h03, h12, h13, h23, Ne.symm h01, Ne.symm h02, Ne.symm h03,
      Ne.symm h12, Ne.symm h13, Ne.symm h23]
  · simp [BloodVessel.update_solution, BloodVessel.update_constant, hv, he, Block.at, hen,
      Ne.symm hen, h01, h02, h03, h12, h13, h23, Ne.symm h01, Ne.symm h02, Ne.symm h03,
      Ne.symm h12, Ne.symm h13, Ne.symm h23]
  · intro s i j hi0 hi1
    simp [BloodVessel.update_solution, hv, he, Block.at, hi0, hi1]
  · intro s
    rfl
  · intro s k hk
    simp only [BloodVessel.update_solution, hv, he, Block.at, coeffRef_assign_stored,
      Finset.mem_insert, List.getD_cons_zero, List.getD_cons_succ] at hk
    rcases hk with (rfl | hk) | (rfl | hk) | (rfl | rfl | hk)
    · exact Or.inr (Or.inl rfl)
    · exact Or.inl (Or.inl hk)
    · exact Or.inr (Or.inr rfl)
    · exact Or.inl (Or.inr (Or.inl hk))
    · exact Or.inr (Or.inr rfl)
    · exact Or.inr (Or.inl rfl)
    · exact Or.inl (Or.inr (Or.inr hk))
  · refine ⟨_, _, chamber_update_time_eq compute time chamber _ parameters phi af hphi,
      ⟨?_, ?_, ?_, ?_, ?_, ?_⟩, ?_, rfl, rfl, ?_, ?_⟩
    · simp [hw, hf, Block.at, g04, Ne.symm g04]
    · simp [hw, hf, Block.at, k01, Ne.symm k01]
    · simp [hw, hf, Block.at, k01, Ne.symm k01]
    · simp [hw, hf, Block.at, k02, Ne.symm k02]
    · simp [hw, hf, Block.at, k02, Ne.symm k02]
    · rfl
    · intro i j hij
      simp only [hw, hf, Block.at, coeffRef_assign_val, List.getD_cons_zero,
        List.getD_cons_succ]
      rw [if_neg hij]
    · intro i hi
      simp [hw, hf, Block.at, vec_assign_apply, hi]
    · simp [hw, hf, Block.at, coeffRef_assign_stored]

/-- Witness for `later_phases_frame`: a vessel with variable indices 0..3 and
equation indices 0, 1, a chamber with variable indices 0..4 and equation indices
0, 1, 2, parameters `(1, 2, 3, 0.5)`, `y = (0, -3, 0, 0)`, activation value 0.25:
after `update_solution` the entry `E[0, 3]` still holds `-L = -3`. -/
theorem later_phases_frame_witness :
    [0, 1, 2, 3].Nodup ∧ [0, 1].Nodup ∧ [0, 1, 2, 3, 4].Nodup ∧ [0, 1, 2].Nodup ∧
    (BloodVessel.update_solution ⟨[0, 1, 2, 3], [0, 1], [0, 1, 2, 3]⟩
        (BloodVessel.update_constant ⟨[0, 1, 2, 3], [0, 1], [0, 1, 2, 3]⟩ SparseSystem.zero
          (fun k => fin ((fun k => if k = 0 then 1 else if k = 1 then 2 else if k = 2 then 3
            else 0.5 : ℕ → ℝ) k)))
        (fun k => fin ((fun k => if k = 0 then 1 else if k = 1 then 2 else if k = 2 then 3
          else 0.5 : ℕ → ℝ) k))
        (fun k => fin ((fun k => if k = 1 then -3 else 0 : ℕ → ℝ) k))
        (fun _ => fin (0 : ℝ))).E.val 0 3 =
      (BloodVessel.update_constant ⟨[0, 1, 2, 3], [0, 1], [0, 1, 2, 3]⟩ SparseSystem.zero
        (fun k => fin ((fun k => if k = 0 then 1 else if k = 1 then 2 else if k = 2 then 3
          else 0.5 : ℕ → ℝ) k))).E.val 0 3 :=
  ⟨by decide, by decide, by decide, by decide,
    (later_phases_frame ⟨[0, 1, 2, 3], [0, 1], [0, 1, 2, 3]⟩
      { global_var_ids := [0, 1, 2, 3, 4], global_eqn_ids := [0, 1, 2],
        global_param_ids := [0, 1, 2], Elas := fin (0 : ℝ), activation_func_ := () }
      0 1 2 3 0 1 0 1 2 3 4 0 1 2 rfl rfl (by decide) (by decide) rfl rfl (by decide)
      (by decide) (fun (_ : Unit) (_ : Dbl ℝ) => (Except.ok (fin 0.25), ())) (fin 0)
      (fin 0.25) () rfl SparseSystem.zero
      (fun k => fin ((fun k => if k = 0 then 1 else if k = 1 then 2 else if k = 2 then 3
        else 0.5 : ℕ → ℝ) k))
      (fun k => fin ((fun k => if k = 1 then -3 else 0 : ℕ → ℝ) k))
      (fun _ => fin (0 : ℝ))).1.1.1⟩

end Frame

/-! ## Bounds on the chamber elastance -/

section ElastanceBounds

variable {K : Type} [LinearOrderedField K] [FloorRing K]

/-- For finite inputs and `t_twitch` other than zero the half-cosine value is a
finite number in `[0, 1]`. -/
theorem half_cosine_value_range (cos : K → K) (M_PI : K)
    (hcos : ∀ x, -1 ≤ cos x ∧ cos x ≤ 1)
    (a : HalfCosineActivation K) (t T ta tw : K)
    (hT : a.cardiac_period_ = fin T) (ha : a.params_ "t_active" = some (fin ta))
    (hw : a.params_ "t_twitch" = some (fin tw)) (htw : tw ≠ 0) :
    ∃ v, HalfCosineActivation.compute cos M_PI a (fin t) = .ok (fin v) ∧ 0 ≤ v ∧ v ≤ 1 := by
  rw [half_cosine_compute_eq cos M_PI a _ _ _ ha hw, hT]
  obtain ⟨c, hc, hceq, -, -⟩ := half_cosine_t_contract_fin t T ta
  rw [hceq]
  obtain ⟨h1, h2⟩ := hcos (2 * M_PI * c / tw)
  by_cases hle : c ≤ tw
  · refine ⟨-0.5 * cos (2 * M_PI * c / tw) + 0.5, by simp [hle, htw], ?_, ?_⟩ <;>
      norm_num <;> linarith
  · exact ⟨0, by simp [hle], le_refl _, zero_le_one⟩

/-- For finite inputs the piecewise-cosine value is a finite number in
`[0, 1]`. -/
theorem piecewise_cosine_value_range (cos : K → K) (M_PI : K)
    (hcos : ∀ x, -1 ≤ cos x ∧ cos x ≤ 1)
    (a : PiecewiseCosineActivation K) (t T cs rs cd rd : K)
    (hT : a.cardiac_period_ = fin T)
    (hcs : a.params_ "contract_start" = some (fin cs))
    (hrs : a.params_ "relax_start" = some (fin rs))
    (hcd : a.params_ "contract_duration" = some (fin cd))
    (hrd : a.params_ "relax_duration" = some (fin rd)) :
    ∃ v, PiecewiseCosineActivation.compute cos M_PI a (fin t) = .ok (fin v) ∧
      0 ≤ v ∧ v ≤ 1 := by
  rw [piecewise_cosine_compute_eq cos M_PI a _ _ _ _ _ hcs hrs hcd hrd, hT]
  simp only [fin_sub_fin]
  by_cases hc : (le (fin 0) (fmod (fin (t - cs)) (fin T)) &&
      lt (fmod (fin (t - cs)) (fin T)) (fin cd)) = true
  · obtain ⟨r, hr, h0, hd⟩ := window_true hc
    have hcd0 : cd ≠ 0 := (lt_of_le_of_lt h0 hd).ne'
    rw [if_pos hc, hr]
    exact ⟨0.5 * (1 - cos (M_PI * r / cd)), by simp [hcd0],
      (cos_branch_range cos hcos _).1⟩
  · rw [if_neg hc]
    by_cases hrl : (le (fin 0) (fmod (fin (t - rs)) (fin T)) &&
        lt (fmod (fin (t - rs)) (fin T)) (fin rd)) = true
    · obtain ⟨r, hr, h0, hd⟩ := window_true hrl
      have hrd0 : rd ≠ 0 := (lt_of_le_of_lt h0 hd).ne'
      rw [if_pos hrl, hr]
      exact ⟨0.5 * (1 + cos (M_PI * r / rd)), by simp [hrd0],
        (cos_branch_range cos hcos _).2⟩
    · rw [if_neg hrl]
      exact ⟨0, rfl, le_refl _, zero_le_one⟩

/-- When the activation value is a finite number in `[0, 1]` and `Emax >= 0`,
`update_time` computes an elastance in `[Epass, Epass + Emax]` and writes its
negation at `F[eqn 0, Vc]`. -/
theorem chamber_elastance_of_range {A : Type}
    (compute : A → Dbl K → Except Error (Dbl K) × A) (time : Dbl K)
    (self : LinearElastanceChamber K A) (system : SparseSystem K) (parameters : ℕ → Dbl K)
    (Emax Epass v : K) (af : A)
    (hphi : compute self.activation_func_ time = (.ok (fin v), af))
    (hv0 : 0 ≤ v) (hv1 : v ≤ 1) (hEmax : 0 ≤ Emax)
    (hpm : parameters (Block.at self.global_param_ids LinearElastanceChamber.EMAX) = fin Emax)
    (hpp : parameters (Block.at self.global_param_ids LinearElastanceChamber.EPASS) =
      fin Epass) :
    ∃ self' system' E,
      LinearElastanceChamber.update_time compute time self system parameters =
        .ok (self', system') ∧
      self'.Elas = fin E ∧ Epass ≤ E ∧ E ≤ Epass + Emax ∧
      system'.F.val (Block.at self.global_eqn_ids 0) (Block.at self.global_var_ids 4) =
        fin (-E) ∧
      -(Epass + Emax) ≤ -E ∧ -E ≤ -Epass := by
  have h1 : 0 ≤ Emax * v := mul_nonneg hEmax hv0
  have h2 : Emax * v ≤ Emax := by
    calc Emax * v ≤ Emax * 1 := mul_le_mul_of_nonneg_left hv1 hEmax
      _ = Emax := mul_one _
  refine ⟨_, _, Epass + Emax * v,
    chamber_update_time_eq compute time self system parameters (fin v) af hphi, ?_, ?_, ?_, ?_,
    ?_, ?_⟩
  · simp [hpm, hpp]
  · linarith
  · linarith
  · simp [hpm, hpp]
  · linarith
  · linarith

/-- Claim C25 (amended): for finite times, periods and parameters and
`Emax >= 0`, a chamber driven by a half-cosine activation function whose
`t_twitch` is not zero, and a chamber driven by a piecewise-cosine activation
function, get from `update_time` an elastance `E` with
`Epass <= E <= Epass + Emax`, and the coefficient written at `F[eqn 0, Vc]` is
`-E`, which lies in `[-(Epass + Emax), -Epass]`. -/
theorem chamber_elastance_bounds (cos : K → K) (M_PI : K)
    (hcos : ∀ x, -1 ≤ cos x ∧ cos x ≤ 1) (system : SparseSystem K) (parameters : ℕ → Dbl K)
    (Emax Epass t T : K) (hEmax : 0 ≤ Emax) :
    (∀ (self : LinearElastanceChamber K (HalfCosineActivation K)) (ta tw : K),
      self.activation_func_.cardiac_period_ = fin T →
      self.activation_func_.params_ "t_active" = some (fin ta) →
      self.activation_func_.params_ "t_twitch" = some (fin tw) → tw ≠ 0 →
      parameters (Block.at self.global_param_ids LinearElastanceChamber.EMAX) = fin Emax →
      parameters (Block.at self.global_param_ids LinearElastanceChamber.EPASS) = fin Epass →
      ∃ self' system' E,
        LinearElastanceChamber.update_time
          (fun a time => (HalfCosineActivation.compute cos M_PI a time, a)) (fin t) self system
          parameters = .ok (self', system') ∧
        self'.Elas = fin E ∧ Epass ≤ E ∧ E ≤ Epass + Emax ∧
        system'.F.val (Block.at self.global_eqn_ids 0) (Block.at self.global_var_ids 4) =
          fin (-E) ∧
        -(Epass + Emax) ≤ -E ∧ -E ≤ -Epass) ∧
    (∀ (self : LinearElastanceChamber K (PiecewiseCosineActivation K)) (cs rs cd rd : K),
      self.activation_func_.cardiac_period_ = fin T →
      self.activation_func_.params_ "contract_start" = some (fin cs) →
      self.activation_func_.params_ "relax_start" = some (fin rs) →
      self.activation_func_.params_ "contract_duration" = some (fin cd) →
      self.activation_func_.params_ "relax_duration" = some (fin rd) →
      parameters (Block.at self.global_param_ids LinearElastanceChamber.EMAX) = fin Emax →
      parameters (Block.at self.global_param_ids LinearElastanceChamber.EPASS) = fin Epass →
      ∃ self' system' E,
        LinearElastanceChamber.update_time
          (fun a time => (PiecewiseCosineActivation.compute cos M_PI a time, a)) (fin t) self
          system parameters = .ok (self', system') ∧
        self'.Elas = fin E ∧ Epass ≤ E ∧ E ≤ Epass + Emax ∧
        system'.F.val (Block.at self.global_eqn_ids 0) (Block.at self.global_var_ids 4) =
          fin (-E) ∧
        -(Epass + Emax) ≤ -E ∧ -E ≤ -Epass) := by
  refine ⟨?_, ?_⟩
  · intro self ta tw hT ha hw htw hpm hpp
    obtain ⟨v, hv, hv0, hv1⟩ :=
      half_cosine_value_range cos M_PI hcos self.activation_func_ t T ta tw hT ha hw htw
    exact chamber_elastance_of_range _ (fin t) self system parameters Emax Epass v
      self.activation_func_ (by simp only [hv]) hv0 hv1 hEmax hpm hpp
  · intro self cs rs cd rd hT hcs hrs hcd hrd hpm hpp
    obtain ⟨v, hv, hv0, hv1⟩ :=
      piecewise_cosine_value_range cos M_PI hcos self.activation_func_ t T cs rs cd rd hT hcs
        hrs hcd hrd
    exact chamber_elastance_of_range _ (fin t) self system parameters Emax Epass v
      self.activation_func_ (by simp only [hv]) hv0 hv1 hEmax hpm hpp

/-- Claim C25, counterexample: a chamber driven by a half-cosine activation
function with cardiac period 1, `t_active = 0` and `t_twitch = 0`, with
`Emax = 2 >= 0` and `Epass = 0.5`: at model time 0 the activation value is the
`NaN` of `0 / 0`, so `update_time` computes the elastance `NaN` and writes `NaN`
at `F[eqn 0, Vc]`; no number `E` with `Epass <= E <= Epass + Emax` is the
elastance. -/
theorem chamber_elastance_bounds_counterexample :
    (0 : ℝ) ≤ 2 ∧
    ∃ self' system',
      LinearElastanceChamber.update_time
        (fun a time => (HalfCosineActivation.compute Real.cos Real.pi a time, a)) (fin 0)
        { global_var_ids := [0, 1, 2, 3, 4], global_eqn_ids := [0, 1, 2],
          global_param_ids := [0, 1, 2], Elas := fin 0,
          activation_func_ := ((HalfCosineActivation.new (fin (1 : ℝ))).set_param "t_active"
            (fin 0)).set_param "t_twitch" (fin 0) }
        SparseSystem.zero
        (fun k => fin ((fun k => if k = 0 then 2 else if k = 1 then 0.5 else 10 : ℕ → ℝ) k))
        = .ok (self', system') ∧
      self'.Elas = nan ∧ system'.F.val 0 4 = nan ∧
      ¬ ∃ E : ℝ, self'.Elas = fin E ∧ 0.5 ≤ E ∧ E ≤ 0.5 + 2 := by
  have h : HalfCosineActivation.compute Real.cos Real.pi
        (((HalfCosineActivation.new (fin (1 : ℝ))).set_param "t_active" (fin 0)).set_param
          "t_twitch" (fin 0)) (fin 0) = .ok nan := by
    rw [half_cosine_compute_eq Real.cos Real.pi _ (fin 0) (fin 0) (fin 0) rfl rfl]
    simp [HalfCosineActivation.set_param, ActivationFunction.set_param,
      HalfCosineActivation.new, ActivationFunction.new, trunc]
  refine ⟨by norm_num, _, _, chamber_update_time_eq _ (fin 0) _ SparseSystem.zero _ nan
    (((HalfCosineActivation.new (fin (1 : ℝ))).set_param "t_active" (fin 0)).set_param
      "t_twitch" (fin 0)) (by simp only [h]), ?_, ?_, ?_⟩
  · simp [Block.at, LinearElastanceChamber.EMAX, LinearElastanceChamber.EPASS]
  · simp [Block.at, LinearElastanceChamber.EMAX, LinearElastanceChamber.EPASS]
    rfl
  · rintro ⟨E, hE, -⟩
    simp [Block.at, LinearElastanceChamber.EMAX, LinearElastanceChamber.EPASS] at hE

/-- Witness for `chamber_elastance_bounds`: the half-cosine chamber with cardiac
period 1, `t_active = 0.2`, `t_twitch = 0.3`, `Emax = 2`, `Epass = 0.5`, at
model time 0.25. -/
theorem chamber_elastance_bounds_witness :
    (0 : ℝ) ≤ 2 ∧ (0.3 : ℝ) ≠ 0 ∧
    ∃ self' system' E,
      LinearElastanceChamber.update_time
        (fun a time => (HalfCosineActivation.compute Real.cos Real.pi a time, a)) (fin 0.25)
        { global_var_ids := [0, 1, 2, 3, 4], global_eqn_ids := [0, 1, 2],
          global_param_ids := [0, 1, 2], Elas := fin 0,
          activation_func_ := ((HalfCosineActivation.new (fin (1 : ℝ))).set_param "t_active"
            (fin 0.2)).set_param "t_twitch" (fin 0.3) }
        SparseSystem.zero
        (fun k => fin ((fun k => if k = 0 then 2 else if k = 1 then 0.5 else 10 : ℕ → ℝ) k))
        = .ok (self', system') ∧
      self'.Elas = fin E ∧ 0.5 ≤ E ∧ E ≤ 0.5 + 2 ∧
      system'.F.val 0 4 = fin (-E) ∧ -(0.5 + 2) ≤ -E ∧ -E ≤ -0.5 :=
  ⟨by norm_num, by norm_num,
    (chamber_elastance_bounds Real.cos Real.pi
      (fun x => ⟨Real.neg_one_le_cos x, Real.cos_le_one x⟩) SparseSystem.zero
      (fun k => fin ((fun k => if k = 0 then 2 else if k = 1 then 0.5 else 10 : ℕ → ℝ) k))
      2 0.5 0.25 1 (by norm_num)).1
      { global_var_ids := [0, 1, 2, 3, 4], global_eqn_ids := [0, 1, 2],
        global_param_ids := [0, 1, 2], Elas := fin 0,
        activation_func_ := ((HalfCosineActivation.new (fin (1 : ℝ))).set_param "t_active"
          (fin 0.2)).set_param "t_twitch" (fin 0.3) }
      0.2 0.3 rfl rfl rfl (by norm_num) rfl rfl⟩

end ElastanceBounds

/-! ## The vessel gradient with and without a stenosis coefficient -/

section VesselThreeParams

variable {K : Type} [LinearOrderedField K] [FloorRing K]

/-- With three parameter ids the result depends on `alpha` only through the
three parameters. -/
theorem vessel_gradient3_indep (vars : List ℕ) (e0 e1 pR pC pL : ℕ)
    (jacobian : SparseMatrix K) (residual : ℕ → Dbl K) (alpha alpha2 y dy : ℕ → Dbl K)
    (hR : alpha2 pR = alpha pR) (hC : alpha2 pC = alpha pC) (hL : alpha2 pL = alpha pL) :
    BloodVessel.update_gradient ⟨vars, [e0, e1], [pR, pC, pL]⟩ jacobian residual alpha2 y dy =
      BloodVessel.update_gradient ⟨vars, [e0, e1], [pR, pC, pL]⟩ jacobian residual alpha y
        dy := by
  simp [BloodVessel.update_gradient, Block.at, BloodVessel.RESISTANCE,
    BloodVessel.CAPACITANCE, BloodVessel.INDUCTANCE, hR, hC, hL]

/-- The keys stored with three parameter ids. -/
theorem vessel_gradient3_stored (vars : List ℕ) (e0 e1 pR pC pL : ℕ)
    (jacobian : SparseMatrix K) (residual : ℕ → Dbl K) (alpha y dy : ℕ → Dbl K) :
    (BloodVessel.update_gradient ⟨vars, [e0, e1], [pR, pC, pL]⟩ jacobian residual alpha y
        dy).1.stored = jacobian.stored ∪ {(e0, pR), (e0, pL), (e1, pR), (e1, pC)} := by
  ext ⟨a, b⟩
  simp [BloodVessel.update_gradient, Block.at]
  tauto

/-- The keys stored with four parameter ids. -/
theorem vessel_gradient4_stored (vars : List ℕ) (e0 e1 pR pC pL pS : ℕ)
    (jacobian : SparseMatrix K) (residual : ℕ → Dbl K) (alpha y dy : ℕ → Dbl K) :
    (BloodVessel.update_gradient ⟨vars, [e0, e1], [pR, pC, pL, pS]⟩ jacobian residual alpha y
        dy).1.stored =
      (BloodVessel.update_gradient ⟨vars, [e0, e1], [pR, pC, pL]⟩ jacobian residual alpha y
        dy).1.stored ∪ {(e0, pS), (e1, pS)} := by
  ext ⟨a, b⟩
  simp [BloodVessel.update_gradient, Block.at]
  tauto

/-- With the fourth parameter 0, three and four parameter ids give the same
residual and the same entries in the columns of `R`, `C` and `L`. -/
theorem vessel_gradient34_agree (vars : List ℕ) (e0 e1 pR pC pL pS : ℕ)
    (hpn : [pR, pC, pL, pS].Nodup)
    (jacobian : SparseMatrix K) (residual : ℕ → Dbl K) (alpha y dy : ℕ → Dbl K)
    (hS : alpha pS = fin 0) :
    (BloodVessel.update_gradient ⟨vars, [e0, e1], [pR, pC, pL]⟩ jacobian residual alpha y
        dy).2 =
      (BloodVessel.update_gradient ⟨vars, [e0, e1], [pR, pC, pL, pS]⟩ jacobian residual alpha
        y dy).2 ∧
    ∀ i j, (j = pR ∨ j = pC ∨ j = pL) →
      (BloodVessel.update_gradient ⟨vars, [e0, e1], [pR, pC, pL]⟩ jacobian residual alpha y
          dy).1.val i j =
        (BloodVessel.update_gradient ⟨vars, [e0, e1], [pR, pC, pL, pS]⟩ jacobian residual
          alpha y dy).1.val i j := by
  simp only [List.nodup_cons, List.mem_cons, List.mem_singleton, not_or, List.not_mem_nil,
    not_false_eq_true, List.nodup_nil, and_true] at hpn
  obtain ⟨⟨h12, h13, h14⟩, ⟨h23, h24⟩, h34⟩ := hpn
  refine ⟨?_, ?_⟩
  · simp [BloodVessel.update_gradient, Block.at, BloodVessel.RESISTANCE,
      BloodVessel.CAPACITANCE, BloodVessel.INDUCTANCE, BloodVessel.STENOSIS_COEFFICIENT, hS]
  · rintro i j (rfl | rfl | rfl) <;>
      simp [BloodVessel.update_gradient, Block.at, BloodVessel.RESISTANCE,
        BloodVessel.CAPACITANCE, BloodVessel.INDUCTANCE, BloodVessel.STENOSIS_COEFFICIENT, hS,
        h14, h24, h34]

/-- The two entries of the stenosis column written with four parameter ids. -/
theorem vessel_gradient4_stenosis_entries (vars : List ℕ) (e0 e1 pR pC pL pS : ℕ)
    (hen : e0 ≠ e1)
    (jacobian : SparseMatrix K) (residual : ℕ → Dbl K) (alpha y dy : ℕ → Dbl K) :
    (BloodVessel.update_gradient ⟨vars, [e0, e1], [pR, pC, pL, pS]⟩ jacobian residual alpha y
        dy).1.val e0 pS = -fabs (y (Block.at vars 1)) * y (Block.at vars 1) ∧
    (BloodVessel.update_gradient ⟨vars, [e0, e1], [pR, pC, pL, pS]⟩ jacobian residual alpha y
        dy).1.val e1 pS =
      fin 2 * alpha pC * fabs (y (Block.at vars 1)) * dy (Block.at vars 1) := by
  have hne := Ne.symm hen
  refine ⟨?_, ?_⟩
  · simp [BloodVessel.update_gradient, Block.at, hen, hne]
  · simp [BloodVessel.update_gradient, Block.at, BloodVessel.CAPACITANCE]

/-- Claim C26: for a vessel with the three global parameter ids of `R`, `C` and
`L`, `update_gradient` depends on `alpha` only through these three parameters,
stores jacobian keys only at `(eqn 0, R)`, `(eqn 0, L)`, `(eqn 1, R)` and
`(eqn 1, C)`, leaves every entry outside the columns of `R`, `C` and `L` as it
was, and, when the fourth parameter of the four-parameter vessel is 0, writes
the same residual and the same entries in the columns of `R`, `C` and `L` as the
four-parameter vessel; the four-parameter vessel stores the two further keys
`(eqn 0, S)` and `(eqn 1, S)`, with the values `-|Q_in| * Q_in` and
`2 * C * |Q_in| * dQ_in/dt`. -/
theorem vessel_gradient_three_params (vars : List ℕ) (e0 e1 pR pC pL pS : ℕ)
    (hpn : [pR, pC, pL, pS].Nodup) (hen : e0 ≠ e1)
    (jacobian : SparseMatrix K) (residual : ℕ → Dbl K) (alpha y dy : ℕ → Dbl K) :
    (∀ alpha2 : ℕ → Dbl K, alpha2 pR = alpha pR → alpha2 pC = alpha pC →
      alpha2 pL = alpha pL →
      BloodVessel.update_gradient ⟨vars, [e0, e1], [pR, pC, pL]⟩ jacobian residual alpha2 y dy =
        BloodVessel.update_gradient ⟨vars, [e0, e1], [pR, pC, pL]⟩ jacobian residual alpha y
          dy) ∧
    (BloodVessel.update_gradient ⟨vars, [e0, e1], [pR, pC, pL]⟩ jacobian residual alpha y
        dy).1.stored = jacobian.stored ∪ {(e0, pR), (e0, pL), (e1, pR), (e1, pC)} ∧
    (∀ i j, j ≠ pR → j ≠ pC → j ≠ pL →
      (BloodVessel.update_gradient ⟨vars, [e0, e1], [pR, pC, pL]⟩ jacobian residual alpha y
        dy).1.val i j = jacobian.val i j) ∧
    (alpha pS = fin 0 →
      (BloodVessel.update_gradient ⟨vars, [e0, e1], [pR, pC, pL]⟩ jacobian residual alpha y
          dy).2 =
        (BloodVessel.update_gradient ⟨vars, [e0, e1], [pR, pC, pL, pS]⟩ jacobian residual alpha
          y dy).2 ∧
      ∀ i j, (j = pR ∨ j = pC ∨ j = pL) →
        (BloodVessel.update_gradient ⟨vars, [e0, e1], [pR, pC, pL]⟩ jacobian residual alpha y
            dy).1.val i j =
          (BloodVessel.update_gradient ⟨vars, [e0, e1], [pR, pC, pL, pS]⟩ jacobian residual
            alpha y dy).1.val i j) ∧
    (BloodVessel.update_gradient ⟨vars, [e0, e1], [pR, pC, pL, pS]⟩ jacobian residual alpha y
        dy).1.stored =
      (BloodVessel.update_gradient ⟨vars, [e0, e1], [pR, pC, pL]⟩ jacobian residual alpha y
        dy).1.stored ∪ {(e0, pS), (e1, pS)} ∧
    (BloodVessel.update_gradient ⟨vars, [e0, e1], [pR, pC, pL, pS]⟩ jacobian residual alpha y
        dy).1.val e0 pS = -fabs (y (Block.at vars 1)) * y (Block.at vars 1) ∧
    (BloodVessel.update_gradient ⟨vars, [e0, e1], [pR, pC, pL, pS]⟩ jacobian residual alpha y
        dy).1.val e1 pS =
      fin 2 * alpha pC * fabs (y (Block.at vars 1)) * dy (Block.at vars 1) ∧
    (∀ (q dq c : K), y (Block.at vars 1) = fin q → dy (Block.at vars 1) = fin dq →
      alpha pC = fin c →
      (BloodVessel.update_gradient ⟨vars, [e0, e1], [pR, pC, pL, pS]⟩ jacobian residual alpha y
          dy).1.val e0 pS = fin (-|q| * q) ∧
      (BloodVessel.update_gradient ⟨vars, [e0, e1], [pR, pC, pL, pS]⟩ jacobian residual alpha y
          dy).1.val e1 pS = fin (2 * c * |q| * dq)) := by
  obtain ⟨hs0, hs1⟩ := vessel_gradient4_stenosis_entries vars e0 e1 pR pC pL pS hen jacobian
    residual alpha y dy
  refine ⟨fun alpha2 hR hC hL => vessel_gradient3_indep vars e0 e1 pR pC pL jacobian residual
      alpha alpha2 y dy hR hC hL,
    vessel_gradient3_stored vars e0 e1 pR pC pL jacobian residual alpha y dy, ?_,
    fun hS => vessel_gradient34_agree vars e0 e1 pR pC pL pS hpn jacobian residual alpha y dy
      hS,
    vessel_gradient4_stored vars e0 e1 pR pC pL pS jacobian residual alpha y dy, hs0, hs1, ?_⟩
  · intro i j hR hC hL
    simp [BloodVessel.update_gradient, Block.at, hR, hC, hL]
  · intro q dq c hq hdq hc
    rw [hs0, hs1, hq, hdq, hc]
    simp

/-- Witness for `vessel_gradient_three_params`: variable indices 0..3,
equation indices 0 and 1, parameter indices 0..3, `R = 1`, `C = 2`, `L = 3`,
stenosis coefficient 0, `y = (5, -3, 4, 1)`, `dy = (1, 2, 0, 7)`: the residual
written with three parameter ids is the one written with four. -/
theorem vessel_gradient_three_params_witness :
    [0, 1, 2, 3].Nodup ∧ (0 : ℕ) ≠ 1 ∧
    (BloodVessel.update_gradient ⟨[0, 1, 2, 3], [0, 1], [0, 1, 2]⟩ SparseMatrix.zero
        (fun _ => fin 0)
        (fun k => fin ((fun k => if k = 0 then 1 else if k = 1 then 2 else if k = 2 then 3
          else 0 : ℕ → ℝ) k))
        (fun k => fin ((fun k => if k = 0 then 5 else if k = 1 then -3 else if k = 2 then 4
          else 1 : ℕ → ℝ) k))
        (fun k => fin ((fun k => if k = 0 then 1 else if k = 1 then 2 else if k = 2 then 0
          else 7 : ℕ → ℝ) k))).2 =
      (BloodVessel.update_gradient ⟨[0, 1, 2, 3], [0, 1], [0, 1, 2, 3]⟩ SparseMatrix.zero
        (fun _ => fin 0)
        (fun k => fin ((fun k => if k = 0 then 1 else if k = 1 then 2 else if k = 2 then 3
          else 0 : ℕ → ℝ) k))
        (fun k => fin ((fun k => if k = 0 then 5 else if k = 1 then -3 else if k = 2 then 4
          else 1 : ℕ → ℝ) k))
        (fun k => fin ((fun k => if k = 0 then 1 else if k = 1 then 2 else if k = 2 then 0
          else 7 : ℕ → ℝ) k))).2 :=
  ⟨by decide, by decide,
    ((vessel_gradient_three_params [0, 1, 2, 3] 0 1 0 1 2 3 (by decide) (by decide)
      SparseMatrix.zero (fun _ => fin 0)
      (fun k => fin ((fun k => if k = 0 then 1 else if k = 1 then 2 else if k = 2 then 3
        else 0 : ℕ → ℝ) k))
      (fun k => fin ((fun k => if k = 0 then 5 else if k = 1 then -3 else if k = 2 then 4
        else 1 : ℕ → ℝ) k))
      (fun k => fin ((fun k => if k = 0 then 1 else if k = 1 then 2 else if k = 2 then 0
        else 7 : ℕ → ℝ) k))).2.2.2.1 (by simp)).1⟩

end VesselThreeParams

end SvZeroD
